import Mathlib

/-!
# Incus: network allocations, cluster join and helpers

A shallow embedding of

* `networkAllocationsGet` (`cmd/incusd/network_allocations.go`), the handler of
  `GET /1.0/network-allocations`;
* the cluster-join part of `cmdInit.Run` (`incusd/main_init.go`);
* `cmdSnapshotCreate.Run` (`cmd/incus/snapshot.go`) and `unsetFieldByJsonTag`
  (`cmd/incus/utils_properties.go`);
* `loadInfo` (`incusd/cluster/info.go`), `GetNodeID` (`incus/db/cluster/nodes.mapper.go`),
  `FilterFull` (`incusd/instance/filter.go`) and the schema of `incusd/config`;
* the helpers of `shared/util.go`: `JoinTokenDecode`, `PathExists`, `AddSlash`,
  `RemoveElementsFromStringSlice`, `RemoveDuplicatesFromString`, `GetExpiry`,
  `QuotaWriter` and `ParseFileHeaders`.

Go strings are `String`, Go slices are `List`, a Go `(value, error)` result is an
`Except GoError value`, and the collaborators that are reached through the daemon
(database, network drivers, remote members) are fields of an explicit state record.
-/

namespace Incus

/-! ## Go errors -/

/-- A Go `error` value: a leaf made by `errors.New` or by `fmt.Errorf` without `%w`, a
wrapper made by `fmt.Errorf` with one `%w` verb, or an `api.StatusError` made by
`api.StatusErrorf` with an HTTP status code. -/
inductive GoError where
  | new (msg : String)
  | wrap (msg : String) (inner : GoError)
  | status (code : Nat) (msg : String)
deriving DecidableEq, Repr

/-- Go's `Unwrap` method: only the `%w` wrapper has one. -/
def GoError.Unwrap : GoError → Option GoError
  | .new _ => none
  | .wrap _ inner => some inner
  | .status _ _ => none

/-- Go's `errors.Is(err, target)` for non-nil arguments: walks the `Unwrap` chain
of `err` and compares every link with `target`. -/
def errorsIs : GoError → GoError → Bool
  | .new m, target => decide (GoError.new m = target)
  | .wrap m inner, target => decide (GoError.wrap m inner = target) || errorsIs inner target
  | .status c m, target => decide (GoError.status c m = target)

/-! ## Strings (package `shared`) -/

/-- Go's `strings.ToLower`, on the ASCII letters. (No other character is lowered to a
letter of "true", "yes" or "on", the words `IsTrue` compares with.) -/
def toLower (s : String) : String := String.mk (s.data.map Char.toLower)

/-- `StringInSlice` of `shared/util.go`: linear search for `key`. -/
def StringInSlice (key : String) : List String → Bool
  | [] => false
  | entry :: list => if entry = key then true else StringInSlice key list

/-- `IsTrue` of `shared/util.go`: "true", "1", "yes" or "on", case insensitive. -/
def IsTrue (value : String) : Bool :=
  StringInSlice (toLower value) ["true", "1", "yes", "on"]

/-- `util.ValueInSlice`: the generic form of `StringInSlice`. -/
def ValueInSlice (key : String) : List String → Bool
  | [] => false
  | entry :: list => if entry = key then true else ValueInSlice key list

/-! ## IP addresses (Go package `net`) -/

/-- A Go `net.IP`: a slice of bytes. -/
abbrev IP := List Nat

/-- The characters of one byte in decimal. -/
def byteDec (n : Nat) : List Char :=
  if n < 10 then [Nat.digitChar n]
  else if n < 100 then [Nat.digitChar (n / 10), Nat.digitChar (n % 10)]
  else [Nat.digitChar (n / 100), Nat.digitChar (n / 10 % 10), Nat.digitChar (n % 10)]

/-- Go's `uitoa` for the numbers a prefix length can take (below 1000). -/
def uitoa (n : Nat) : List Char := byteDec n

/-- The characters of a 16-bit group in lower-case hexadecimal, no leading zeros. -/
def hex16 (v : Nat) : List Char :=
  if v < 16 then [Nat.digitChar v]
  else if v < 256 then [Nat.digitChar (v / 16), Nat.digitChar (v % 16)]
  else if v < 4096 then [Nat.digitChar (v / 256), Nat.digitChar (v / 16 % 16), Nat.digitChar (v % 16)]
  else [Nat.digitChar (v / 4096), Nat.digitChar (v / 256 % 16), Nat.digitChar (v / 16 % 16),
        Nat.digitChar (v % 16)]

/-- Go's `hexString`: two lower-case hexadecimal digits per byte. -/
def hexString : List Nat → List Char
  | [] => []
  | b :: bs => Nat.digitChar (b / 16) :: Nat.digitChar (b % 16) :: hexString bs

/-- The loop of `netip.parseIPv4`: `fields` are the octets stored so far, `val` and
`digLen` the octet being read, `atStart` says the index is 0 and `prevDot` that the
previous byte was a dot. -/
def parseIPv4Aux : List Char → List Nat → Nat → Nat → Bool → Bool → Option (List Nat)
  | [], fields, val, _, _, _ => if fields.length < 3 then none else some (fields ++ [val])
  | c :: rest, fields, val, digLen, atStart, prevDot =>
    if 48 ≤ c.toNat ∧ c.toNat ≤ 57 then
      if digLen = 1 ∧ val = 0 then none
      else if val * 10 + (c.toNat - 48) > 255 then none
      else parseIPv4Aux rest fields (val * 10 + (c.toNat - 48)) (digLen + 1) false false
    else if c = '.' then
      if atStart ∨ rest = [] ∨ prevDot then none
      else if fields.length = 3 then none
      else parseIPv4Aux rest (fields ++ [val]) 0 0 false true
    else none

/-- Go's `netip.parseIPv4`: four decimal octets, no leading zeros. -/
def parseIPv4 (s : List Char) : Option (List Nat) := parseIPv4Aux s [] 0 0 true false

/-- The value of a hexadecimal digit. -/
def hexVal (c : Char) : Option Nat :=
  if 48 ≤ c.toNat ∧ c.toNat ≤ 57 then some (c.toNat - 48)
  else if 97 ≤ c.toNat ∧ c.toNat ≤ 102 then some (c.toNat - 87)
  else if 65 ≤ c.toNat ∧ c.toNat ≤ 70 then some (c.toNat - 55)
  else none

/-- The inner loop of `netip.parseIPv6`: reads hexadecimal digits into `acc`, `off` counts
them; fails on a fifth digit or a value above 16 bits. Returns `acc`, `off` and the rest. -/
def hexRun : List Char → Nat → Nat → Option (Nat × Nat × List Char)
  | [], acc, off => some (acc, off, [])
  | c :: rest, acc, off =>
    match hexVal c with
    | none => some (acc, off, c :: rest)
    | some v =>
      if off > 3 then none
      else if acc * 16 + v > 65535 then none
      else hexRun rest (acc * 16 + v) (off + 1)

/-- The outer loop of `netip.parseIPv6` (`for i < 16`): `ip` holds the bytes written so
far (its length is `i`), `ellipsis` the position of `::` if one was seen. Every round
writes at least two bytes, so eight rounds are enough. Returns the unread input, the
bytes and the ellipsis position. -/
def parseIPv6Loop : Nat → List Char → List Nat → Option Nat →
    Option (List Char × List Nat × Option Nat)
  | 0, s, ip, ellipsis => some (s, ip, ellipsis)
  | fuel + 1, s, ip, ellipsis =>
    if ¬ ip.length < 16 then some (s, ip, ellipsis)
    else
      match hexRun s 0 0 with
      | none => none
      | some (acc, off, rest) =>
        if off = 0 then none
        else if rest.head? = some '.' then
          if ellipsis.isNone ∧ ip.length ≠ 12 then none
          else if ip.length + 4 > 16 then none
          else
            match parseIPv4 s with
            | none => none
            | some ip4 => some ([], ip ++ ip4, ellipsis)
        else
          match rest with
          | [] => some ([], ip ++ [acc / 256, acc % 256], ellipsis)
          | c :: rest1 =>
            if c ≠ ':' then none
            else
              match rest1 with
              | [] => none
              | c2 :: rest2 =>
                if c2 = ':' then
                  if ellipsis.isSome then none
                  else if rest2 = [] then
                    some ([], ip ++ [acc / 256, acc % 256], some (ip.length + 2))
                  else
                    parseIPv6Loop fuel rest2 (ip ++ [acc / 256, acc % 256]) (some (ip.length + 2))
                else
                  parseIPv6Loop fuel rest1 (ip ++ [acc / 256, acc % 256]) ellipsis

/-- Go's `netip.parseIPv6` for an input without zone: the sixteen bytes. -/
def parseIPv6 (s : List Char) : Option (List Nat) :=
  let start : List Char × Option Nat :=
    match s with
    | ':' :: ':' :: rest => (rest, some 0)
    | _ => (s, none)
  if start.2.isSome ∧ start.1 = [] then some (List.replicate 16 0)
  else
    match parseIPv6Loop 8 start.1 [] start.2 with
    | none => none
    | some (rest, ip, ellipsis) =>
      if rest ≠ [] then none
      else if ip.length < 16 then
        match ellipsis with
        | none => none
        | some e => some (ip.take e ++ List.replicate (16 - ip.length) 0 ++ ip.drop e)
      else if ellipsis.isSome then none
      else some ip

/-- The first of the bytes `.`, `:` and `%` in the input, which decides the
address family in `netip.ParseAddr`. -/
def firstSeparator : List Char → Option Char
  | [] => none
  | c :: rest => if c = '.' ∨ c = ':' ∨ c = '%' then some c else firstSeparator rest

/-- The prefix that marks an IPv4 address in its 16-byte form. -/
def v4InV6Prefix : List Nat := [0, 0, 0, 0, 0, 0, 0, 0, 0, 0, 255, 255]

/-- Go's `net.ParseIP`: the address in 16-byte form, `none` for Go's `nil`. An input
with a zone (`%`) is refused. -/
def ParseIP (s : String) : Option IP :=
  if s.data.contains '%' then none
  else
    match firstSeparator s.data with
    | some '.' => (parseIPv4 s.data).map (fun ip4 => v4InV6Prefix ++ ip4)
    | some ':' => parseIPv6 s.data
    | _ => none

/-- Go's `IP.To4`: the four bytes of an IPv4 address, `none` for Go's `nil`. -/
def IP.To4 (ip : IP) : Option IP :=
  if ip.length = 4 then some ip
  else if ip.length = 16 ∧ ip.take 12 = v4InV6Prefix then some (ip.drop 12)
  else none

/-- The 16-bit groups of a 16-byte address. -/
def groups16 : List Nat → List Nat
  | hi :: lo :: rest => (hi * 256 + lo) :: groups16 rest
  | _ => []

/-- The length of the run of zero groups at the head of a list. -/
def zeroRun : List Nat → Nat
  | 0 :: rest => zeroRun rest + 1
  | _ => 0

/-- The first loop of `netip.Addr.appendTo6`: the start and length of the longest run of
at least two zero groups, the leftmost one on a tie. `i` is the index of the head of the
list, `best` the choice so far. -/
def longestZeroRun : List Nat → Nat → Option (Nat × Nat) → Option (Nat × Nat)
  | [], _, best => best
  | g :: rest, i, best =>
    let l := zeroRun (g :: rest)
    let better : Bool := decide (l ≥ 2) && (match best with
      | none => true
      | some (_, bl) => decide (l > bl))
    longestZeroRun rest (i + 1) (if better then some (i, l) else best)

/-- The groups in hexadecimal, joined by colons. -/
def joinGroups : List Nat → List Char
  | [] => []
  | [g] => hex16 g
  | g :: rest => hex16 g ++ ':' :: joinGroups rest

/-- The second loop of `netip.Addr.appendTo6`: the groups before the chosen run, `::`
in place of the run, and the groups after it; all the groups when there is no run. -/
def appendTo6 (groups : List Nat) : Option (Nat × Nat) → List Char
  | some (zs, zl) => joinGroups (groups.take zs) ++ ':' :: ':' :: joinGroups (groups.drop (zs + zl))
  | none => joinGroups groups

/-- The dotted decimal form of four bytes (`netip.Addr.appendTo4`). -/
def appendTo4 : List Nat → List Char
  | [] => []
  | [b] => byteDec b
  | b :: rest => byteDec b ++ '.' :: appendTo4 rest

/-- Go's `IP.String`: dotted decimal for an IPv4 address (also in its 16-byte form), the
compressed hexadecimal form for an IPv6 address. -/
def IP.String (ip : IP) : String :=
  if ip.length = 0 then "<nil>"
  else if ip.length ≠ 4 ∧ ip.length ≠ 16 then String.mk ('?' :: hexString ip)
  else
    match IP.To4 ip with
    | some p4 => String.mk (appendTo4 p4)
    | none => String.mk (appendTo6 (groups16 ip) (longestZeroRun (groups16 ip) 0 none))

/-- A Go `net.IPNet`: an address and a mask. -/
structure IPNet where
  IP : IP
  Mask : List Nat
deriving DecidableEq, Repr

/-- Go's `net.CIDRMask`: `ones` one-bits followed by zeros, in `bytes` bytes. -/
def CIDRMask : Nat → Nat → List Nat
  | _, 0 => []
  | ones, bytes + 1 =>
    if ones ≥ 8 then 255 :: CIDRMask (ones - 8) bytes
    else (256 - 2 ^ (8 - ones)) :: CIDRMask 0 bytes

/-- Go's `IP.Mask` for an address and a mask of the same length. -/
def IP.Mask (ip : IP) (mask : List Nat) : IP := List.zipWith Nat.land ip mask

/-- Go's `dtoi` applied to a whole string: a decimal number made of digits only, below
`0xFFFFFF`. -/
def dtoiAll : List Char → Nat → Bool → Option Nat
  | [], n, seen => if seen then some n else none
  | c :: rest, n, _ =>
    if 48 ≤ c.toNat ∧ c.toNat ≤ 57 then
      if n * 10 + (c.toNat - 48) ≥ 16777215 then none
      else dtoiAll rest (n * 10 + (c.toNat - 48)) true
    else none

/-- The input before its first `/` and the input after it, `none` without a `/`. -/
def splitSlash : List Char → Option (List Char × List Char)
  | [] => none
  | c :: rest =>
    if c = '/' then some ([], rest)
    else (splitSlash rest).map (fun p => (c :: p.1, p.2))

/-- Go's `net.ParseCIDR`: the address in 16-byte form and the network it lies in. The
mask has 4 bytes for a dotted address and 16 bytes otherwise. -/
def ParseCIDR (s : String) : Option (IP × IPNet) :=
  match splitSlash s.data with
  | none => none
  | some (addr, mask) =>
    match ParseIP (String.mk addr), dtoiAll mask 0 false with
    | some ip, some n =>
      let bytes := if firstSeparator addr = some '.' then 4 else 16
      if n > 8 * bytes then none
      else
        some (ip, { IP := IP.Mask (if bytes = 4 then ip.drop 12 else ip) (CIDRMask n bytes),
                    Mask := CIDRMask n bytes })
    | _, _ => none

/-- Go's `simpleMaskLength`: the number of leading one-bits of a mask made of ones
followed by zeros, `none` (Go's -1) for any other mask. -/
def simpleMaskLength : List Nat → Option Nat
  | [] => some 0
  | v :: rest =>
    if v = 255 then (simpleMaskLength rest).map (· + 8)
    else if rest.all (· = 0) then
      (List.range 8).find? (fun k => v = 256 - 2 ^ (8 - k))
    else none

/-- Go's `networkNumberAndMask`: the address in its shortest form and the mask cut
to the same length. -/
def networkNumberAndMask (n : IPNet) : Option (IP × List Nat) :=
  let ip? : Option IP :=
    match IP.To4 n.IP with
    | some ip => some ip
    | none => if n.IP.length ≠ 16 then none else some n.IP
  match ip? with
  | none => none
  | some ip =>
    if n.Mask.length = 4 then
      if ip.length ≠ 4 then none else some (ip, n.Mask)
    else if n.Mask.length = 16 then
      if ip.length = 4 then some (ip, n.Mask.drop 12) else some (ip, n.Mask)
    else none

/-- Go's `IPNet.String`: the address, a slash and the prefix length. -/
def IPNet.String (n : IPNet) : String :=
  match networkNumberAndMask n with
  | none => IP.String n.IP ++ "/" ++ String.mk (hexString n.Mask)
  | some (nn, m) =>
    match simpleMaskLength m with
    | none => IP.String nn ++ "/" ++ String.mk (hexString m)
    | some l => IP.String nn ++ "/" ++ String.mk (uitoa l)

/-- `network.ParseIPCIDRToNet` (package `internal/server/network`): parses an address in
CIDR notation with `net.ParseCIDR` and returns the network with the parsed address put
back in place of the network number, so the address and the prefix length as written. -/
def ParseIPCIDRToNet (ipAddressCIDR : String) : Option IPNet :=
  match ParseCIDR ipAddressCIDR with
  | none => none
  | some (listenAddress, listenAddressNet) => some { listenAddressNet with IP := listenAddress }

/-! ## URLs (package `shared/api`, Go package `net/url`) -/

/-- The UTF-8 bytes of a character. -/
def utf8Bytes (c : Char) : List Nat :=
  let n := c.toNat
  if n < 128 then [n]
  else if n < 2048 then [192 + n / 64, 128 + n % 64]
  else if n < 65536 then [224 + n / 4096, 128 + n / 64 % 64, 128 + n % 64]
  else [240 + n / 262144, 128 + n / 4096 % 64, 128 + n / 64 % 64, 128 + n % 64]

/-- The characters Go's `net/url` never escapes: letters, digits, `-`, `_`, `.`, `~`. -/
def isUnreserved (c : Char) : Bool :=
  (decide (97 ≤ c.toNat) && decide (c.toNat ≤ 122)) || (decide (65 ≤ c.toNat) && decide (c.toNat ≤ 90)) ||
  (decide (48 ≤ c.toNat) && decide (c.toNat ≤ 57)) || c == '-' || c == '_' || c == '.' || c == '~'

/-- The escape of one byte: a percent sign and two upper-case hexadecimal digits. -/
def percentByte (b : Nat) : List Char :=
  ['%', (Nat.digitChar (b / 16)).toUpper, (Nat.digitChar (b % 16)).toUpper]

/-- The escapes of a list of bytes. -/
def percentBytes : List Nat → List Char
  | [] => []
  | b :: bs => percentByte b ++ percentBytes bs

/-- Go's `url.PathEscape` on the characters of a path segment: of the reserved
characters `$&+=:@` stay, the others are escaped. -/
def pathEscapeChars : List Char → List Char
  | [] => []
  | c :: rest =>
    (if isUnreserved c || c == '$' || c == '&' || c == '+' || c == '=' || c == ':' || c == '@'
      then [c] else percentBytes (utf8Bytes c)) ++ pathEscapeChars rest

/-- Go's `url.QueryEscape` on the characters of a query component: a space becomes `+`
and every reserved character is escaped. -/
def queryEscapeChars : List Char → List Char
  | [] => []
  | c :: rest =>
    (if isUnreserved c then [c] else if c == ' ' then ['+'] else percentBytes (utf8Bytes c)) ++
      queryEscapeChars rest

/-- `api.URL.Path`: every part escaped with `url.PathEscape` and prefixed with `/`. -/
def urlPath : List String → List Char
  | [] => []
  | pathPart :: rest => '/' :: pathEscapeChars pathPart.data ++ urlPath rest

/-- `api.NewURL().Path(parts...).Project(projectName).String()`: the escaped path, and
the query `project=<name>` when the project is neither empty nor `default`. -/
def apiURL (pathParts : List String) (projectName : String) : String :=
  String.mk (urlPath pathParts ++
    (if projectName ≠ "default" ∧ projectName ≠ "" then
      "?project=".data ++ queryEscapeChars projectName.data else []))

/-- `version.APIVersion`. -/
def APIVersion : String := "1.0"

/-- Go's `%q` verb for a string: the string in double quotes. -/
def quote (s : String) : String := "\"" ++ s ++ "\""

/-! ## The network collaborators -/

/-- `api.NetworkAllocations`: one address in use. The field `Type_` is Go's `Type`. -/
structure NetworkAllocations where
  Address : String
  UsedBy : String
  Type_ : String
  NAT : Bool
  Hwaddr : String
deriving DecidableEq, Repr

/-- `api.NetworkLease`. The field `Type_` is Go's `Type`. -/
structure NetworkLease where
  Hostname : String
  Hwaddr : String
  Address : String
  Type_ : String
deriving DecidableEq, Repr

/-- `api.NetworkForward`, the field the handler reads. -/
structure NetworkForward where
  ListenAddress : String
deriving DecidableEq, Repr

/-- `api.NetworkLoadBalancer`, the field the handler reads. -/
structure NetworkLoadBalancer where
  ListenAddress : String
deriving DecidableEq, Repr

/-- A Go `map[string]string`. -/
abbrev Config := List (String × String)

/-- An index expression `m[key]` on a Go map: the value, or the empty string when the
key is absent. -/
def Config.get : Config → String → String
  | [], _ => ""
  | (k, v) :: rest, key => if k = key then v else Config.get rest key

/-- A loaded `network.Network`: what `Config()`, `ID()` and `Leases(projectName,
clientType)` return. -/
structure Network where
  Config : Config
  ID : Int
  Leases : String → Except GoError (List NetworkLease)

/-- `network.ErrNotImplemented`: the error a driver returns for an operation it does not
support. -/
def ErrNotImplemented : GoError := GoError.new "Not implemented"

/-- The part of the daemon that `networkAllocationsGet` reads: the project and network
directory of the cluster database, the network loader, and the forward and load-balancer
listings in the order the `range` loop visits them. -/
structure Daemon where
  NetworkProject : String → Except GoError String
  GetProjectNames : Except GoError (List String)
  GetNetworks : String → Except GoError (List String)
  LoadByName : String → String → Except GoError Network
  GetNetworkForwards : Int → Except GoError (List NetworkForward)
  GetNetworkLoadBalancers : Int → Except GoError (List NetworkLoadBalancer)

/-- The parts of the HTTP request the handler reads: `projectParam(r)` and the query
parameter `all-projects`. -/
structure Request where
  project : String
  allProjects : String

/-- A `response.Response`: `response.SmartError(err)` or
`response.SyncResponse(success, metadata)`. -/
inductive Response where
  | SmartError (err : GoError)
  | SyncResponse (success : Bool) (metadata : List NetworkAllocations)
deriving DecidableEq, Repr

/-! ## `networkAllocationsGet` -/

/-- The helper `ipToCIDR` of `networkAllocationsGet`: the address with a /32 or /128 mask
and whether the network uses NAT for that family. -/
def ipToCIDR (addr : String) (netConf : Config) : Except GoError (String × Bool) :=
  match ParseIP addr with
  | none => .error (GoError.new ("Invalid IP address " ++ quote addr))
  | some ip =>
    if (IP.To4 ip).isSome then
      .ok (IP.String ip ++ "/32", IsTrue (netConf.get "ipv4.nat"))
    else
      .ok (IP.String ip ++ "/128", IsTrue (netConf.get "ipv6.nat"))

/-- The loop over the key prefixes `ipv4` and `ipv6`: one allocation of type `network`
for every family whose address parses. -/
def familyLoop (projectName networkName : String) (netConf : Config) :
    List String → List NetworkAllocations → List NetworkAllocations
  | [], result => result
  | keyPrefix :: rest, result =>
    match ParseIPCIDRToNet (netConf.get (keyPrefix ++ ".address")) with
    | none => familyLoop projectName networkName netConf rest result
    | some ipNet =>
      familyLoop projectName networkName netConf rest (result ++ [{
        Address := IPNet.String ipNet
        UsedBy := apiURL [APIVersion, "networks", networkName] projectName
        Type_ := "network"
        NAT := IsTrue (netConf.get (keyPrefix ++ ".nat"))
        Hwaddr := "" }])

/-- The loop over the leases: one allocation of type `instance` for every static or
dynamic lease; a lease address that does not parse ends the request. -/
def leaseLoop (projectName : String) (netConf : Config) :
    List NetworkLease → List NetworkAllocations → Except GoError (List NetworkAllocations)
  | [], result => .ok result
  | lease :: rest, result =>
    if ValueInSlice lease.Type_ ["static", "dynamic"] then
      match ipToCIDR lease.Address netConf with
      | .error err => .error err
      | .ok (cidrAddr, nat) =>
        leaseLoop projectName netConf rest (result ++ [{
          Address := cidrAddr
          UsedBy := apiURL [APIVersion, "instances", lease.Hostname] projectName
          Type_ := "instance"
          NAT := nat
          Hwaddr := lease.Hwaddr }])
    else leaseLoop projectName netConf rest result

/-- The loop over the forwards: one allocation of type `network-forward` each. -/
def forwardLoop (projectName networkName : String) (netConf : Config) :
    List NetworkForward → List NetworkAllocations → Except GoError (List NetworkAllocations)
  | [], result => .ok result
  | forward :: rest, result =>
    match ipToCIDR forward.ListenAddress netConf with
    | .error err => .error err
    | .ok (cidrAddr, _) =>
      forwardLoop projectName networkName netConf rest (result ++ [{
        Address := cidrAddr
        UsedBy := apiURL [APIVersion, "networks", networkName, "forwards", forward.ListenAddress]
          projectName
        Type_ := "network-forward"
        NAT := false
        Hwaddr := "" }])

/-- The loop over the load-balancers: one allocation of type `network-load-balancer`
each. -/
def loadBalancerLoop (projectName networkName : String) (netConf : Config) :
    List NetworkLoadBalancer → List NetworkAllocations →
    Except GoError (List NetworkAllocations)
  | [], result => .ok result
  | loadBalancer :: rest, result =>
    match ipToCIDR loadBalancer.ListenAddress netConf with
    | .error err => .error err
    | .ok (cidrAddr, _) =>
      loadBalancerLoop projectName networkName netConf rest (result ++ [{
        Address := cidrAddr
        UsedBy := apiURL
          [APIVersion, "networks", networkName, "load-balancers", loadBalancer.ListenAddress]
          projectName
        Type_ := "network-load-balancer"
        NAT := false
        Hwaddr := "" }])

/-- The leases the handler goes on with after `n.Leases`: an error ends the request
unless `errors.Is(network.ErrNotImplemented, err)` holds, in which case there are no
leases. -/
def leasesOf (projectName networkName : String) (n : Network) :
    Except GoError (List NetworkLease) :=
  match n.Leases projectName with
  | .ok leases => .ok leases
  | .error err =>
    if !errorsIs ErrNotImplemented err then
      .error (GoError.wrap ("Failed getting leases for network " ++ quote networkName ++
        " in project " ++ quote projectName) err)
    else .ok []

/-- The body of the loop over the networks of a project: loads the network and appends
its own addresses, its leases, its forwards and its load-balancers to `result`. -/
def networkBody (d : Daemon) (projectName networkName : String)
    (result : List NetworkAllocations) : Except GoError (List NetworkAllocations) :=
  match d.LoadByName projectName networkName with
  | .error err =>
    .error (GoError.wrap ("Failed loading network " ++ quote networkName ++ " in project " ++
      quote projectName) err)
  | .ok n =>
    let netConf := n.Config
    let result := familyLoop projectName networkName netConf ["ipv4", "ipv6"] result
    match leasesOf projectName networkName n with
    | .error err => .error err
    | .ok leases =>
      match leaseLoop projectName netConf leases result with
      | .error err => .error err
      | .ok result =>
        match d.GetNetworkForwards n.ID with
        | .error err =>
          .error (GoError.wrap ("Failed getting forwards for network " ++ quote networkName ++
            " in project " ++ quote projectName) err)
        | .ok forwards =>
          match forwardLoop projectName networkName netConf forwards result with
          | .error err => .error err
          | .ok result =>
            match d.GetNetworkLoadBalancers n.ID with
            | .error err =>
              .error (GoError.wrap ("Failed getting load-balancers for network " ++
                quote networkName ++ " in project " ++ quote projectName) err)
            | .ok loadBalancers =>
              loadBalancerLoop projectName networkName netConf loadBalancers result

/-- The loop over the networks of a project. -/
def networkLoop (d : Daemon) (projectName : String) :
    List String → List NetworkAllocations → Except GoError (List NetworkAllocations)
  | [], result => .ok result
  | networkName :: rest, result =>
    match networkBody d projectName networkName result with
    | .error err => .error err
    | .ok result => networkLoop d projectName rest result

/-- The loop over the projects. -/
def projectLoop (d : Daemon) :
    List String → List NetworkAllocations → Except GoError (List NetworkAllocations)
  | [], result => .ok result
  | projectName :: rest, result =>
    match d.GetNetworks projectName with
    | .error err => .error (GoError.wrap "Failed loading networks" err)
    | .ok networkNames =>
      match networkLoop d projectName networkNames result with
      | .error err => .error err
      | .ok result => projectLoop d rest result

/-- The transaction of `networkAllocationsGet` that picks the projects: the network
project of the request, or every project name when `all-projects` is set. -/
def projectNamesOf (d : Daemon) (projectName : String) (allProjects : Bool) :
    Except GoError (List String) :=
  if !allProjects then .ok [projectName]
  else
    match d.GetProjectNames with
    | .error err => .error (GoError.wrap "Failed loading projects" err)
    | .ok projectNames => .ok projectNames

/-- The handler `networkAllocationsGet`. -/
def networkAllocationsGet (d : Daemon) (r : Request) : Response :=
  match d.NetworkProject r.project with
  | .error err => .SmartError err
  | .ok projectName =>
    match projectNamesOf d projectName (IsTrue r.allProjects) with
    | .error err => .SmartError err
    | .ok projectNames =>
      match projectLoop d projectNames [] with
      | .error err => .SmartError err
      | .ok result => .SyncResponse true result

/-! ## The cluster join of `cmdInit.Run` -/

/-- `api.ClusterMemberJoinToken`. -/
structure ClusterMemberJoinToken where
  ServerName : String
  Fingerprint : String
  Addresses : List String
  Secret : String
deriving DecidableEq, Repr

/-- `api.InitClusterPreseed` with the fields of the embedded `api.ClusterPut` that
`cmdInit.Run` reads or writes. -/
structure InitClusterPreseed where
  ServerName : String
  ClusterAddress : String
  ClusterCertificate : String
  ServerAddress : String
  ClusterCertificatePath : String
  ClusterToken : String
deriving DecidableEq, Repr

/-- `api.InitPreseed`: the node part (its `Config` map) and the optional cluster part. -/
structure InitPreseed where
  Node : Config
  Cluster : Option InitClusterPreseed
deriving DecidableEq, Repr

/-- A Go `x509.Certificate`, the field `Raw`. -/
structure Certificate where
  Raw : List Nat
deriving DecidableEq, Repr

/-- The operation handle that `UpdateCluster` returns: the outcome of its `Wait`. -/
structure Operation where
  Wait : Option GoError
deriving DecidableEq, Repr

/-- What `cmdInit.Run` reaches outside the process: the file system, the decoders of the
join token, the remote cluster members and the local daemon. -/
structure InitEnv where
  PathExists : String → Bool
  ReadFile : String → Except GoError String
  base64Decode : String → Except GoError (List Nat)
  jsonUnmarshal : List Nat → Except GoError ClusterMemberJoinToken
  CanonicalNetworkAddress : String → Nat → String
  GetRemoteCertificate : String → Except GoError Certificate
  CertFingerprint : Certificate → String
  pemBody : List Nat → String
  UpdateCluster : InitClusterPreseed → Except GoError Operation
  initDataNodeApply : Config → Option GoError
  initDataClusterApply : Option InitClusterPreseed → Option GoError

/-- The calls `cmdInit.Run` makes on the local daemon, in order. -/
inductive Action where
  | UpdateCluster (put : InitClusterPreseed)
  | initDataNodeApply (node : Config)
  | initDataClusterApply (cluster : Option InitClusterPreseed)
  | revert
deriving DecidableEq, Repr

/-- `ports.HTTPSDefaultPort`. -/
def HTTPSDefaultPort : Nat := 8443

/-- `JoinTokenDecode` of `shared/util.go`: base64, then JSON, then the four checks for
missing fields. -/
def JoinTokenDecode (env : InitEnv) (input : String) : Except GoError ClusterMemberJoinToken :=
  match env.base64Decode input with
  | .error err => .error err
  | .ok joinTokenJSON =>
    match env.jsonUnmarshal joinTokenJSON with
    | .error err => .error err
    | .ok j =>
      if j.ServerName = "" then .error (GoError.new "No server name in join token")
      else if j.Addresses.length < 1 then
        .error (GoError.new "No cluster member addresses in join token")
      else if j.Secret = "" then .error (GoError.new "No secret in join token")
      else if j.Fingerprint = "" then
        .error (GoError.new "No certificate fingerprint in join token")
      else .ok j

/-- Go's `pem.EncodeToMemory` for a block of type `CERTIFICATE` without headers: the
base64 body between the BEGIN and END lines. -/
def pemEncodeToMemory (env : InitEnv) (bytes : List Nat) : String :=
  "-----BEGIN CERTIFICATE-----\n" ++ env.pemBody bytes ++ "-----END CERTIFICATE-----\n"

/-- The loop of `cmdInit.Run` over the addresses of the join token: an address whose
certificate cannot be fetched is skipped, a certificate with another fingerprint ends
the run with an error, a certificate with the fingerprint of the token is stored and
ends the loop. -/
def addressLoop (env : InitEnv) (joinToken : ClusterMemberJoinToken) :
    List String → InitClusterPreseed → Except GoError InitClusterPreseed
  | [], cluster => .ok cluster
  | clusterAddress :: rest, cluster =>
    match env.GetRemoteCertificate
        ("https://" ++ env.CanonicalNetworkAddress clusterAddress HTTPSDefaultPort) with
    | .error _ =>
      addressLoop env joinToken rest
        { cluster with
          ClusterAddress := env.CanonicalNetworkAddress clusterAddress HTTPSDefaultPort }
    | .ok cert =>
      if joinToken.Fingerprint ≠ env.CertFingerprint cert then
        .error (GoError.new ("Certificate fingerprint mismatch between join token and " ++
          "cluster member " ++ quote clusterAddress))
      else
        .ok { cluster with
              ClusterAddress := env.CanonicalNetworkAddress clusterAddress HTTPSDefaultPort
              ClusterCertificate := pemEncodeToMemory env cert.Raw }

/-- The join-token step of `cmdInit.Run` for a cluster part with a token: decodes the
token, takes the server name from it, looks for a working cluster member, and fails when
no certificate is set afterwards. -/
def tokenStep (env : InitEnv) (cluster : InitClusterPreseed) :
    Except GoError InitClusterPreseed :=
  match JoinTokenDecode env cluster.ClusterToken with
  | .error err => .error (GoError.wrap "Invalid cluster join token" err)
  | .ok joinToken =>
    match addressLoop env joinToken joinToken.Addresses
        { cluster with ServerName := joinToken.ServerName } with
    | .error err => .error err
    | .ok cluster =>
      if cluster.ClusterCertificate = "" then
        .error (GoError.new
          "Unable to connect to any of the cluster members specified in join token")
      else .ok cluster

/-- The certificate-path step of `cmdInit.Run`: reads the cluster certificate from the
file when a path is set. -/
def certificatePathStep (env : InitEnv) (config : InitPreseed) : Except GoError InitPreseed :=
  match config.Cluster with
  | none => .ok config
  | some cluster =>
    if cluster.ClusterCertificatePath ≠ "" then
      if !env.PathExists cluster.ClusterCertificatePath then
        .error (GoError.new ("Path " ++ cluster.ClusterCertificatePath ++ " doesn't exist"))
      else
        match env.ReadFile cluster.ClusterCertificatePath with
        | .error err => .error err
        | .ok content => .ok { config with Cluster := some { cluster with ClusterCertificate := content } }
    else .ok config

/-- A Go map after the assignment `m[key] = value`. -/
def Config.set : Config → String → String → Config
  | [], key, value => [(key, value)]
  | (k, v) :: rest, key, value =>
    if k = key then (k, value) :: rest else (k, v) :: Config.set rest key value

/-- The end of `cmdInit.Run`, after the join-token step: the fallback of
`cluster.https_address`, then either the cluster join through `UpdateCluster` or the
application of the node and cluster configuration. Returns the error of the run, if any,
and the calls made on the daemon. -/
def applyStep (env : InitEnv) (config : InitPreseed) : Option GoError × List Action :=
  let node :=
    if config.Cluster.isSome ∧ config.Node.get "core.https_address" ≠ "" ∧
        config.Node.get "cluster.https_address" = "" then
      config.Node.set "cluster.https_address" (config.Node.get "core.https_address")
    else config.Node
  match (match config.Cluster with
      | some cluster =>
        if cluster.ClusterAddress ≠ "" ∧ cluster.ServerAddress ≠ "" then some cluster else none
      | none => none) with
  | some cluster =>
    let put := { cluster with
      ServerAddress := env.CanonicalNetworkAddress cluster.ServerAddress HTTPSDefaultPort
      ClusterAddress := env.CanonicalNetworkAddress cluster.ClusterAddress HTTPSDefaultPort }
    match env.UpdateCluster put with
    | .error err => (some (GoError.wrap "Failed to join cluster" err), [Action.UpdateCluster put])
    | .ok op =>
      match op.Wait with
      | some err => (some (GoError.wrap "Failed to join cluster" err), [Action.UpdateCluster put])
      | none => (none, [Action.UpdateCluster put])
  | none =>
    match env.initDataNodeApply node with
    | some err => (some err, [Action.initDataNodeApply node])
    | none =>
      match env.initDataClusterApply config.Cluster with
      | some err =>
        (some err, [Action.initDataNodeApply node, Action.initDataClusterApply config.Cluster,
          Action.revert])
      | none =>
        (none, [Action.initDataNodeApply node, Action.initDataClusterApply config.Cluster])

/-- The method `cmdInit.Run` from the point where the mode (preseed, auto, minimal or
interactive) has produced `config`: the certificate-path step, the join-token step and
the end of the run. Returns the error of the run, if any, and the calls made on the
daemon. -/
def cmdInit.Run (env : InitEnv) (config : InitPreseed) : Option GoError × List Action :=
  match certificatePathStep env config with
  | .error err => (some err, [])
  | .ok config =>
    match config.Cluster with
    | some cluster =>
      if cluster.ClusterToken ≠ "" then
        match tokenStep env cluster with
        | .error err => (some err, [])
        | .ok cluster => applyStep env { config with Cluster := some cluster }
      else applyStep env config
    | none => applyStep env config

/-! ## Scenarios -/

/-- The network `lxdbr0` of the scenario: `ipv4.address = 10.0.0.1/24`, NAT on, and one
static lease `10.0.0.5` for `web1`. -/
def scenarioNetwork : Network where
  Config := [("ipv4.address", "10.0.0.1/24"), ("ipv4.nat", "true")]
  ID := 1
  Leases := fun _ =>
    .ok [{ Hostname := "web1", Hwaddr := "00:16:3e:0a:0b:0c", Address := "10.0.0.5",
           Type_ := "static" }]

/-- The daemon of the scenario: project `default` with the single network `lxdbr0`, no
forwards and no load-balancers. -/
def scenarioDaemon : Daemon where
  NetworkProject := fun p => .ok p
  GetProjectNames := .ok ["default"]
  GetNetworks := fun p => if p = "default" then .ok ["lxdbr0"] else .ok []
  LoadByName := fun p n =>
    if p = "default" ∧ n = "lxdbr0" then .ok scenarioNetwork
    else .error (GoError.new "Network not found")
  GetNetworkForwards := fun _ => .ok []
  GetNetworkLoadBalancers := fun _ => .ok []

/-- The request of the scenario: project `default`, `all-projects` not set. -/
def scenarioRequest : Request := { project := "default", allProjects := "" }

/-- A network `n1` whose driver answers the lease query with an error that wraps
`network.ErrNotImplemented`. -/
def wrappedNotImplementedNetwork : Network where
  Config := [("ipv4.address", "10.0.0.1/24")]
  ID := 1
  Leases := fun _ => .error (GoError.wrap "Failed getting leases from member" ErrNotImplemented)

/-- A daemon whose project `default` has the single network `n1` above. -/
def wrappedNotImplementedDaemon : Daemon where
  NetworkProject := fun p => .ok p
  GetProjectNames := .ok ["default"]
  GetNetworks := fun _ => .ok ["n1"]
  LoadByName := fun _ _ => .ok wrappedNotImplementedNetwork
  GetNetworkForwards := fun _ => .ok []
  GetNetworkLoadBalancers := fun _ => .ok []

/-! ## What the handler emits, record by record -/

/-- Go's test `util.ValueInSlice(lease.Type, []string{"static", "dynamic"})`. -/
def isStaticOrDynamic (lease : NetworkLease) : Bool :=
  ValueInSlice lease.Type_ ["static", "dynamic"]

/-- The host form of an address: its canonical text followed by `/32` for an IPv4
address and by `/128` for an IPv6 address; `none` when the text is no IP address. -/
def hostCIDR (addr : String) : Option String :=
  (ParseIP addr).map fun ip =>
    if (IP.To4 ip).isSome then IP.String ip ++ "/32" else IP.String ip ++ "/128"

/-- The allocation of type `network` for one address family of a network, `none` when the
family has no address that parses. -/
def familyAllocation (projectName networkName : String) (netConf : Config)
    (keyPrefix : String) : Option NetworkAllocations :=
  (ParseIPCIDRToNet (netConf.get (keyPrefix ++ ".address"))).map fun ipNet =>
    { Address := IPNet.String ipNet
      UsedBy := apiURL [APIVersion, "networks", networkName] projectName
      Type_ := "network"
      NAT := IsTrue (netConf.get (keyPrefix ++ ".nat"))
      Hwaddr := "" }

/-- The allocation `a` is the one of type `instance` for `lease`: the lease address
parses, and `a` carries its host form, the hardware address of the lease, the URL of the
instance and the NAT setting of the family of the address. -/
def IsInstanceAllocation (projectName : String) (netConf : Config) (lease : NetworkLease)
    (a : NetworkAllocations) : Prop :=
  ∃ ip, ParseIP lease.Address = some ip ∧ a.Type_ = "instance" ∧ a.Hwaddr = lease.Hwaddr ∧
    a.UsedBy = apiURL [APIVersion, "instances", lease.Hostname] projectName ∧
    (((IP.To4 ip).isSome = true ∧ a.Address = IP.String ip ++ "/32" ∧
        a.NAT = IsTrue (netConf.get "ipv4.nat")) ∨
      ((IP.To4 ip).isSome = false ∧ a.Address = IP.String ip ++ "/128" ∧
        a.NAT = IsTrue (netConf.get "ipv6.nat")))

/-- The allocation `a` is the one of type `network-forward` for `forward`. -/
def IsForwardAllocation (projectName networkName : String) (forward : NetworkForward)
    (a : NetworkAllocations) : Prop :=
  hostCIDR forward.ListenAddress = some a.Address ∧ a.Type_ = "network-forward" ∧
    a.NAT = false ∧ a.Hwaddr = "" ∧
    a.UsedBy =
      apiURL [APIVersion, "networks", networkName, "forwards", forward.ListenAddress] projectName

/-- The allocation `a` is the one of type `network-load-balancer` for `loadBalancer`. -/
def IsLoadBalancerAllocation (projectName networkName : String)
    (loadBalancer : NetworkLoadBalancer) (a : NetworkAllocations) : Prop :=
  hostCIDR loadBalancer.ListenAddress = some a.Address ∧ a.Type_ = "network-load-balancer" ∧
    a.NAT = false ∧ a.Hwaddr = "" ∧
    a.UsedBy =
      apiURL [APIVersion, "networks", networkName, "load-balancers", loadBalancer.ListenAddress]
        projectName

/-- The error of `ipToCIDR` for a text that is no IP address. -/
def invalidIPError (addr : String) : GoError := GoError.new ("Invalid IP address " ++ quote addr)

/-- A step of the handler for the network `networkName` of project `projectName` fails
with the error `e`: loading the network, querying its leases (with an error that is not
the sentinel `network.ErrNotImplemented`), listing its forwards or its load-balancers, or
turning the address of a static or dynamic lease, of a forward or of a load-balancer into
CIDR form. -/
inductive NetworkFailure (d : Daemon) (projectName networkName : String) : GoError → Prop
  | load {e : GoError} :
      d.LoadByName projectName networkName = .error e → NetworkFailure d projectName networkName e
  | leases {n : Network} {e : GoError} :
      d.LoadByName projectName networkName = .ok n → n.Leases projectName = .error e →
      e ≠ ErrNotImplemented → NetworkFailure d projectName networkName e
  | leaseAddress {n : Network} {leases : List NetworkLease} {lease : NetworkLease} :
      d.LoadByName projectName networkName = .ok n → n.Leases projectName = .ok leases →
      lease ∈ leases → isStaticOrDynamic lease = true → ParseIP lease.Address = none →
      NetworkFailure d projectName networkName (invalidIPError lease.Address)
  | forwards {n : Network} {e : GoError} :
      d.LoadByName projectName networkName = .ok n → d.GetNetworkForwards n.ID = .error e →
      NetworkFailure d projectName networkName e
  | forwardAddress {n : Network} {forwards : List NetworkForward} {forward : NetworkForward} :
      d.LoadByName projectName networkName = .ok n → d.GetNetworkForwards n.ID = .ok forwards →
      forward ∈ forwards → ParseIP forward.ListenAddress = none →
      NetworkFailure d projectName networkName (invalidIPError forward.ListenAddress)
  | loadBalancers {n : Network} {e : GoError} :
      d.LoadByName projectName networkName = .ok n →
      d.GetNetworkLoadBalancers n.ID = .error e →
      NetworkFailure d projectName networkName e
  | loadBalancerAddress {n : Network} {loadBalancers : List NetworkLoadBalancer}
      {loadBalancer : NetworkLoadBalancer} :
      d.LoadByName projectName networkName = .ok n →
      d.GetNetworkLoadBalancers n.ID = .ok loadBalancers →
      loadBalancer ∈ loadBalancers → ParseIP loadBalancer.ListenAddress = none →
      NetworkFailure d projectName networkName (invalidIPError loadBalancer.ListenAddress)

/-- A step of the handler fails with the error `e` for one entity among the projects
`projectNames`: enumerating the networks of a project, or a step for one of its
networks. -/
inductive StepFailure (d : Daemon) (projectNames : List String) : GoError → Prop
  | networks {projectName : String} {e : GoError} :
      projectName ∈ projectNames → d.GetNetworks projectName = .error e →
      StepFailure d projectNames e
  | network {projectName networkName : String} {networkNames : List String} {e : GoError} :
      projectName ∈ projectNames → d.GetNetworks projectName = .ok networkNames →
      networkName ∈ networkNames → NetworkFailure d projectName networkName e →
      StepFailure d projectNames e

/-- A step of the request `r` fails with the error `e` for one entity: enumerating the
project names (when `all-projects` is set), or a step for one of the projects the request
covers. -/
inductive RequestFailure (d : Daemon) (r : Request) : GoError → Prop
  | projectNames {projectName : String} {e : GoError} :
      d.NetworkProject r.project = .ok projectName → IsTrue r.allProjects = true →
      d.GetProjectNames = .error e → RequestFailure d r e
  | step {projectName : String} {projectNames : List String} {e : GoError} :
      d.NetworkProject r.project = .ok projectName →
      projectNamesOf d projectName (IsTrue r.allProjects) = .ok projectNames →
      StepFailure d projectNames e → RequestFailure d r e

/-- A daemon whose project `default` has the networks `lxdbr0` (as in the scenario) and
`br1`, and `br1` cannot be loaded. -/
def secondNetworkFailsDaemon : Daemon where
  NetworkProject := fun p => .ok p
  GetProjectNames := .ok ["default"]
  GetNetworks := fun _ => .ok ["lxdbr0", "br1"]
  LoadByName := fun _ n =>
    if n = "lxdbr0" then .ok scenarioNetwork else .error (GoError.new "Network not found")
  GetNetworkForwards := fun _ => .ok []
  GetNetworkLoadBalancers := fun _ => .ok []

/-- The text `s` is an address in host CIDR form: the canonical text of an IPv4 address
followed by `/32`, or of an IPv6 address followed by `/128`. -/
def IsHostCIDR (s : String) : Prop :=
  ∃ ip, (∃ addr, ParseIP addr = some ip) ∧
    (((IP.To4 ip).isSome = true ∧ s = IP.String ip ++ "/32") ∨
      ((IP.To4 ip).isSome = false ∧ s = IP.String ip ++ "/128"))

/-- The shape of the address of an allocation, by type: an allocation of type `network`
has the address and prefix length of the `ipv4.address` or `ipv6.address` setting of a
network, an allocation of another type has an address in host CIDR form. -/
def AddressForm (d : Daemon) (a : NetworkAllocations) : Prop :=
  (a.Type_ = "network" ∧
    ∃ projectName networkName n keyPrefix ipNet,
      d.LoadByName projectName networkName = .ok n ∧
      (keyPrefix = "ipv4" ∨ keyPrefix = "ipv6") ∧
      ParseIPCIDRToNet (n.Config.get (keyPrefix ++ ".address")) = some ipNet ∧
      a.Address = IPNet.String ipNet) ∨
  ((a.Type_ = "instance" ∨ a.Type_ = "network-forward" ∨ a.Type_ = "network-load-balancer") ∧
    IsHostCIDR a.Address)

/-- The address and the type of an allocation. -/
def addressAndType (a : NetworkAllocations) : String × String := (a.Address, a.Type_)

/-- The answer of the handler in the scenario. -/
def scenarioAllocations : List NetworkAllocations :=
  [{ Address := "10.0.0.1/24", UsedBy := "/1.0/networks/lxdbr0", Type_ := "network",
     NAT := true, Hwaddr := "" },
   { Address := "10.0.0.5/32", UsedBy := "/1.0/instances/web1", Type_ := "instance",
     NAT := true, Hwaddr := "00:16:3e:0a:0b:0c" }]

/-- The scenario network with a second lease for the same address: the static lease of
`web1` and a dynamic lease that `old1` still holds. -/
def duplicateLeaseNetwork : Network where
  Config := [("ipv4.address", "10.0.0.1/24"), ("ipv4.nat", "true")]
  ID := 1
  Leases := fun _ =>
    .ok [{ Hostname := "web1", Hwaddr := "00:16:3e:0a:0b:0c", Address := "10.0.0.5",
           Type_ := "static" },
         { Hostname := "old1", Hwaddr := "00:16:3e:01:02:03", Address := "10.0.0.5",
           Type_ := "dynamic" }]

/-- A daemon whose project `default` has the single network above. -/
def duplicateLeaseDaemon : Daemon where
  NetworkProject := fun p => .ok p
  GetProjectNames := .ok ["default"]
  GetNetworks := fun _ => .ok ["lxdbr0"]
  LoadByName := fun _ _ => .ok duplicateLeaseNetwork
  GetNetworkForwards := fun _ => .ok []
  GetNetworkLoadBalancers := fun _ => .ok []

/-- The leases of the network `br0` below: a static IPv4 lease, the lease of the gateway
and a dynamic IPv6 lease. -/
def br0Leases : List NetworkLease :=
  [{ Hostname := "web1", Hwaddr := "00:16:3e:0a:0b:0c", Address := "10.0.0.5",
     Type_ := "static" },
   { Hostname := "br0.gw", Hwaddr := "00:16:3e:00:00:01", Address := "10.0.0.1",
     Type_ := "gateway" },
   { Hostname := "db1", Hwaddr := "00:16:3e:0d:0e:0f", Address := "fd42::5",
     Type_ := "dynamic" }]

/-- A network `br0` with both address families, NAT on for IPv4 and off for IPv6. -/
def br0Network : Network where
  Config := [("ipv4.address", "10.0.0.1/24"), ("ipv4.nat", "true"),
    ("ipv6.address", "fd42::1/64"), ("ipv6.nat", "false")]
  ID := 7
  Leases := fun _ => .ok br0Leases

/-- A daemon whose project `default` has the single network `br0`, with one forward and
one load-balancer. -/
def br0Daemon : Daemon where
  NetworkProject := fun p => .ok p
  GetProjectNames := .ok ["default"]
  GetNetworks := fun _ => .ok ["br0"]
  LoadByName := fun _ _ => .ok br0Network
  GetNetworkForwards := fun _ => .ok [{ ListenAddress := "192.0.2.10" }]
  GetNetworkLoadBalancers := fun _ => .ok [{ ListenAddress := "2001:db8::20" }]

/-- What the handler emits for `br0`. -/
def br0Allocations : List NetworkAllocations :=
  [{ Address := "10.0.0.1/24", UsedBy := "/1.0/networks/br0", Type_ := "network",
     NAT := true, Hwaddr := "" },
   { Address := "fd42::1/64", UsedBy := "/1.0/networks/br0", Type_ := "network",
     NAT := false, Hwaddr := "" },
   { Address := "10.0.0.5/32", UsedBy := "/1.0/instances/web1", Type_ := "instance",
     NAT := true, Hwaddr := "00:16:3e:0a:0b:0c" },
   { Address := "fd42::5/128", UsedBy := "/1.0/instances/db1", Type_ := "instance",
     NAT := false, Hwaddr := "00:16:3e:0d:0e:0f" },
   { Address := "192.0.2.10/32", UsedBy := "/1.0/networks/br0/forwards/192.0.2.10",
     Type_ := "network-forward", NAT := false, Hwaddr := "" },
   { Address := "2001:db8::20/128", UsedBy := "/1.0/networks/br0/load-balancers/2001:db8::20",
     Type_ := "network-load-balancer", NAT := false, Hwaddr := "" }]

/-! ## Join scenarios -/

/-- The join token of the examples: two candidate addresses. -/
def exampleToken : ClusterMemberJoinToken where
  ServerName := "node2"
  Fingerprint := "fp-cluster"
  Addresses := ["10.0.0.2:8443", "10.0.0.3:8443"]
  Secret := "s3cr3t"

/-- An environment in which every token decodes to `exampleToken`, addresses are already
canonical, the certificate with raw bytes `[1]` has the fingerprint of the token and
every other certificate has another one; `fetch` says what the members answer. -/
def exampleEnv (fetch : String → Except GoError Certificate) : InitEnv where
  PathExists := fun _ => false
  ReadFile := fun _ => .error (GoError.new "no such file")
  base64Decode := fun _ => .ok []
  jsonUnmarshal := fun _ => .ok exampleToken
  CanonicalNetworkAddress := fun address _ => address
  GetRemoteCertificate := fetch
  CertFingerprint := fun cert => if cert.Raw = [1] then "fp-cluster" else "fp-other"
  pemBody := fun _ => "MIIB\n"
  UpdateCluster := fun _ => .ok { Wait := none }
  initDataNodeApply := fun _ => none
  initDataClusterApply := fun _ => none

/-- The first member is unreachable, the second presents the certificate of the token. -/
def secondReachableEnv : InitEnv :=
  exampleEnv fun url =>
    if url = "https://10.0.0.3:8443" then .ok { Raw := [1] }
    else .error (GoError.new "connection refused")

/-- The first member presents another certificate, the second the one of the token. -/
def mismatchFirstEnv : InitEnv :=
  exampleEnv fun url =>
    if url = "https://10.0.0.3:8443" then .ok { Raw := [1] }
    else .ok { Raw := [2] }

/-- No member is reachable. -/
def unreachableEnv : InitEnv :=
  exampleEnv fun _ => .error (GoError.new "connection refused")

/-- The cluster part of a preseed that joins with a token. -/
def joinCluster : InitClusterPreseed where
  ServerName := ""
  ClusterAddress := ""
  ClusterCertificate := ""
  ServerAddress := "10.0.0.9:8443"
  ClusterCertificatePath := ""
  ClusterToken := "dG9rZW4="

/-- The same preseed with a cluster certificate given next to the token. -/
def presetCertificateCluster : InitClusterPreseed :=
  { joinCluster with
    ClusterCertificate := "-----BEGIN CERTIFICATE-----\nMIIC\n-----END CERTIFICATE-----\n" }

/-! ## Two runs of `networkAllocationsGet` on the same state -/

/-- Modelled from the spec: the declarations of `GetNetworkForwards` and
`GetNetworkLoadBalancers` are not in the excerpt; the spec (§6) has the forward and
load-balancer listing of a network keyed, a Go map, and a `range` loop over a Go map visits
the entries in an order that the runtime chooses anew on each run. Two results of such a
listing are the same listing when they are the same error, or hold the same entries in
some order. -/
def SameListing {α : Type} : Except GoError (List α) → Except GoError (List α) → Prop
  | .ok l, .ok l' => l.Perm l'
  | .error e, .error e' => e = e'
  | _, _ => False

/-- Two runs of the handler see the same state: the same projects, networks, driver
configurations and leases, and the same forward and load-balancer listings, visited in
an order of their own. -/
def SameState (d d' : Daemon) : Prop :=
  d.NetworkProject = d'.NetworkProject ∧ d.GetProjectNames = d'.GetProjectNames ∧
  d.GetNetworks = d'.GetNetworks ∧ d.LoadByName = d'.LoadByName ∧
  (∀ id, SameListing (d.GetNetworkForwards id) (d'.GetNetworkForwards id)) ∧
  (∀ id, SameListing (d.GetNetworkLoadBalancers id) (d'.GetNetworkLoadBalancers id))

/-- A network `br1` with NAT on for IPv4. -/
def br1Network : Network where
  Config := [("ipv4.address", "10.1.0.1/24"), ("ipv4.nat", "true")]
  ID := 8
  Leases := fun _ => .ok []

/-- A daemon whose project `default` has the single network `br1` with two forwards;
`forwards` is the order in which a run visits them. -/
def twoForwardsDaemon (forwards : List NetworkForward) : Daemon where
  NetworkProject := fun p => .ok p
  GetProjectNames := .ok ["default"]
  GetNetworks := fun _ => .ok ["br1"]
  LoadByName := fun _ _ => .ok br1Network
  GetNetworkForwards := fun _ => .ok forwards
  GetNetworkLoadBalancers := fun _ => .ok []

/-- The allocation the handler emits for a forward. -/
def forwardAllocationOf (projectName networkName : String) (forward : NetworkForward) :
    NetworkAllocations where
  Address := (hostCIDR forward.ListenAddress).getD ""
  UsedBy :=
    apiURL [APIVersion, "networks", networkName, "forwards", forward.ListenAddress] projectName
  Type_ := "network-forward"
  NAT := false
  Hwaddr := ""

/-- The allocation the handler emits for a load-balancer. -/
def loadBalancerAllocationOf (projectName networkName : String)
    (loadBalancer : NetworkLoadBalancer) : NetworkAllocations where
  Address := (hostCIDR loadBalancer.ListenAddress).getD ""
  UsedBy :=
    apiURL [APIVersion, "networks", networkName, "load-balancers", loadBalancer.ListenAddress]
      projectName
  Type_ := "network-load-balancer"
  NAT := false
  Hwaddr := ""

/-! ## `cmdSnapshotCreate.Run` (`cmd/incus/snapshot.go`) -/

/-- `api.InstanceSnapshot`, its name. -/
structure InstanceSnapshot where
  Name : String
deriving DecidableEq, Repr

/-- `api.InstanceSnapshotsPost`; `ExpiresAt` is `some 0` for the pointer to the zero
time. -/
structure InstanceSnapshotsPost where
  Name : String
  Stateful : Bool
  ExpiresAt : Option Nat
deriving DecidableEq, Repr

/-- The methods of the instance server that `cmdSnapshotCreate.Run` calls.
`GetInstanceSnapshot` returns the snapshot (`none` for Go's `nil`) and an error, which the
command drops. -/
structure InstanceServer where
  GetInstanceSnapshot : String → String → Option InstanceSnapshot × Option GoError
  DeleteInstanceSnapshot : String → String → Except GoError Operation
  CreateInstanceSnapshot : String → InstanceSnapshotsPost → Except GoError Operation

/-- The flags of `cmdSnapshotCreate`. -/
structure cmdSnapshotCreate where
  flagStateful : Bool
  flagNoExpiry : Bool
  flagReuse : Bool

/-- What `cmdSnapshotCreate.Run` reaches through the global command state:
`c.global.CheckArgs(cmd, args, 1, 2)`, `conf.ParseRemote` and `conf.GetInstanceServer`. -/
structure SnapshotEnv where
  CheckArgs : List String → Bool × Option GoError
  ParseRemote : String → Except GoError (String × String)
  GetInstanceServer : String → Except GoError InstanceServer

/-- The calls `cmdSnapshotCreate.Run` makes on the instance server, in order. -/
inductive SnapshotCall where
  | GetInstanceSnapshot (name snapname : String)
  | DeleteInstanceSnapshot (name snapname : String)
  | CreateInstanceSnapshot (name : String) (req : InstanceSnapshotsPost)
  | Wait (op : Operation)
deriving DecidableEq, Repr

/-- `SnapshotDelimiter` of `shared/util.go`. -/
def SnapshotDelimiter : String := "/"

/-- `IsSnapshot` of `shared/util.go`: the name contains the delimiter. -/
def IsSnapshot (name : String) : Bool := (splitSlash name.data).isSome

/-- The request `req` that `cmdSnapshotCreate.Run` builds: the snapshot name, the
`--stateful` flag, and the zero time as expiry with `--no-expiry`. -/
def snapshotRequest (c : cmdSnapshotCreate) (snapname : String) : InstanceSnapshotsPost where
  Name := snapname
  Stateful := c.flagStateful
  ExpiresAt := if c.flagNoExpiry then some 0 else none

/-- The creation of the snapshot at the end of `cmdSnapshotCreate.Run`, after the calls
`calls` already made. -/
def createStep (c : cmdSnapshotCreate) (d : InstanceServer) (name snapname : String)
    (calls : List SnapshotCall) : Option GoError × List SnapshotCall :=
  match d.CreateInstanceSnapshot name (snapshotRequest c snapname) with
  | .error err =>
    (some err, calls ++ [.CreateInstanceSnapshot name (snapshotRequest c snapname)])
  | .ok op =>
    (op.Wait, calls ++ [.CreateInstanceSnapshot name (snapshotRequest c snapname), .Wait op])

/-- The part of `cmdSnapshotCreate.Run` that talks to the instance server `d`: with
`--reuse` and a snapshot name, an existing snapshot of that name is deleted first and the
deletion is waited for; then the snapshot is created. Returns the error of the run, if
any, and the calls made. -/
def reuseAndCreate (c : cmdSnapshotCreate) (d : InstanceServer) (name snapname : String) :
    Option GoError × List SnapshotCall :=
  if c.flagReuse ∧ snapname ≠ "" then
    match (d.GetInstanceSnapshot name snapname).1 with
    | some _ =>
      match d.DeleteInstanceSnapshot name snapname with
      | .error err =>
        (some err, [.GetInstanceSnapshot name snapname, .DeleteInstanceSnapshot name snapname])
      | .ok op =>
        match op.Wait with
        | some err =>
          (some err, [.GetInstanceSnapshot name snapname,
            .DeleteInstanceSnapshot name snapname, .Wait op])
        | none =>
          createStep c d name snapname [.GetInstanceSnapshot name snapname,
            .DeleteInstanceSnapshot name snapname, .Wait op]
    | none => createStep c d name snapname [.GetInstanceSnapshot name snapname]
  else createStep c d name snapname []

/-- The step of `cmdSnapshotCreate.Run` on the instance name: a name of the form
`<instance>/<snapshot>` is split at the first delimiter when no snapshot name was given
as second argument, and is an error when one was. -/
def splitSnapshotName (name snapname : String) : Except GoError (String × String) :=
  if IsSnapshot name then
    if snapname = "" then
      match splitSlash name.data with
      | some (fields0, fields1) => .ok (String.mk fields0, String.mk fields1)
      | none => .ok (name, snapname)
    else .error (GoError.new ("Invalid instance name: " ++ name))
  else .ok (name, snapname)

/-- The method `cmdSnapshotCreate.Run`: checks the arguments, splits
`<instance>/<snapshot>`, connects to the remote and goes on with `reuseAndCreate`.
Returns the error of the run, if any, and the calls made on the instance server. -/
def cmdSnapshotCreate.Run (c : cmdSnapshotCreate) (env : SnapshotEnv) (args : List String) :
    Option GoError × List SnapshotCall :=
  if (env.CheckArgs args).1 then ((env.CheckArgs args).2, [])
  else
    match env.ParseRemote (args.getD 0 "") with
    | .error err => (some err, [])
    | .ok (remote, name) =>
      match splitSnapshotName name (if args.length < 2 then "" else args.getD 1 "") with
      | .error err => (some err, [])
      | .ok (name, snapname) =>
        match env.GetInstanceServer remote with
        | .error err => (some err, [])
        | .ok d => reuseAndCreate c d name snapname

/-- An instance server on which the snapshot `snap0` of `u1` exists; `delete` is the
answer to its deletion. -/
def snap0Server (delete : Except GoError Operation) : InstanceServer where
  GetInstanceSnapshot := fun _ _ => (some { Name := "snap0" }, none)
  DeleteInstanceSnapshot := fun _ _ => delete
  CreateInstanceSnapshot := fun _ _ => .ok { Wait := none }

/-- A command environment with the single remote server `d`. -/
def snapshotEnv (d : InstanceServer) : SnapshotEnv where
  CheckArgs := fun _ => (false, none)
  ParseRemote := fun name => .ok ("local", name)
  GetInstanceServer := fun _ => .ok d

/-! ## `loadInfo` (`incusd/cluster/info.go`) -/

/-- The role of a cluster member (spec §3); the `Role` of a `db.RaftNode` is one of the
first three. -/
inductive Role where
  | voter
  | standBy
  | spare
  | pending
deriving DecidableEq, Repr

/-- `db.RaftNode`: the fields `loadInfo` reads. -/
structure RaftNode where
  ID : Nat
  Address : String
  Role : Role
deriving DecidableEq, Repr

/-- What is at a path of the file system: a directory with its permission bits, or
something else (a regular file, a symbolic link, ...). -/
inductive FileKind where
  | directory (perm : Nat)
  | other
deriving DecidableEq, Repr

/-- The file system as `loadInfo` sees it: what is at each path (`none` for nothing),
whether `os.Lstat` fails there for a reason other than absence (such as a parent that
cannot be searched), and the error `os.Mkdir` meets there, if any, for a reason other
than an existing entry. -/
structure FileSystem where
  entry : String → Option FileKind
  lstatFails : String → Bool
  mkdirFails : String → Option GoError

/-- The error of `os.Lstat`: the path does not exist, or another failure. -/
inductive LstatError where
  | notExist
  | other
deriving DecidableEq, Repr

/-- Go's `os.Lstat`. -/
def Lstat (fs : FileSystem) (name : String) : Except LstatError FileKind :=
  if fs.lstatFails name then .error .other
  else
    match fs.entry name with
    | none => .error .notExist
    | some kind => .ok kind

/-- `PathExists` of `shared/util.go`: false only when `os.Lstat` fails with an error for
which `os.IsNotExist` holds. -/
def PathExists (fs : FileSystem) (name : String) : Bool :=
  match Lstat fs name with
  | .error .notExist => false
  | _ => true

/-- Go's `os.Mkdir(name, perm)`: fails when something is at the path already or for the
reason the file system gives, and otherwise leaves a directory with these permission
bits at the path. -/
def Mkdir (fs : FileSystem) (name : String) (perm : Nat) : Except GoError FileSystem :=
  if (fs.entry name).isSome then .error (GoError.new ("mkdir " ++ name ++ ": file exists"))
  else
    match fs.mkdirFails name with
    | some err => .error err
    | none =>
      .ok { fs with
            entry := fun p => if p = name then some (.directory perm) else fs.entry p }

/-- The node database that `loadInfo` is given: `Dir` is what `database.Dir()` returns,
a directory path in clean form, and `DetermineRaftNode` what `node.DetermineRaftNode`
returns inside the transaction (`none` for Go's `nil` record). -/
structure NodeDB where
  Dir : String
  DetermineRaftNode : Except GoError (Option RaftNode)

/-- Go's `filepath.Join(dir, "global")` for a directory path in clean form. -/
def globalDir (dir : String) : String := dir ++ "/global"

/-- The address step of `loadInfo`: a member without address is a standalone node and
gets the address `1`. -/
def standaloneAddress (info : RaftNode) : RaftNode :=
  if info.Address = "" then { info with Address := "1" } else info

/-- The function `loadInfo`: the raft node of this member, with the address `1` in place
of an empty address, after making sure the data directory exists. Returns the result and
the file system it leaves. -/
def loadInfo (database : NodeDB) (fs : FileSystem) :
    Except GoError (Option RaftNode) × FileSystem :=
  match database.DetermineRaftNode with
  | .error err => (.error err, fs)
  | .ok none => (.ok none, fs)
  | .ok (some info) =>
    if !PathExists fs (globalDir database.Dir) then
      match Mkdir fs (globalDir database.Dir) 0o750 with
      | .error err => (.error err, fs)
      | .ok fs' => (.ok (some (standaloneAddress info)), fs')
    else (.ok (some (standaloneAddress info)), fs)

/-- An empty file system on which every operation succeeds. -/
def emptyFileSystem : FileSystem where
  entry := fun _ => none
  lstatFails := fun _ => false
  mkdirFails := fun _ => none

/-- A file system with a regular file at `/var/lib/incus/database/global`. -/
def fileAtGlobalDir : FileSystem where
  entry := fun p => if p = "/var/lib/incus/database/global" then some .other else none
  lstatFails := fun _ => false
  mkdirFails := fun _ => none

/-- A file system on which the data directory is absent and cannot be made. -/
def readOnlyFileSystem : FileSystem where
  entry := fun _ => none
  lstatFails := fun _ => false
  mkdirFails := fun _ => some (GoError.new "read-only file system")

/-- The node database of a standalone member: raft node 1 without address. -/
def standaloneDB : NodeDB where
  Dir := "/var/lib/incus/database"
  DetermineRaftNode := .ok (some { ID := 1, Address := "", Role := .voter })

/-! ## `GetNodeID` (`incus/db/cluster/nodes.mapper.go`) -/

/-- Go's `sql.ErrNoRows`. -/
def ErrNoRows : GoError := GoError.new "sql: no rows in result set"

/-- Go's `http.StatusNotFound`. -/
def StatusNotFound : Nat := 404

/-- `api.StatusErrorCheck(err, code)` (package `shared/api`): the first `api.StatusError`
in the chain of `err` has this code. -/
def StatusErrorCheck : GoError → Nat → Bool
  | .new _, _ => false
  | .wrap _ inner, code => StatusErrorCheck inner code
  | .status c _, code => decide (c = code)

/-- A row of the table `nodes`: its id and its name. -/
structure NodeRow where
  id : Int
  name : String
deriving DecidableEq, Repr

/-- The transaction as `GetNodeID` sees it: the outcome of looking up the prepared
statement `nodeID`, the rows of `nodes`, and the failure of the query or of the scan, if
any. -/
structure Tx where
  Stmt : Option GoError
  nodes : List NodeRow
  failure : Option GoError

/-- The first row with the given name: what `SELECT nodes.id FROM nodes WHERE
nodes.name = ?` gives to `QueryRowContext`. -/
def findNode : List NodeRow → String → Option NodeRow
  | [], _ => none
  | row :: rest, name => if row.name = name then some row else findNode rest name

/-- The call `row.Scan(&id)` on the row of `stmt.QueryRowContext(ctx, name)`: the failure
of the query, `sql.ErrNoRows` when no row was selected, the id otherwise. -/
def scanNodeID (tx : Tx) (name : String) : Except GoError Int :=
  match tx.failure with
  | some err => .error err
  | none =>
    match findNode tx.nodes name with
    | none => .error ErrNoRows
    | some row => .ok row.id

/-- The function `GetNodeID`: the id and the error it returns (`none` for `nil`). -/
def GetNodeID (tx : Tx) (name : String) : Int × Option GoError :=
  match tx.Stmt with
  | some err => (-1, some (GoError.wrap "Failed to get \"nodeID\" prepared statement" err))
  | none =>
    match scanNodeID tx name with
    | .error err =>
      if errorsIs err ErrNoRows then (-1, some (GoError.status StatusNotFound "Node not found"))
      else (-1, some (GoError.wrap "Failed to get \"nodes\" ID" err))
    | .ok id => (id, none)

/-- A database with the members `node1` and `node2`. -/
def twoNodesTx : Tx where
  Stmt := none
  nodes := [{ id := 1, name := "node1" }, { id := 2, name := "node2" }]
  failure := none

/-! ## Role assignment (spec §4.1) -/

/-- A cluster member as the registry of spec §3 sees it: identity, address, role, how
long it has been a member, and whether it is the current leader. -/
structure Member where
  ID : Nat
  Address : String
  Role : Role
  Tenure : Nat
  Leader : Bool
deriving DecidableEq, Repr

/-- The configured band for the number of voters (spec §3, for instance 3 to 5). -/
structure VoterBand where
  min : Nat
  max : Nat
deriving DecidableEq, Repr

/-- The number of voters among the members. -/
def voterCount (members : List Member) : Nat :=
  members.countP fun m => decide (m.Role = .voter)

/-- The number of voters when the candidate has the role `role` next to the other
members. -/
def votersWith (others : List Member) (role : Role) : Nat :=
  voterCount others + if role = .voter then 1 else 0

/-- The candidate is the one to take an open voter slot: a stand-by that no other
stand-by exceeds in tenure, or, when it is no stand-by itself, a node that finds no
stand-by among the other members. -/
def preferredForSlot (others : List Member) (candidate : Member) : Bool :=
  if candidate.Role = .standBy then
    others.all fun m => decide (m.Role = .standBy → m.Tenure ≤ candidate.Tenure)
  else others.all fun m => decide (m.Role ≠ .standBy)

/-- Modelled from the spec: `node.DetermineRaftNode` is not in the excerpt, only its caller
`loadInfo`; this is `DetermineRole(candidate)` of spec §4.1. Given the other members and
their roles it decides the role of the joining or local node: no role (`none`) for a
node that is not part of the consensus group; the current leader is never demoted; a
voter stays a voter as long as the band allows; when a voter slot is open (fewer voters
than the maximum of the band) the longest-tenured stand-by is promoted; and otherwise
the node is a stand-by if it was one and a spare if not. -/
def DetermineRole (band : VoterBand) (others : List Member) (candidate : Member)
    (inGroup : Bool) : Option Role :=
  if !inGroup then none
  else if candidate.Leader then some .voter
  else if candidate.Role = .voter then
    if votersWith others .voter ≤ band.max then some .voter else some .standBy
  else if voterCount others < band.max ∧ preferredForSlot others candidate = true then
    some .voter
  else if candidate.Role = .standBy then some .standBy
  else some .spare

/-- Modelled from the spec: the node database whose `DetermineRaftNode` gives the local
member the role that `DetermineRole` assigns, and no record when it assigns none. -/
def registryDB (dir : String) (band : VoterBand) (others : List Member) (candidate : Member)
    (inGroup : Bool) : NodeDB where
  Dir := dir
  DetermineRaftNode :=
    .ok ((DetermineRole band others candidate inGroup).map fun role =>
      { ID := candidate.ID, Address := candidate.Address, Role := role })

/-- Three voters, one of them the leader, and a stand-by. -/
def exampleMembers : List Member :=
  [{ ID := 1, Address := "10.0.0.1:8443", Role := .voter, Tenure := 9, Leader := true },
   { ID := 2, Address := "10.0.0.2:8443", Role := .voter, Tenure := 8, Leader := false },
   { ID := 3, Address := "10.0.0.3:8443", Role := .voter, Tenure := 7, Leader := false },
   { ID := 4, Address := "10.0.0.4:8443", Role := .standBy, Tenure := 2, Leader := false }]

/-- A stand-by with the longest tenure. -/
def exampleCandidate : Member :=
  { ID := 5, Address := "10.0.0.5:8443", Role := .standBy, Tenure := 5, Leader := false }

/-! ## `FilterFull` (`incusd/instance/filter.go`) -/

/-- The loop of `FilterFull`: `filtered` holds the instances kept so far. `Match` is
`filter.Match` of `internal/filter`. -/
def filterLoop {Instance ClauseSet : Type} (Match : Instance → ClauseSet → Except GoError Bool)
    (clauses : ClauseSet) : List Instance → List Instance → Except GoError (List Instance)
  | [], filtered => .ok filtered
  | inst :: rest, filtered =>
    match Match inst clauses with
    | .error err => .error err
    | .ok isMatch =>
      if !isMatch then filterLoop Match clauses rest filtered
      else filterLoop Match clauses rest (filtered ++ [inst])

/-- The function `FilterFull`: the instances that match the clauses. -/
def FilterFull {Instance ClauseSet : Type} (Match : Instance → ClauseSet → Except GoError Bool)
    (instances : List Instance) (clauses : ClauseSet) : Except GoError (List Instance) :=
  filterLoop Match clauses instances []

/-- An instance matches the clauses: `filter.Match` returns true without error. -/
def matchesClauses {Instance ClauseSet : Type}
    (Match : Instance → ClauseSet → Except GoError Bool) (clauses : ClauseSet)
    (inst : Instance) : Bool :=
  match Match inst clauses with
  | .ok isMatch => isMatch
  | .error _ => false

/-- The filter of the example: instances are names, the clause is a forbidden prefix
length, and an empty name cannot be matched. -/
def exampleMatch (inst : String) (clauses : Nat) : Except GoError Bool :=
  if inst = "" then .error (GoError.new "Invalid instance") else .ok (decide (inst.length ≤ clauses))

/-! ## `Schema.Keys` (`incusd/config`) -/

/-- `config.Key`: the declaration of one configuration key, here its default value. -/
structure Key where
  Default : String
deriving DecidableEq, Repr

/-- `config.Schema`, a Go `map[string]Key`: the declared keys, each name once, in no
particular order. -/
structure Schema where
  entries : List (String × Key)
  nodup : (entries.map Prod.fst).Nodup

/-- The first text is before the second in lexicographic order. -/
def charsLT : List Char → List Char → Bool
  | _, [] => false
  | [], _ :: _ => true
  | a :: as, b :: bs =>
    if a.toNat < b.toNat then true else if b.toNat < a.toNat then false else charsLT as bs

/-- Go's `a <= b` on strings. -/
def stringLE (a b : String) : Bool := !charsLT b.data a.data

/-- Go's `sort.Strings`: the strings in ascending order. -/
def sortStrings (keys : List String) : List String :=
  keys.insertionSort fun a b => stringLE a b = true

/-- Modelled from the spec: `Schema.Keys` of `incusd/config/schema.go` is not in the
excerpt, only its test `TestSchema_Keys`; it returns the names of the keys of the schema
in ascending order. -/
def Schema.Keys (schema : Schema) : List String := sortStrings (schema.entries.map Prod.fst)

/-- The schema of `TestSchema_Keys`: `foo` without default and `bar` with default `x`. -/
def testSchema : Schema where
  entries := [("foo", { Default := "" }), ("bar", { Default := "x" })]
  nodup := by decide

/-- Modelled from the spec: `Schema.Defaults` of `incusd/config/schema.go` is not in the
excerpt, only its test `TestSchema_Defaults`; it returns a map that has, for each key of
the schema, the default value the key declares (the empty string when it declares none).
The map is given as its entries, one per key of the schema. -/
def Schema.Defaults (schema : Schema) : Config :=
  schema.entries.map fun entry => (entry.1, entry.2.Default)

/-! ## Small helpers of `shared/util.go` -/

/-- A Go run-time panic, with its message. -/
structure Panic where
  message : String
deriving DecidableEq, Repr

/-- The index expression `s[i]` on a Go string: the element at `i`, or the run-time
panic for an index outside the string. Strings are read character by character; the
helpers below only compare with ASCII characters, which no multi-byte character
contains. -/
def stringIndex (s : List Char) (i : Int) : Except Panic Char :=
  if i < 0 then
    .error { message := "runtime error: index out of range [" ++ toString i ++ "]" }
  else
    match s.get? i.toNat with
    | some c => .ok c
    | none =>
      .error { message := "runtime error: index out of range [" ++ toString i ++
        "] with length " ++ toString s.length }

/-- The function `AddSlash`: the path with a slash at the end. -/
def AddSlash (path : String) : Except Panic String :=
  match stringIndex path.data ((path.data.length : Int) - 1) with
  | .error p => .error p
  | .ok c => if c ≠ '/' then .ok (path ++ "/") else .ok path

/-- The inner loop of `RemoveElementsFromStringSlice`: `j` runs from `len(list)-1` down
to 0 (the argument is `j+1`) and the first entry found equal to `element`, the last one
of the list, is cut out. Returns `match` and the list. -/
def removeLoop (element : String) (list : List String) : Nat → Bool × List String
  | 0 => (false, list)
  | j + 1 =>
    if element = list.getD j "" then (true, list.take j ++ list.drop (j + 1))
    else removeLoop element list j

/-- The outer loop of `RemoveElementsFromStringSlice`: `i` runs from `len(elements)-1`
down to 0 (the argument is `i+1`); an element that was found is cut out of `elements`. -/
def elementsLoop : Nat → List String → List String → List String
  | 0, list, _ => list
  | i + 1, list, elements =>
    elementsLoop i (removeLoop (elements.getD i "") list list.length).2
      (if (removeLoop (elements.getD i "") list list.length).1 then
        elements.take i ++ elements.drop (i + 1)
      else elements)

/-- The function `RemoveElementsFromStringSlice`. -/
def RemoveElementsFromStringSlice (list elements : List String) : List String :=
  elementsLoop elements.length list elements

/-- The list without the last entry equal to `element`, if there is one. -/
def eraseLast (element : String) (list : List String) : List String :=
  (list.reverse.erase element).reverse

/-! ## `GetExpiry` (`shared/util.go`) -/

/-- Go's `int64(x)` of a mathematical integer: the value modulo 2^64 in two's
complement. -/
def wrapInt64 (x : Int) : Int := (x + 2 ^ 63) % 2 ^ 64 - 2 ^ 63

/-- What `GetExpiry` uses of Go's package `time`: the zero time `time.Time{}`,
`t.AddDate(years, months, days)` and `t.Add(d)` with `d` in nanoseconds. -/
structure Clock (Time : Type) where
  zero : Time
  AddDate : Time → Int → Int → Int → Time
  Add : Time → Int → Time

/-- Go's `unicode.IsSpace`. -/
def isSpace (c : Char) : Bool :=
  c = '\t' || c = '\n' || c.toNat = 0x0B || c.toNat = 0x0C || c = '\r' || c = ' ' ||
  c.toNat = 0x85 || c.toNat = 0xA0 || c.toNat = 0x1680 ||
  (0x2000 ≤ c.toNat && c.toNat ≤ 0x200A) || c.toNat = 0x2028 || c.toNat = 0x2029 ||
  c.toNat = 0x202F || c.toNat = 0x205F || c.toNat = 0x3000

/-- Go's `strings.TrimSpace`. -/
def TrimSpace (s : List Char) : List Char :=
  ((s.dropWhile isSpace).reverse.dropWhile isSpace).reverse

/-- Go's `strings.Split(s, sep)` for a separator of one character. -/
def splitOn (sep : Char) : List Char → List (List Char)
  | [] => [[]]
  | c :: cs =>
    if c = sep then [] :: splitOn sep cs
    else
      match splitOn sep cs with
      | [] => [[c]]
      | field :: fields => (c :: field) :: fields

/-- The class `\d` of Go's `regexp`: an ASCII digit. -/
def isDigit (c : Char) : Bool := '0'.toNat ≤ c.toNat && c.toNat ≤ '9'.toNat

/-- The unit letters of an expiry expression. -/
def expiryUnits : List Char := ['S', 'M', 'H', 'd', 'w', 'm', 'y']

/-- `re.FindStringSubmatch(value)` for `^(\d+)(S|M|H|d|w|m|y)$`: the digits and the unit
letter (`fields[1]` and `fields[2]`), or `none` when the value does not match. -/
def matchExpiryField (value : List Char) : Option (List Char × Char) :=
  match value.reverse with
  | [] => none
  | unit :: digits =>
    if expiryUnits.contains unit && !digits.isEmpty && digits.all isDigit then
      some (digits.reverse, unit)
    else none

/-- The number a string of ASCII digits stands for. -/
def digitsValue (digits : List Char) : Nat :=
  digits.foldl (fun n c => 10 * n + (c.toNat - '0'.toNat)) 0

/-- Go's `strconv.Atoi` on a string of ASCII digits: the number, or a range error when it
does not fit a 64-bit `int`. -/
def atoiDigits (digits : List Char) : Except GoError Int :=
  if digitsValue digits < 2 ^ 63 then .ok (digitsValue digits)
  else
    .error (GoError.new
      ("strconv.Atoi: parsing " ++ quote (String.mk digits) ++ ": value out of range"))

/-- The map `expiry` of `GetExpiry`, from unit letter to amount. -/
abbrev ExpiryMap := Char → Int

/-- The assignment `expiry[unit] = val`. -/
def ExpiryMap.set (expiry : ExpiryMap) (unit : Char) (val : Int) : ExpiryMap :=
  fun u => if u = unit then val else expiry u

/-- The loop of `GetExpiry` over the fields of the expression. -/
def expiryLoop : List (List Char) → ExpiryMap → Except GoError ExpiryMap
  | [], expiry => .ok expiry
  | value :: values, expiry =>
    match matchExpiryField value with
    | none => .error (GoError.new "Invalid expiry expression")
    | some (digits, unit) =>
      if expiry unit > 0 then .error (GoError.new "Invalid expiry expression")
      else
        match atoiDigits digits with
        | .error err => .error err
        | .ok val => expiryLoop values (expiry.set unit val)

/-- The duration `time.Hour*H + time.Minute*M + time.Second*S` in nanoseconds, in 64-bit
arithmetic. -/
def expiryDuration (expiry : ExpiryMap) : Int :=
  wrapInt64 (wrapInt64 (wrapInt64 (3600000000000 * expiry 'H') +
    wrapInt64 (60000000000 * expiry 'M')) + wrapInt64 (1000000000 * expiry 'S'))

/-- The function `GetExpiry`: the expiry date for the reference date and a length of
time such as `1d 3H`; the zero time for an empty expression. -/
def GetExpiry {Time : Type} (clock : Clock Time) (refDate : Time) (s : String) :
    Except GoError Time :=
  if TrimSpace s.data = [] then .ok clock.zero
  else
    match expiryLoop (splitOn ' ' (TrimSpace s.data)) (fun _ => 0) with
    | .error err => .error err
    | .ok expiry =>
      .ok (clock.Add
        (clock.AddDate refDate (expiry 'y') (expiry 'm')
          (wrapInt64 (expiry 'd' + wrapInt64 (expiry 'w' * 7))))
        (expiryDuration expiry))

/-! ## `QuotaWriter` (`shared/util.go`) -/

/-- The struct `QuotaWriter`: the quota and the counter `n`, both `int64`. In place of the
field `writer`, `written` records what the underlying writer was handed, call by call. -/
structure QuotaWriter where
  quota : Int
  n : Int
  written : List (List Nat)
deriving DecidableEq, Repr

/-- The function `NewQuotaWriter`. -/
def NewQuotaWriter (quota : Int) : QuotaWriter := { quota := quota, n := 0, written := [] }

/-- The error of a write that exceeds the quota. -/
def quotaError (n quota : Int) : GoError :=
  GoError.new ("reached " ++ toString n ++ " bytes, exceeding quota of " ++ toString quota)

/-- The method `QuotaWriter.Write` on the bytes `p`: what it returns and the writer
afterwards. `writer` is what the `Write` of the underlying writer returns for `p`. -/
def QuotaWriter.Write (writer : List Nat → Int × Option GoError) (w : QuotaWriter)
    (p : List Nat) : (Int × Option GoError) × QuotaWriter :=
  if w.quota ≥ 0 then
    if wrapInt64 (w.n + p.length) > w.quota then
      ((0, some (quotaError (wrapInt64 (w.n + p.length)) w.quota)),
        { w with n := wrapInt64 (w.n + p.length) })
    else
      (writer p, { w with n := wrapInt64 (w.n + p.length), written := w.written ++ [p] })
  else (writer p, { w with written := w.written ++ [p] })

/-- A sequence of `Write` calls, one per entry of `ps`: the writer afterwards. -/
def writeSequence (writer : List Nat → Int × Option GoError) :
    QuotaWriter → List (List Nat) → QuotaWriter
  | w, [] => w
  | w, p :: ps => writeSequence writer (QuotaWriter.Write writer w p).2 ps

/-- The number of bytes in a sequence of byte slices. -/
def totalBytes (ps : List (List Nat)) : Nat := (ps.map List.length).sum

/-- A buffer of 2^30 bytes. -/
def gibibyte : List Nat := List.replicate (2 ^ 30) 0

/-- An underlying writer that takes everything. -/
def acceptAll (p : List Nat) : Int × Option GoError := (p.length, none)

/-! ## `ParseFileHeaders` (`shared/util.go`) -/

/-- The two errors of Go's package `strconv`: `ErrSyntax` and `ErrRange`. -/
inductive NumError where
  | ErrSyntax
  | ErrRange
deriving DecidableEq, Repr

/-- The value of a byte as a digit in `strconv.ParseUint`: `0`-`9`, then the letters
in either case from 10 on; no value for any other byte. -/
def digitValue (c : Char) : Option Nat :=
  if '0'.toNat ≤ c.toNat ∧ c.toNat ≤ '9'.toNat then some (c.toNat - '0'.toNat)
  else if 'a'.toNat ≤ c.toNat ∧ c.toNat ≤ 'z'.toNat then some (c.toNat - 'a'.toNat + 10)
  else if 'A'.toNat ≤ c.toNat ∧ c.toNat ≤ 'Z'.toNat then some (c.toNat - 'A'.toNat + 10)
  else none

/-- The digit loop of `strconv.ParseUint` for 64 bits: `n` is the number read so far;
an underscore is skipped when the base was given as 0. -/
def parseUintLoop (base : Nat) (base0 : Bool) : List Char → Nat → Except NumError Nat
  | [], n => .ok n
  | c :: cs, n =>
    if c = '_' ∧ base0 = true then parseUintLoop base base0 cs n
    else
      match digitValue c with
      | none => .error .ErrSyntax
      | some d =>
        if d ≥ base then .error .ErrSyntax
        else if n * base + d ≥ 2 ^ 64 then .error .ErrRange
        else parseUintLoop base base0 cs (n * base + d)

/-- The loop of `underscoreOK` of package `strconv`: `saw` is the kind of the last
character seen, `0` for a digit, `_` for an underscore, `!` for anything else. -/
def underscoreLoop (hex : Bool) : List Char → Char → Bool
  | [], saw => saw ≠ '_'
  | c :: cs, saw =>
    if ('0'.toNat ≤ c.toNat ∧ c.toNat ≤ '9'.toNat) ∨
        (hex = true ∧ (('a'.toNat ≤ c.toNat ∧ c.toNat ≤ 'f'.toNat) ∨
          ('A'.toNat ≤ c.toNat ∧ c.toNat ≤ 'F'.toNat))) then
      underscoreLoop hex cs '0'
    else if c = '_' then
      if saw ≠ '0' then false else underscoreLoop hex cs '_'
    else if saw = '_' then false
    else underscoreLoop hex cs '!'

/-- The letter of a base prefix, in lower case. -/
def prefixLetter (c : Char) : Option Char :=
  if c = 'b' ∨ c = 'B' then some 'b'
  else if c = 'o' ∨ c = 'O' then some 'o'
  else if c = 'x' ∨ c = 'X' then some 'x'
  else none

/-- The function `underscoreOK` of package `strconv`: underscores only between digits
or between the base prefix and a digit. -/
def underscoreOK (s : List Char) : Bool :=
  let s := match s with
    | '-' :: rest => rest
    | '+' :: rest => rest
    | _ => s
  match s with
  | '0' :: c :: rest =>
    match prefixLetter c with
    | some letter => underscoreLoop (letter = 'x') rest '0'
    | none => underscoreLoop false s '^'
  | _ => underscoreLoop false s '^'

/-- Go's `strconv.ParseUint(s, base, 64)` for base 0 (the base is read off the prefix)
and for base 10. -/
def ParseUint (s : List Char) (base0 : Bool) : Except NumError Nat :=
  if s = [] then .error .ErrSyntax
  else
    let run (base : Nat) (digits : List Char) : Except NumError Nat :=
      match parseUintLoop base base0 digits 0 with
      | .error err => .error err
      | .ok n =>
        if digits.contains '_' ∧ base0 = true ∧ underscoreOK s = false then .error .ErrSyntax
        else .ok n
    if base0 then
      match s with
      | '0' :: c :: d :: rest =>
        match prefixLetter c with
        | some 'b' => run 2 (d :: rest)
        | some 'o' => run 8 (d :: rest)
        | some _ => run 16 (d :: rest)
        | none => run 8 (c :: d :: rest)
      | '0' :: rest => run 8 rest
      | _ => run 10 s
    else run 10 s

/-- Go's `strconv.ParseInt(s, base, 0)` on a 64-bit platform, for base 0 and base 10:
an optional sign, then `ParseUint`, then the range of `int64`. -/
def ParseInt (s : List Char) (base0 : Bool) : Except NumError Int :=
  if s = [] then .error .ErrSyntax
  else
    let neg := s.head? = some '-'
    let digits := match s with
      | '+' :: rest => rest
      | '-' :: rest => rest
      | _ => s
    match ParseUint digits base0 with
    | .error err => .error err
    | .ok un =>
      if neg = false ∧ un ≥ 2 ^ 63 then .error .ErrRange
      else if neg = true ∧ un > 2 ^ 63 then .error .ErrRange
      else .ok (if neg then -(un : Int) else (un : Int))

/-- Go's `strconv.Atoi(s)`, which is `ParseInt(s, 10, 0)`. -/
def Atoi (s : String) : Except NumError Int := ParseInt s.data false

/-- The permission bits `os.ModePerm`. -/
def ModePerm : Nat := 0o777

/-- The expression `int(os.FileMode(rawMode) & os.ModePerm)`: the `int64` is cut to 32
bits without sign and masked with the permission bits. -/
def permissionBits (rawMode : Int) : Int := ((rawMode % 2 ^ 32).toNat &&& ModePerm : Nat)

/-- What `ParseFileHeaders` returns. -/
structure FileHeaders where
  uid : Int
  gid : Int
  mode : Int
  type_ : String
  write : String
deriving DecidableEq, Repr

/-- The mode that `ParseFileHeaders` reads off the value of the header `X-Incus-mode`. -/
def parseMode (header : String) : Int :=
  match Atoi header with
  | .error _ => -1
  | .ok mode =>
    match ParseInt header.data true with
    | .ok rawMode => permissionBits rawMode
    | .error _ => mode

/-- The function `ParseFileHeaders`; `headers` is `headers.Get`, the value of a header
or the empty string for a header that is missing. -/
def ParseFileHeaders (headers : String → String) : FileHeaders where
  uid := match ParseInt (headers "X-Incus-uid").data false with
    | .ok uid => uid
    | .error _ => -1
  gid := match ParseInt (headers "X-Incus-gid").data false with
    | .ok gid => gid
    | .error _ => -1
  mode := parseMode (headers "X-Incus-mode")
  type_ := if headers "X-Incus-type" = "" then "file" else headers "X-Incus-type"
  write := if headers "X-Incus-write" = "" then "overwrite" else headers "X-Incus-write"

/-- The headers of a request that has only `X-Incus-mode`. -/
def modeHeader (mode : String) (key : String) : String :=
  if key = "X-Incus-mode" then mode else ""

/-! ## `unsetFieldByJsonTag` (`cmd/incus/utils_properties.go`) -/

/-- The value of a struct field, by its Go type: the types of the type switch of
`unsetFieldByJsonTag` (a floating-point number is given by its bits, a time by its
distance from the zero time, a `*time.Time` is `none` for `nil`), and `other` for a value
of any other type: `none` for the zero value of that type, `some r` for another value,
written out as `r`. -/
inductive FieldValue where
  | string (v : String)
  | int (v : Int)
  | bool (v : Bool)
  | float32 (bits : Nat)
  | float64 (bits : Nat)
  | time (v : Int)
  | timePtr (v : Option Int)
  | other (typeName : String) (v : Option String)
deriving DecidableEq, Repr

/-- The Go type of a value. -/
def FieldValue.typeName : FieldValue → String
  | .string _ => "string"
  | .int _ => "int"
  | .bool _ => "bool"
  | .float32 _ => "float32"
  | .float64 _ => "float64"
  | .time _ => "time.Time"
  | .timePtr _ => "*time.Time"
  | .other typeName _ => typeName

/-- The zero value of the type of a value. -/
def FieldValue.zero : FieldValue → FieldValue
  | .string _ => .string ""
  | .int _ => .int 0
  | .bool _ => .bool false
  | .float32 _ => .float32 0
  | .float64 _ => .float64 0
  | .time _ => .time 0
  | .timePtr _ => .timePtr none
  | .other typeName _ => .other typeName none

/-- A field of a struct as package `reflect` shows it: its name, the value of the key
`json` of its tag, whether it is exported, and its value. -/
structure StructField where
  Name : String
  Tag : String
  Exported : Bool
  Value : FieldValue
deriving DecidableEq, Repr

/-- A struct value: its fields in order. -/
abbrev Struct := List StructField

/-- The name in a `json` tag as both loops read it: `commaIdx := strings.Index(jsonTag,
",")` and the tag is cut at the comma when `commaIdx > 0`. -/
def jsonTagName (jsonTag : String) : String :=
  if (jsonTag.data.takeWhile (· ≠ ',')).length < jsonTag.data.length ∧
      0 < (jsonTag.data.takeWhile (· ≠ ',')).length then
    String.mk (jsonTag.data.takeWhile (· ≠ ','))
  else jsonTag

/-- The test `strings.EqualFold(jsonTag, tag)` on a field; `EqualFold` is Go's
`strings.EqualFold`. -/
def hasTag (EqualFold : String → String → Bool) (tag : String) (field : StructField) : Bool :=
  EqualFold (jsonTagName field.Tag) tag

/-- The loop of `getFieldByJsonTag`: `res` is the value of the last field found so far
(`none` while `ok` is false); `Interface()` panics on a field that is not exported. -/
def getLoop (EqualFold : String → String → Bool) (tag : String) :
    Struct → Option FieldValue → Except Panic (Option FieldValue)
  | [], res => .ok res
  | field :: fields, res =>
    if hasTag EqualFold tag field then
      if field.Exported then getLoop EqualFold tag fields (some field.Value)
      else
        .error { message := "reflect.Value.Interface: cannot return value obtained from " ++
          "unexported field or method" }
    else getLoop EqualFold tag fields res

/-- The function `getFieldByJsonTag`. -/
def getFieldByJsonTag (EqualFold : String → String → Bool) (obj : Struct) (tag : String) :
    Except Panic (Except GoError FieldValue) :=
  match getLoop EqualFold tag obj none with
  | .error p => .error p
  | .ok none =>
    .ok (.error (GoError.new ("The property with tag " ++ quote tag ++ " does not exist")))
  | .ok (some res) => .ok (.ok res)

/-- The loop of `setFieldByJsonTag`: the name of the last field with the tag. -/
def fieldNameLoop (EqualFold : String → String → Bool) (tag : String) :
    Struct → String → String
  | [], fieldName => fieldName
  | field :: fields, fieldName =>
    if hasTag EqualFold tag field then fieldNameLoop EqualFold tag fields field.Name
    else fieldNameLoop EqualFold tag fields fieldName

/-- The statement `v.FieldByName(fieldName).Set(reflect.ValueOf(value))` under the test
`CanSet()`: the first field of that name gets the value when it is exported; `Set` panics
when the type of the value is not the type of the field. -/
def setByName (fieldName : String) (value : FieldValue) : Struct → Except Panic Struct
  | [] => .ok []
  | field :: fields =>
    if field.Name = fieldName then
      if field.Exported then
        if value.typeName = field.Value.typeName then
          .ok ({ field with Value := value } :: fields)
        else
          .error { message := "reflect.Set: value of type " ++ value.typeName ++
            " is not assignable to type " ++ field.Value.typeName }
      else .ok (field :: fields)
    else
      match setByName fieldName value fields with
      | .error p => .error p
      | .ok fields' => .ok (field :: fields')

/-- The function `setFieldByJsonTag`. -/
def setFieldByJsonTag (EqualFold : String → String → Bool) (obj : Struct) (tag : String)
    (value : FieldValue) : Except Panic Struct :=
  if fieldNameLoop EqualFold tag obj "" ≠ "" then
    setByName (fieldNameLoop EqualFold tag obj "") value obj
  else .ok obj

/-- The value that the type switch of `unsetFieldByJsonTag` hands to
`setFieldByJsonTag` for a value of each type, `none` for a type without case. -/
def unsetValue : FieldValue → Option FieldValue
  | .string _ => some (.string "")
  | .int _ => some (.int 0)
  | .bool _ => some (.bool false)
  | .float32 _ => some (.float64 0)
  | .float64 _ => some (.float64 0)
  | .time _ => some (.time 0)
  | .timePtr _ => some (.timePtr (some 0))
  | .other _ _ => none

/-- The function `unsetFieldByJsonTag`: the error it returns (`none` for `nil`) and the
struct afterwards, or the panic of package `reflect`. -/
def unsetFieldByJsonTag (EqualFold : String → String → Bool) (obj : Struct) (tag : String) :
    Except Panic (Option GoError × Struct) :=
  match getFieldByJsonTag EqualFold obj tag with
  | .error p => .error p
  | .ok (.error err) => .ok (some err, obj)
  | .ok (.ok v) =>
    match unsetValue v with
    | none => .ok (none, obj)
    | some value =>
      match setFieldByJsonTag EqualFold obj tag value with
      | .error p => .error p
      | .ok obj' => .ok (none, obj')

/-- What `unsetFieldByJsonTag` leaves in a field it resets: the zero value for a string,
an `int`, a `bool`, a `float64` and a `time.Time`, a pointer to the zero time for a
`*time.Time`, and the value as it was for any other type. -/
def cleared : FieldValue → FieldValue
  | .string _ => .string ""
  | .int _ => .int 0
  | .bool _ => .bool false
  | .float32 bits => .float32 bits
  | .float64 _ => .float64 0
  | .time _ => .time 0
  | .timePtr _ => .timePtr (some 0)
  | .other typeName v => .other typeName v

/-- Comparison of tags without regard to the case of ASCII letters. -/
def asciiEqualFold (a b : String) : Bool := toLower a = toLower b

/-- A struct in the shape of `api.InstancePut` with an expiry date: a description, the
list of profiles and a `*time.Time`. -/
def examplePut : Struct :=
  [{ Name := "Description", Tag := "description", Exported := true,
     Value := .string "web server" },
   { Name := "Profiles", Tag := "profiles", Exported := true,
     Value := .other "[]string" (some "[default]") },
   { Name := "ExpiresAt", Tag := "expires_at,omitempty", Exported := true,
     Value := .timePtr (some 1700000000) }]

/-- The last field with the tag, the one both loops end on. -/
def lastMatch (EqualFold : String → String → Bool) (tag : String) : Struct → Option StructField
  | [] => none
  | field :: fields =>
    match lastMatch EqualFold tag fields with
    | some found => some found
    | none => if hasTag EqualFold tag field then some field else none

/-- A struct with a `float32` and an `int64` field. -/
def exampleQuota : Struct :=
  [{ Name := "Share", Tag := "ratio", Exported := true, Value := .float32 1065353216 },
   { Name := "Size", Tag := "size,omitempty", Exported := true,
     Value := .other "int64" (some "5") }]

/-! ## `RemoveDuplicatesFromString` (`shared/util.go`) -/

/-- Go's `strings.Contains(s, substr)`. Strings are read character by character: in
valid UTF-8 an occurrence of one string in another starts at a character boundary, so
this is the search on bytes. -/
def Contains : List Char → List Char → Bool
  | [], substr => substr.isEmpty
  | c :: cs, substr => substr.isPrefixOf (c :: cs) || Contains cs substr

/-- The scan of Go's `strings.Replace(s, old, new, -1)` for a non-empty `old`: from left
to right, each occurrence of `old` that does not overlap the one before is replaced by
`new`; `skip` counts the characters of the current occurrence still to pass over. -/
def replaceLoop (old new : List Char) : Nat → List Char → List Char
  | _, [] => []
  | skip + 1, _ :: cs => replaceLoop old new skip cs
  | 0, c :: cs =>
    if old.isPrefixOf (c :: cs) then new ++ replaceLoop old new (old.length - 1) cs
    else c :: replaceLoop old new 0 cs

/-- Go's `strings.Replace(s, old, new, -1)`: `s` itself when `old` and `new` are equal;
for an empty `old`, `new` before every character and at the end. -/
def Replace (s old new : List Char) : List Char :=
  if old = new then s
  else if old = [] then new ++ s.flatMap (fun c => c :: new)
  else replaceLoop old new 0 s

/-- The loop of `RemoveDuplicatesFromString`: `s = strings.Replace(s, dup, sep, -1)` is
run once and then again as long as `strings.Contains(s, dup)`. `fuel` bounds the number of
runs: `none` when the loop has not ended after `fuel` runs. -/
def removeDuplicatesLoop (dup sep : List Char) : Nat → List Char → Option (List Char)
  | 0, _ => none
  | fuel + 1, s =>
    if Contains (Replace s dup sep) dup then
      removeDuplicatesLoop dup sep fuel (Replace s dup sep)
    else some (Replace s dup sep)

/-- The function `RemoveDuplicatesFromString`, with a bound on the runs of its loop. -/
def RemoveDuplicatesFromString (fuel : Nat) (s sep : String) : Option String :=
  (removeDuplicatesLoop (sep.data ++ sep.data) sep.data fuel s.data).map String.mk

/-- The networks a request goes through, in the order of the two loops: each project of
`projectNames` with each of the networks that `GetNetworks` lists for it; `none` when a
listing fails. -/
def networkPairs (d : Daemon) : List String → Option (List (String × String))
  | [] => some []
  | projectName :: rest =>
    match d.GetNetworks projectName with
    | .error _ => none
    | .ok networkNames =>
      match networkPairs d rest with
      | none => none
      | some pairs =>
        some (networkNames.map (fun networkName => (projectName, networkName)) ++ pairs)

/-- The pairs of project and network that the request `r` is about, in the order in which
the handler visits them. -/
def RequestNetworks (d : Daemon) (r : Request) (pairs : List (String × String)) : Prop :=
  ∃ projectName projectNames, d.NetworkProject r.project = .ok projectName ∧
    projectNamesOf d projectName (IsTrue r.allProjects) = .ok projectNames ∧
    networkPairs d projectNames = some pairs

/-! ## Theorems -/

/-- On the sentinel `network.ErrNotImplemented`, `errors.Is` with the sentinel as its
first argument is an equality test. -/
theorem errorsIs_ErrNotImplemented (err : GoError) :
    errorsIs ErrNotImplemented err = decide (ErrNotImplemented = err) := by
  simp [ErrNotImplemented, errorsIs]

/-! ### The loops of the handler -/

theorem ipToCIDR_ok {addr : String} {netConf : Config} {cidrAddr : String} {nat : Bool}
    (h : ipToCIDR addr netConf = .ok (cidrAddr, nat)) :
    ∃ ip, ParseIP addr = some ip ∧
      (((IP.To4 ip).isSome = true ∧ cidrAddr = IP.String ip ++ "/32" ∧
          nat = IsTrue (netConf.get "ipv4.nat")) ∨
        ((IP.To4 ip).isSome = false ∧ cidrAddr = IP.String ip ++ "/128" ∧
          nat = IsTrue (netConf.get "ipv6.nat"))) := by
  unfold ipToCIDR at h
  cases hp : ParseIP addr with
  | none => simp [hp] at h
  | some ip =>
    refine ⟨ip, rfl, ?_⟩
    simp only [hp] at h
    by_cases h4 : (IP.To4 ip).isSome = true
    · simp only [h4, if_true, Except.ok.injEq, Prod.mk.injEq] at h
      exact Or.inl ⟨h4, h.1.symm, h.2.symm⟩
    · simp only [h4, Bool.false_eq_true, if_false, Except.ok.injEq, Prod.mk.injEq] at h
      exact Or.inr ⟨by simpa using h4, h.1.symm, h.2.symm⟩

theorem ipToCIDR_ok_hostCIDR {addr : String} {netConf : Config} {cidrAddr : String} {nat : Bool}
    (h : ipToCIDR addr netConf = .ok (cidrAddr, nat)) : hostCIDR addr = some cidrAddr := by
  obtain ⟨ip, hp, h4 | h4⟩ := ipToCIDR_ok h
  · simp [hostCIDR, hp, h4.1, h4.2.1]
  · simp [hostCIDR, hp, h4.1, h4.2.1]

theorem ipToCIDR_error {addr : String} {netConf : Config} {err : GoError}
    (h : ipToCIDR addr netConf = .error err) :
    ParseIP addr = none ∧ err = invalidIPError addr := by
  unfold ipToCIDR at h
  cases hp : ParseIP addr with
  | none =>
    simp only [hp, Except.error.injEq] at h
    exact ⟨rfl, h.symm⟩
  | some ip =>
    simp only [hp] at h
    split at h <;> simp at h

theorem familyLoop_eq (projectName networkName : String) (netConf : Config) :
    ∀ (keys : List String) (result : List NetworkAllocations),
      familyLoop projectName networkName netConf keys result =
        result ++ keys.filterMap (familyAllocation projectName networkName netConf)
  | [], result => by simp [familyLoop]
  | keyPrefix :: rest, result => by
    unfold familyLoop
    cases hp : ParseIPCIDRToNet (netConf.get (keyPrefix ++ ".address")) with
    | none =>
      simp only []
      rw [familyLoop_eq projectName networkName netConf rest result]
      simp [List.filterMap_cons, familyAllocation, hp]
    | some ipNet =>
      simp only []
      rw [familyLoop_eq projectName networkName netConf rest]
      simp [List.filterMap_cons, familyAllocation, hp]

theorem leaseLoop_ok (projectName : String) (netConf : Config) :
    ∀ (leases : List NetworkLease) (result out : List NetworkAllocations),
      leaseLoop projectName netConf leases result = .ok out →
      ∃ allocs, out = result ++ allocs ∧
        List.Forall₂ (IsInstanceAllocation projectName netConf)
          (leases.filter isStaticOrDynamic) allocs
  | [], result, out, h => by
    simp only [leaseLoop, Except.ok.injEq] at h
    exact ⟨[], by simp [h], by simp⟩
  | lease :: rest, result, out, h => by
    unfold leaseLoop at h
    by_cases hsd : ValueInSlice lease.Type_ ["static", "dynamic"] = true
    · simp only [hsd, if_true] at h
      cases hc : ipToCIDR lease.Address netConf with
      | error err => simp [hc] at h
      | ok v =>
        obtain ⟨cidrAddr, nat⟩ := v
        simp only [hc] at h
        obtain ⟨allocs, hout, hall⟩ := leaseLoop_ok projectName netConf rest _ out h
        obtain ⟨ip, hp, hfam⟩ := ipToCIDR_ok hc
        refine ⟨_ :: allocs, by simpa using hout, ?_⟩
        have hf : (lease :: rest).filter isStaticOrDynamic =
            lease :: rest.filter isStaticOrDynamic := by
          simp [List.filter_cons, isStaticOrDynamic, hsd]
        rw [hf]
        exact List.Forall₂.cons ⟨ip, hp, rfl, rfl, rfl, hfam⟩ hall
    · simp only [hsd, Bool.false_eq_true, if_false] at h
      obtain ⟨allocs, hout, hall⟩ := leaseLoop_ok projectName netConf rest _ out h
      refine ⟨allocs, hout, ?_⟩
      have hf : (lease :: rest).filter isStaticOrDynamic = rest.filter isStaticOrDynamic := by
        simp [List.filter_cons, isStaticOrDynamic, hsd]
      rw [hf]
      exact hall

theorem leaseLoop_error (projectName : String) (netConf : Config) :
    ∀ (leases : List NetworkLease) (result : List NetworkAllocations) (err : GoError),
      leaseLoop projectName netConf leases result = .error err →
      ∃ lease ∈ leases, isStaticOrDynamic lease = true ∧ ParseIP lease.Address = none ∧
        err = invalidIPError lease.Address
  | [], result, err, h => by simp [leaseLoop] at h
  | lease :: rest, result, err, h => by
    unfold leaseLoop at h
    by_cases hsd : ValueInSlice lease.Type_ ["static", "dynamic"] = true
    · simp only [hsd, if_true] at h
      cases hc : ipToCIDR lease.Address netConf with
      | error e =>
        simp only [hc, Except.error.injEq] at h
        obtain ⟨hp, he⟩ := ipToCIDR_error hc
        exact ⟨lease, List.mem_cons_self _ _, hsd, hp, by rw [← h, he]⟩
      | ok v =>
        obtain ⟨cidrAddr, nat⟩ := v
        simp only [hc] at h
        obtain ⟨l, hl, h1, h2, h3⟩ := leaseLoop_error projectName netConf rest _ err h
        exact ⟨l, List.mem_cons_of_mem _ hl, h1, h2, h3⟩
    · simp only [hsd, Bool.false_eq_true, if_false] at h
      obtain ⟨l, hl, h1, h2, h3⟩ := leaseLoop_error projectName netConf rest _ err h
      exact ⟨l, List.mem_cons_of_mem _ hl, h1, h2, h3⟩

theorem forwardLoop_ok (projectName networkName : String) (netConf : Config) :
    ∀ (forwards : List NetworkForward) (result out : List NetworkAllocations),
      forwardLoop projectName networkName netConf forwards result = .ok out →
      ∃ allocs, out = result ++ allocs ∧
        List.Forall₂ (IsForwardAllocation projectName networkName) forwards allocs
  | [], result, out, h => by
    simp only [forwardLoop, Except.ok.injEq] at h
    exact ⟨[], by simp [h], by simp⟩
  | forward :: rest, result, out, h => by
    unfold forwardLoop at h
    cases hc : ipToCIDR forward.ListenAddress netConf with
    | error err => simp [hc] at h
    | ok v =>
      obtain ⟨cidrAddr, nat⟩ := v
      simp only [hc] at h
      obtain ⟨allocs, hout, hall⟩ := forwardLoop_ok projectName networkName netConf rest _ out h
      refine ⟨_ :: allocs, by simpa using hout, ?_⟩
      exact List.Forall₂.cons ⟨ipToCIDR_ok_hostCIDR hc, rfl, rfl, rfl, rfl⟩ hall

theorem forwardLoop_error (projectName networkName : String) (netConf : Config) :
    ∀ (forwards : List NetworkForward) (result : List NetworkAllocations) (err : GoError),
      forwardLoop projectName networkName netConf forwards result = .error err →
      ∃ forward ∈ forwards, ParseIP forward.ListenAddress = none ∧
        err = invalidIPError forward.ListenAddress
  | [], result, err, h => by simp [forwardLoop] at h
  | forward :: rest, result, err, h => by
    unfold forwardLoop at h
    cases hc : ipToCIDR forward.ListenAddress netConf with
    | error e =>
      simp only [hc, Except.error.injEq] at h
      obtain ⟨hp, he⟩ := ipToCIDR_error hc
      exact ⟨forward, List.mem_cons_self _ _, hp, by rw [← h, he]⟩
    | ok v =>
      obtain ⟨cidrAddr, nat⟩ := v
      simp only [hc] at h
      obtain ⟨f, hf, h1, h2⟩ := forwardLoop_error projectName networkName netConf rest _ err h
      exact ⟨f, List.mem_cons_of_mem _ hf, h1, h2⟩

theorem loadBalancerLoop_ok (projectName networkName : String) (netConf : Config) :
    ∀ (loadBalancers : List NetworkLoadBalancer) (result out : List NetworkAllocations),
      loadBalancerLoop projectName networkName netConf loadBalancers result = .ok out →
      ∃ allocs, out = result ++ allocs ∧
        List.Forall₂ (IsLoadBalancerAllocation projectName networkName) loadBalancers allocs
  | [], result, out, h => by
    simp only [loadBalancerLoop, Except.ok.injEq] at h
    exact ⟨[], by simp [h], by simp⟩
  | loadBalancer :: rest, result, out, h => by
    unfold loadBalancerLoop at h
    cases hc : ipToCIDR loadBalancer.ListenAddress netConf with
    | error err => simp [hc] at h
    | ok v =>
      obtain ⟨cidrAddr, nat⟩ := v
      simp only [hc] at h
      obtain ⟨allocs, hout, hall⟩ :=
        loadBalancerLoop_ok projectName networkName netConf rest _ out h
      refine ⟨_ :: allocs, by simpa using hout, ?_⟩
      exact List.Forall₂.cons ⟨ipToCIDR_ok_hostCIDR hc, rfl, rfl, rfl, rfl⟩ hall

theorem loadBalancerLoop_error (projectName networkName : String) (netConf : Config) :
    ∀ (loadBalancers : List NetworkLoadBalancer) (result : List NetworkAllocations)
      (err : GoError),
      loadBalancerLoop projectName networkName netConf loadBalancers result = .error err →
      ∃ loadBalancer ∈ loadBalancers, ParseIP loadBalancer.ListenAddress = none ∧
        err = invalidIPError loadBalancer.ListenAddress
  | [], result, err, h => by simp [loadBalancerLoop] at h
  | loadBalancer :: rest, result, err, h => by
    unfold loadBalancerLoop at h
    cases hc : ipToCIDR loadBalancer.ListenAddress netConf with
    | error e =>
      simp only [hc, Except.error.injEq] at h
      obtain ⟨hp, he⟩ := ipToCIDR_error hc
      exact ⟨loadBalancer, List.mem_cons_self _ _, hp, by rw [← h, he]⟩
    | ok v =>
      obtain ⟨cidrAddr, nat⟩ := v
      simp only [hc] at h
      obtain ⟨f, hf, h1, h2⟩ :=
        loadBalancerLoop_error projectName networkName netConf rest _ err h
      exact ⟨f, List.mem_cons_of_mem _ hf, h1, h2⟩

theorem errorsIs_self (e : GoError) : errorsIs e e = true := by
  cases e <;> simp [errorsIs]

theorem errorsIs_wrap (msg : String) (e : GoError) : errorsIs (GoError.wrap msg e) e = true := by
  simp [errorsIs, errorsIs_self]

theorem leasesOf_ok {projectName networkName : String} {n : Network}
    {leases : List NetworkLease} (h : leasesOf projectName networkName n = .ok leases) :
    n.Leases projectName = .ok leases ∨
      (n.Leases projectName = .error ErrNotImplemented ∧ leases = []) := by
  unfold leasesOf at h
  cases hl : n.Leases projectName with
  | ok ls =>
    simp only [hl, Except.ok.injEq] at h
    exact Or.inl (by rw [h])
  | error err =>
    simp only [hl, errorsIs_ErrNotImplemented] at h
    by_cases he : ErrNotImplemented = err
    · simp only [he, decide_True, Bool.not_true, Bool.false_eq_true, if_false,
        Except.ok.injEq] at h
      exact Or.inr ⟨by rw [he], h.symm⟩
    · simp [he] at h

theorem leasesOf_error {projectName networkName : String} {n : Network} {err : GoError}
    (h : leasesOf projectName networkName n = .error err) :
    ∃ e, n.Leases projectName = .error e ∧ e ≠ ErrNotImplemented ∧ errorsIs err e = true := by
  unfold leasesOf at h
  cases hl : n.Leases projectName with
  | ok ls => simp [hl] at h
  | error e =>
    simp only [hl, errorsIs_ErrNotImplemented] at h
    by_cases he : ErrNotImplemented = e
    · simp [he] at h
    · simp only [he, decide_False, Bool.not_false, if_true, Except.error.injEq] at h
      exact ⟨e, rfl, fun h' => he h'.symm, by rw [← h]; exact errorsIs_wrap _ _⟩

theorem networkBody_ok {d : Daemon} {projectName networkName : String}
    {result out : List NetworkAllocations}
    (h : networkBody d projectName networkName result = .ok out) :
    ∃ n leases forwards loadBalancers la fa lba,
      d.LoadByName projectName networkName = .ok n ∧
      leasesOf projectName networkName n = .ok leases ∧
      d.GetNetworkForwards n.ID = .ok forwards ∧
      d.GetNetworkLoadBalancers n.ID = .ok loadBalancers ∧
      List.Forall₂ (IsInstanceAllocation projectName n.Config)
        (leases.filter isStaticOrDynamic) la ∧
      List.Forall₂ (IsForwardAllocation projectName networkName) forwards fa ∧
      List.Forall₂ (IsLoadBalancerAllocation projectName networkName) loadBalancers lba ∧
      out = result ++
        (["ipv4", "ipv6"].filterMap (familyAllocation projectName networkName n.Config) ++
          la ++ fa ++ lba) := by
  unfold networkBody at h
  cases hload : d.LoadByName projectName networkName with
  | error err => simp [hload] at h
  | ok n =>
    simp only [hload] at h
    cases hleases : leasesOf projectName networkName n with
    | error err => simp [hleases] at h
    | ok leases =>
      simp only [hleases] at h
      cases hll : leaseLoop projectName n.Config leases
          (familyLoop projectName networkName n.Config ["ipv4", "ipv6"] result) with
      | error err => simp [hll] at h
      | ok r1 =>
        simp only [hll] at h
        cases hfw : d.GetNetworkForwards n.ID with
        | error err => simp [hfw] at h
        | ok forwards =>
          simp only [hfw] at h
          cases hfl : forwardLoop projectName networkName n.Config forwards r1 with
          | error err => simp [hfl] at h
          | ok r2 =>
            simp only [hfl] at h
            cases hlb : d.GetNetworkLoadBalancers n.ID with
            | error err => simp [hlb] at h
            | ok loadBalancers =>
              simp only [hlb] at h
              obtain ⟨la, h1, hla⟩ := leaseLoop_ok _ _ _ _ _ hll
              obtain ⟨fa, h2, hfa⟩ := forwardLoop_ok _ _ _ _ _ _ hfl
              obtain ⟨lba, h3, hlba⟩ := loadBalancerLoop_ok _ _ _ _ _ _ h
              refine ⟨n, leases, forwards, loadBalancers, la, fa, lba, rfl, hleases, hfw, hlb,
                hla, hfa, hlba, ?_⟩
              rw [h3, h2, h1, familyLoop_eq]
              simp only [List.append_assoc]

theorem networkBody_error {d : Daemon} {projectName networkName : String}
    {result : List NetworkAllocations} {err : GoError}
    (h : networkBody d projectName networkName result = .error err) :
    ∃ e, NetworkFailure d projectName networkName e ∧ errorsIs err e = true := by
  unfold networkBody at h
  cases hload : d.LoadByName projectName networkName with
  | error e =>
    simp only [hload, Except.error.injEq] at h
    exact ⟨e, .load hload, by rw [← h]; exact errorsIs_wrap _ _⟩
  | ok n =>
    simp only [hload] at h
    cases hleases : leasesOf projectName networkName n with
    | error e =>
      simp only [hleases, Except.error.injEq] at h
      obtain ⟨e', h1, h2, h3⟩ := leasesOf_error hleases
      exact ⟨e', .leases hload h1 h2, by rw [← h]; exact h3⟩
    | ok leases =>
      simp only [hleases] at h
      cases hll : leaseLoop projectName n.Config leases
          (familyLoop projectName networkName n.Config ["ipv4", "ipv6"] result) with
      | error e =>
        simp only [hll, Except.error.injEq] at h
        obtain ⟨lease, hm, hsd, hp, he⟩ := leaseLoop_error _ _ _ _ _ hll
        rcases leasesOf_ok hleases with hok | ⟨-, hnil⟩
        · exact ⟨_, .leaseAddress hload hok hm hsd hp, by rw [← h, he]; exact errorsIs_self _⟩
        · rw [hnil] at hm
          simp at hm
      | ok r1 =>
        simp only [hll] at h
        cases hfw : d.GetNetworkForwards n.ID with
        | error e =>
          simp only [hfw, Except.error.injEq] at h
          exact ⟨e, .forwards hload hfw, by rw [← h]; exact errorsIs_wrap _ _⟩
        | ok forwards =>
          simp only [hfw] at h
          cases hfl : forwardLoop projectName networkName n.Config forwards r1 with
          | error e =>
            simp only [hfl, Except.error.injEq] at h
            obtain ⟨forward, hm, hp, he⟩ := forwardLoop_error _ _ _ _ _ _ hfl
            exact ⟨_, .forwardAddress hload hfw hm hp, by rw [← h, he]; exact errorsIs_self _⟩
          | ok r2 =>
            simp only [hfl] at h
            cases hlb : d.GetNetworkLoadBalancers n.ID with
            | error e =>
              simp only [hlb, Except.error.injEq] at h
              exact ⟨e, .loadBalancers hload hlb, by rw [← h]; exact errorsIs_wrap _ _⟩
            | ok loadBalancers =>
              simp only [hlb] at h
              obtain ⟨lb, hm, hp, he⟩ := loadBalancerLoop_error _ _ _ _ _ _ h
              exact ⟨_, .loadBalancerAddress hload hlb hm hp,
                by rw [he]; exact errorsIs_self _⟩

theorem hostCIDR_some_of_parse {addr cidrAddr : String} (h : hostCIDR addr = some cidrAddr) :
    ParseIP addr ≠ none := by
  intro hp
  simp [hostCIDR, hp] at h

theorem forall₂_mem_left {α β : Type} {R : α → β → Prop} :
    ∀ {l : List α} {l' : List β}, List.Forall₂ R l l' → ∀ x ∈ l, ∃ y ∈ l', R x y
  | _, _, .nil, x, hx => by simp at hx
  | _, _, .cons hr hrest, x, hx => by
    rcases List.mem_cons.mp hx with rfl | hx
    · exact ⟨_, List.mem_cons_self _ _, hr⟩
    · obtain ⟨y, hy, hxy⟩ := forall₂_mem_left hrest x hx
      exact ⟨y, List.mem_cons_of_mem _ hy, hxy⟩

theorem forall₂_mem_right {α β : Type} {R : α → β → Prop} :
    ∀ {l : List α} {l' : List β}, List.Forall₂ R l l' → ∀ y ∈ l', ∃ x ∈ l, R x y
  | _, _, .nil, y, hy => by simp at hy
  | _, _, .cons hr hrest, y, hy => by
    rcases List.mem_cons.mp hy with rfl | hy
    · exact ⟨_, List.mem_cons_self _ _, hr⟩
    · obtain ⟨x, hx, hxy⟩ := forall₂_mem_right hrest y hy
      exact ⟨x, List.mem_cons_of_mem _ hx, hxy⟩

theorem networkBody_ok_no_failure {d : Daemon} {projectName networkName : String}
    {result out : List NetworkAllocations}
    (h : networkBody d projectName networkName result = .ok out) (e : GoError) :
    ¬ NetworkFailure d projectName networkName e := by
  obtain ⟨n, leases, forwards, loadBalancers, la, fa, lba, hload, hleases, hfw, hlb, hla, hfa,
    hlba, -⟩ := networkBody_ok h
  intro hf
  cases hf with
  | load h1 => rw [hload] at h1; cases h1
  | leases h1 h2 h3 =>
    rw [hload] at h1
    cases h1
    rcases leasesOf_ok hleases with hok | ⟨herr, -⟩
    · rw [hok] at h2; cases h2
    · rw [herr] at h2
      cases h2
      exact h3 rfl
  | leaseAddress h1 h2 h3 h4 h5 =>
    rw [hload] at h1
    cases h1
    rcases leasesOf_ok hleases with hok | ⟨herr, -⟩
    · rw [hok] at h2
      cases h2
      obtain ⟨a, -, ip, hp, -⟩ := forall₂_mem_left hla _ (List.mem_filter.mpr ⟨h3, h4⟩)
      rw [h5] at hp
      cases hp
    · rw [herr] at h2; cases h2
  | forwards h1 h2 =>
    rw [hload] at h1
    cases h1
    rw [hfw] at h2
    cases h2
  | forwardAddress h1 h2 h3 h4 =>
    rw [hload] at h1
    cases h1
    rw [hfw] at h2
    cases h2
    obtain ⟨a, -, hh, -⟩ := forall₂_mem_left hfa _ h3
    exact hostCIDR_some_of_parse hh h4
  | loadBalancers h1 h2 =>
    rw [hload] at h1
    cases h1
    rw [hlb] at h2
    cases h2
  | loadBalancerAddress h1 h2 h3 h4 =>
    rw [hload] at h1
    cases h1
    rw [hlb] at h2
    cases h2
    obtain ⟨a, -, hh, -⟩ := forall₂_mem_left hlba _ h3
    exact hostCIDR_some_of_parse hh h4

theorem networkLoop_error (d : Daemon) (projectName : String) :
    ∀ (networkNames : List String) (result : List NetworkAllocations) (err : GoError),
      networkLoop d projectName networkNames result = .error err →
      ∃ networkName ∈ networkNames, ∃ e,
        NetworkFailure d projectName networkName e ∧ errorsIs err e = true
  | [], result, err, h => by simp [networkLoop] at h
  | networkName :: rest, result, err, h => by
    unfold networkLoop at h
    cases hb : networkBody d projectName networkName result with
    | error e =>
      simp only [hb, Except.error.injEq] at h
      obtain ⟨e', hf, he⟩ := networkBody_error hb
      exact ⟨networkName, List.mem_cons_self _ _, e', hf, by rw [← h]; exact he⟩
    | ok r1 =>
      simp only [hb] at h
      obtain ⟨n, hn, e, hf, he⟩ := networkLoop_error d projectName rest r1 err h
      exact ⟨n, List.mem_cons_of_mem _ hn, e, hf, he⟩

theorem networkLoop_ok_no_failure (d : Daemon) (projectName : String) :
    ∀ (networkNames : List String) (result out : List NetworkAllocations),
      networkLoop d projectName networkNames result = .ok out →
      ∀ networkName ∈ networkNames, ∀ e, ¬ NetworkFailure d projectName networkName e
  | [], result, out, _, n, hn, _ => by simp at hn
  | networkName :: rest, result, out, h, n, hn, e => by
    unfold networkLoop at h
    cases hb : networkBody d projectName networkName result with
    | error e' => simp [hb] at h
    | ok r1 =>
      simp only [hb] at h
      rcases List.mem_cons.mp hn with rfl | hn
      · exact networkBody_ok_no_failure hb e
      · exact networkLoop_ok_no_failure d projectName rest r1 out h n hn e

theorem networkLoop_forall (d : Daemon) (projectName : String) (P : NetworkAllocations → Prop)
    (hbody : ∀ networkName result out, (∀ a ∈ result, P a) →
      networkBody d projectName networkName result = .ok out → ∀ a ∈ out, P a) :
    ∀ (networkNames : List String) (result out : List NetworkAllocations),
      (∀ a ∈ result, P a) → networkLoop d projectName networkNames result = .ok out →
      ∀ a ∈ out, P a
  | [], result, out, hr, h => by
    simp only [networkLoop, Except.ok.injEq] at h
    rw [← h]
    exact hr
  | networkName :: rest, result, out, hr, h => by
    unfold networkLoop at h
    cases hb : networkBody d projectName networkName result with
    | error e' => simp [hb] at h
    | ok r1 =>
      simp only [hb] at h
      exact networkLoop_forall d projectName P hbody rest r1 out
        (hbody networkName result r1 hr hb) h

theorem projectLoop_error (d : Daemon) :
    ∀ (projectNames : List String) (result : List NetworkAllocations) (err : GoError),
      projectLoop d projectNames result = .error err →
      ∃ e, StepFailure d projectNames e ∧ errorsIs err e = true
  | [], result, err, h => by simp [projectLoop] at h
  | projectName :: rest, result, err, h => by
    unfold projectLoop at h
    cases hn : d.GetNetworks projectName with
    | error e =>
      simp only [hn, Except.error.injEq] at h
      exact ⟨e, .networks (List.mem_cons_self _ _) hn, by rw [← h]; exact errorsIs_wrap _ _⟩
    | ok networkNames =>
      simp only [hn] at h
      cases hl : networkLoop d projectName networkNames result with
      | error e =>
        simp only [hl, Except.error.injEq] at h
        obtain ⟨n, hmem, e', hf, he⟩ := networkLoop_error d projectName _ _ _ hl
        exact ⟨e', .network (List.mem_cons_self _ _) hn hmem hf, by rw [← h]; exact he⟩
      | ok r1 =>
        simp only [hl] at h
        obtain ⟨e, hf, he⟩ := projectLoop_error d rest r1 err h
        refine ⟨e, ?_, he⟩
        cases hf with
        | networks h1 h2 => exact .networks (List.mem_cons_of_mem _ h1) h2
        | network h1 h2 h3 h4 => exact .network (List.mem_cons_of_mem _ h1) h2 h3 h4

theorem projectLoop_ok_no_failure (d : Daemon) :
    ∀ (projectNames : List String) (result out : List NetworkAllocations),
      projectLoop d projectNames result = .ok out → ∀ e, ¬ StepFailure d projectNames e
  | [], result, out, _, e => by
    intro hf
    cases hf with
    | networks h1 _ => simp at h1
    | network h1 _ _ _ => simp at h1
  | projectName :: rest, result, out, h, e => by
    unfold projectLoop at h
    cases hn : d.GetNetworks projectName with
    | error e' => simp [hn] at h
    | ok networkNames =>
      simp only [hn] at h
      cases hl : networkLoop d projectName networkNames result with
      | error e' => simp [hl] at h
      | ok r1 =>
        simp only [hl] at h
        intro hf
        cases hf with
        | networks h1 h2 =>
          rcases List.mem_cons.mp h1 with rfl | h1
          · rw [hn] at h2; cases h2
          · exact projectLoop_ok_no_failure d rest r1 out h e (.networks h1 h2)
        | network h1 h2 h3 h4 =>
          rcases List.mem_cons.mp h1 with rfl | h1
          · rw [hn] at h2
            cases h2
            exact networkLoop_ok_no_failure d _ _ _ _ hl _ h3 e h4
          · exact projectLoop_ok_no_failure d rest r1 out h e (.network h1 h2 h3 h4)

theorem projectLoop_forall (d : Daemon) (P : NetworkAllocations → Prop)
    (hbody : ∀ projectName networkName result out, (∀ a ∈ result, P a) →
      networkBody d projectName networkName result = .ok out → ∀ a ∈ out, P a) :
    ∀ (projectNames : List String) (result out : List NetworkAllocations),
      (∀ a ∈ result, P a) → projectLoop d projectNames result = .ok out → ∀ a ∈ out, P a
  | [], result, out, hr, h => by
    simp only [projectLoop, Except.ok.injEq] at h
    rw [← h]
    exact hr
  | projectName :: rest, result, out, hr, h => by
    unfold projectLoop at h
    cases hn : d.GetNetworks projectName with
    | error e' => simp [hn] at h
    | ok networkNames =>
      simp only [hn] at h
      cases hl : networkLoop d projectName networkNames result with
      | error e' => simp [hl] at h
      | ok r1 =>
        simp only [hl] at h
        exact projectLoop_forall d P hbody rest r1 out
          (networkLoop_forall d projectName P (hbody projectName) _ _ _ hr hl) h

theorem hostCIDR_isHostCIDR {addr s : String} (h : hostCIDR addr = some s) : IsHostCIDR s := by
  unfold hostCIDR at h
  cases hp : ParseIP addr with
  | none => simp [hp] at h
  | some ip =>
    simp only [hp, Option.map_some', Option.some.injEq] at h
    refine ⟨ip, ⟨addr, hp⟩, ?_⟩
    by_cases h4 : (IP.To4 ip).isSome = true
    · simp only [h4, if_true] at h
      exact Or.inl ⟨h4, h.symm⟩
    · simp only [h4, Bool.false_eq_true, if_false] at h
      exact Or.inr ⟨by simpa using h4, h.symm⟩

theorem isInstanceAllocation_hostCIDR {p : String} {c : Config} {l : NetworkLease}
    {a : NetworkAllocations} (h : IsInstanceAllocation p c l a) :
    hostCIDR l.Address = some a.Address := by
  obtain ⟨ip, hp, -, -, -, h4 | h4⟩ := h
  · simp [hostCIDR, hp, h4.1, h4.2.1]
  · simp [hostCIDR, hp, h4.1, h4.2.1]

theorem not_isHostCIDR_slash24 : ¬ IsHostCIDR "10.0.0.1/24" := by
  rintro ⟨ip, -, ⟨-, h⟩ | ⟨-, h⟩⟩
  · have h' := congrArg (fun s : String => s.data.getLast?) h
    simp only [String.data_append] at h'
    rw [List.getLast?_append_of_ne_nil _ (by decide)] at h'
    exact absurd h' (by decide)
  · have h' := congrArg (fun s : String => s.data.getLast?) h
    simp only [String.data_append] at h'
    rw [List.getLast?_append_of_ne_nil _ (by decide)] at h'
    exact absurd h' (by decide)

theorem familyAllocation_some {p n : String} {c : Config} {key : String}
    {a : NetworkAllocations} (h : familyAllocation p n c key = some a) :
    ∃ ipNet, ParseIPCIDRToNet (c.get (key ++ ".address")) = some ipNet ∧
      a.Address = IPNet.String ipNet ∧ a.Type_ = "network" ∧
      a.NAT = IsTrue (c.get (key ++ ".nat")) ∧ a.Hwaddr = "" ∧
      a.UsedBy = apiURL [APIVersion, "networks", n] p := by
  unfold familyAllocation at h
  cases hp : ParseIPCIDRToNet (c.get (key ++ ".address")) with
  | none => simp [hp] at h
  | some ipNet =>
    simp only [hp, Option.map_some', Option.some.injEq] at h
    exact ⟨ipNet, rfl, by rw [← h], by rw [← h], by rw [← h], by rw [← h], by rw [← h]⟩

theorem networkBody_addressForm (d : Daemon) (projectName networkName : String)
    (result out : List NetworkAllocations) (hr : ∀ a ∈ result, AddressForm d a)
    (h : networkBody d projectName networkName result = .ok out) :
    ∀ a ∈ out, AddressForm d a := by
  obtain ⟨n, leases, forwards, loadBalancers, la, fa, lba, hload, -, -, -, hla, hfa, hlba,
    hout⟩ := networkBody_ok h
  intro a ha
  rw [hout] at ha
  simp only [List.mem_append] at ha
  rcases ha with ha | ((ha | ha) | ha) | ha
  · exact hr a ha
  · obtain ⟨key, hkey, hk⟩ := List.mem_filterMap.mp ha
    obtain ⟨ipNet, hp, haddr, htype, -⟩ := familyAllocation_some hk
    refine Or.inl ⟨htype, projectName, networkName, n, key, ipNet, hload, ?_, hp, haddr⟩
    simpa using hkey
  · obtain ⟨l, -, hl⟩ := forall₂_mem_right hla a ha
    exact Or.inr ⟨Or.inl hl.choose_spec.2.1, hostCIDR_isHostCIDR (isInstanceAllocation_hostCIDR hl)⟩
  · obtain ⟨f, -, hf⟩ := forall₂_mem_right hfa a ha
    exact Or.inr ⟨Or.inr (Or.inl hf.2.1), hostCIDR_isHostCIDR hf.1⟩
  · obtain ⟨f, -, hf⟩ := forall₂_mem_right hlba a ha
    exact Or.inr ⟨Or.inr (Or.inr hf.2.1), hostCIDR_isHostCIDR hf.1⟩

theorem isStaticOrDynamic_iff (lease : NetworkLease) :
    isStaticOrDynamic lease = true ↔ lease.Type_ = "static" ∨ lease.Type_ = "dynamic" := by
  simp only [isStaticOrDynamic, ValueInSlice]
  by_cases h1 : lease.Type_ = "static"
  · simp [h1]
  · by_cases h2 : lease.Type_ = "dynamic"
    · simp [h2]
    · have h1' : ¬ "static" = lease.Type_ := fun h => h1 h.symm
      have h2' : ¬ "dynamic" = lease.Type_ := fun h => h2 h.symm
      simp [h1, h2, h1', h2']

theorem family_mem {p n : String} {c : Config} {a : NetworkAllocations}
    (ha : a ∈ ["ipv4", "ipv6"].filterMap (familyAllocation p n c)) : a.Type_ = "network" := by
  obtain ⟨key, -, hk⟩ := List.mem_filterMap.mp ha
  exact (familyAllocation_some hk).choose_spec.2.2.1

theorem filter_type_self {l : List NetworkAllocations} (t : String)
    (h : ∀ a ∈ l, a.Type_ = t) : l.filter (fun a => decide (a.Type_ = t)) = l := by
  rw [List.filter_eq_self]
  intro a ha
  simp [h a ha]

theorem filter_type_nil {l : List NetworkAllocations} (t : String) {t' : String}
    (h : ∀ a ∈ l, a.Type_ = t') (hne : t' ≠ t) :
    l.filter (fun a => decide (a.Type_ = t)) = [] := by
  rw [List.filter_eq_nil_iff]
  intro a ha
  simp [h a ha, hne]

theorem forall₂_map_eq {α β γ : Type} {R : α → β → Prop} {f : α → γ} {g : β → γ}
    (hR : ∀ x y, R x y → f x = g y) :
    ∀ {l : List α} {l' : List β}, List.Forall₂ R l l' → l.map f = l'.map g
  | _, _, .nil => rfl
  | _, _, .cons hr hrest => by
    simp only [List.map_cons, hR _ _ hr, forall₂_map_eq hR hrest]

theorem nodup_addressAndType_of_address {l : List NetworkAllocations}
    (h : (l.map fun a => some a.Address).Nodup) : (l.map addressAndType).Nodup := by
  have h' : ((l.map addressAndType).map fun k => some k.1).Nodup := by
    simpa [List.map_map, Function.comp, addressAndType] using h
  exact List.Nodup.of_map _ h'

theorem nodup_append_types {l₁ l₂ : List NetworkAllocations}
    (h₁ : (l₁.map addressAndType).Nodup) (h₂ : (l₂.map addressAndType).Nodup)
    (hne : ∀ a ∈ l₁, ∀ b ∈ l₂, a.Type_ ≠ b.Type_) :
    ((l₁ ++ l₂).map addressAndType).Nodup := by
  rw [List.map_append, List.nodup_append]
  refine ⟨h₁, h₂, ?_⟩
  intro k hk₁ hk₂
  obtain ⟨a, ha, rfl⟩ := List.mem_map.mp hk₁
  obtain ⟨b, hb, hab⟩ := List.mem_map.mp hk₂
  exact hne a ha b hb (by simpa [addressAndType] using (congrArg Prod.snd hab).symm)

theorem scenario_response :
    networkAllocationsGet scenarioDaemon scenarioRequest =
      .SyncResponse true scenarioAllocations := by
  decide

/-! ### The cluster join -/

theorem pemEncodeToMemory_ne_empty (env : InitEnv) (bytes : List Nat) :
    pemEncodeToMemory env bytes ≠ "" := by
  intro h
  have h' := congrArg (fun s : String => s.data.length) h
  simp [pemEncodeToMemory, String.data_append] at h'

/-- The address loop skips a prefix of unreachable members. -/
theorem addressLoop_skip (env : InitEnv) (joinToken : ClusterMemberJoinToken) :
    ∀ (pre rest : List String) (cluster : InitClusterPreseed),
      (∀ x ∈ pre, ∃ e, env.GetRemoteCertificate
        ("https://" ++ env.CanonicalNetworkAddress x HTTPSDefaultPort) = .error e) →
      ∃ cluster', addressLoop env joinToken (pre ++ rest) cluster =
          addressLoop env joinToken rest cluster' ∧
        cluster'.ServerName = cluster.ServerName ∧
        cluster'.ClusterCertificate = cluster.ClusterCertificate ∧
        cluster'.ServerAddress = cluster.ServerAddress ∧
        cluster'.ClusterCertificatePath = cluster.ClusterCertificatePath ∧
        cluster'.ClusterToken = cluster.ClusterToken
  | [], rest, cluster, _ => ⟨cluster, rfl, rfl, rfl, rfl, rfl, rfl⟩
  | x :: pre, rest, cluster, h => by
    obtain ⟨e, he⟩ := h x (List.mem_cons_self _ _)
    obtain ⟨cluster', h1, h2, h3, h4, h5, h6⟩ := addressLoop_skip env joinToken pre rest
      { cluster with ClusterAddress := env.CanonicalNetworkAddress x HTTPSDefaultPort }
      (fun y hy => h y (List.mem_cons_of_mem _ hy))
    refine ⟨cluster', ?_, h2, h3, h4, h5, h6⟩
    rw [List.cons_append]
    simp only [addressLoop, he]
    exact h1

/-- The address loop when no member presents the certificate of the token: it fails, or
it ends with the cluster certificate it started with. -/
theorem addressLoop_no_match (env : InitEnv) (joinToken : ClusterMemberJoinToken) :
    ∀ (addresses : List String) (cluster : InitClusterPreseed),
      (∀ a ∈ addresses, ∀ cert, env.GetRemoteCertificate
        ("https://" ++ env.CanonicalNetworkAddress a HTTPSDefaultPort) = .ok cert →
        env.CertFingerprint cert ≠ joinToken.Fingerprint) →
      (∃ err, addressLoop env joinToken addresses cluster = .error err) ∨
        ∃ cluster', addressLoop env joinToken addresses cluster = .ok cluster' ∧
          cluster'.ClusterCertificate = cluster.ClusterCertificate
  | [], cluster, _ => Or.inr ⟨cluster, rfl, rfl⟩
  | a :: rest, cluster, h => by
    cases hf : env.GetRemoteCertificate
        ("https://" ++ env.CanonicalNetworkAddress a HTTPSDefaultPort) with
    | error e =>
      have ih := addressLoop_no_match env joinToken rest
        { cluster with ClusterAddress := env.CanonicalNetworkAddress a HTTPSDefaultPort }
        (fun b hb => h b (List.mem_cons_of_mem _ hb))
      simpa only [addressLoop, hf] using ih
    | ok cert =>
      have hne := h a (List.mem_cons_self _ _) cert hf
      have hne' : joinToken.Fingerprint ≠ env.CertFingerprint cert := fun h' => hne h'.symm
      refine Or.inl ⟨GoError.new ("Certificate fingerprint mismatch between join token and " ++
          "cluster member " ++ quote a), ?_⟩
      simp only [addressLoop, hf]
      rw [if_pos hne']

theorem certificatePathStep_ok {env : InitEnv} {config config' : InitPreseed}
    {cluster : InitClusterPreseed} (hc : config.Cluster = some cluster)
    (h : certificatePathStep env config = .ok config') :
    ∃ cluster', config'.Cluster = some cluster' ∧ cluster'.ClusterToken = cluster.ClusterToken := by
  unfold certificatePathStep at h
  simp only [hc] at h
  by_cases hp : cluster.ClusterCertificatePath ≠ ""
  · rw [if_pos hp] at h
    by_cases he : env.PathExists cluster.ClusterCertificatePath = true
    · simp only [he, Bool.not_true, Bool.false_eq_true, if_false] at h
      cases hr : env.ReadFile cluster.ClusterCertificatePath with
      | error e => simp [hr] at h
      | ok content =>
        simp only [hr, Except.ok.injEq] at h
        subst h
        exact ⟨{ cluster with ClusterCertificate := content }, rfl, rfl⟩
    · simp [he] at h
  · rw [if_neg hp] at h
    simp only [Except.ok.injEq] at h
    exact ⟨cluster, by rw [← h, hc], rfl⟩

/-- C1 (as stated, refuted): in the scenario the handler does not return an allocation
with address `10.0.0.1/32` next to the instance allocation `10.0.0.5/32`. -/
theorem scenario_network_address_not_host_cidr :
    ¬ ∃ success a b,
      (networkAllocationsGet scenarioDaemon scenarioRequest = .SyncResponse success [a, b] ∨
        networkAllocationsGet scenarioDaemon scenarioRequest = .SyncResponse success [b, a]) ∧
      a.Address = "10.0.0.1/32" ∧ a.Type_ = "network" ∧ a.NAT = true ∧
      b.Address = "10.0.0.5/32" ∧ b.Type_ = "instance" ∧ b.NAT = true ∧
      "/instances/web1".data <:+ b.UsedBy.data := by
  have hv := scenario_response
  simp only [scenarioAllocations] at hv
  rintro ⟨success, a, b, h, ha, hat, -, hb, -⟩
  rw [hv] at h
  rcases h with h | h
  · injection h with _ h
    injection h with h1 _
    rw [← h1] at ha
    exact absurd ha (by decide)
  · injection h with _ h
    injection h with h1 _
    rw [← h1] at hb
    exact absurd hb (by decide)

/-- C1 (amended): when project `default` has the single network `lxdbr0` with
`ipv4.address = 10.0.0.1/24`, `ipv4.nat` true and no IPv6 address, one static lease
`10.0.0.5` for `web1`, no forwards and no load-balancers, the handler called for project
`default` without `all-projects` returns exactly two allocations: the network's address
as configured, `10.0.0.1/24`, of type `network` with NAT, and `10.0.0.5/32` of type
`instance` with NAT, used by `/1.0/instances/web1`. -/
theorem scenario_allocations (d : Daemon) (r : Request) (n : Network) (lease : NetworkLease)
    (hproject : r.project = "default") (hall : IsTrue r.allProjects = false)
    (hnp : d.NetworkProject "default" = .ok "default")
    (hnets : d.GetNetworks "default" = .ok ["lxdbr0"])
    (hload : d.LoadByName "default" "lxdbr0" = .ok n)
    (haddr : n.Config.get "ipv4.address" = "10.0.0.1/24")
    (hnat : IsTrue (n.Config.get "ipv4.nat") = true)
    (hv6 : n.Config.get "ipv6.address" = "")
    (hleases : n.Leases "default" = .ok [lease])
    (htype : lease.Type_ = "static") (hla : lease.Address = "10.0.0.5")
    (hhost : lease.Hostname = "web1")
    (hfw : d.GetNetworkForwards n.ID = .ok [])
    (hlb : d.GetNetworkLoadBalancers n.ID = .ok []) :
    networkAllocationsGet d r = .SyncResponse true [
      { Address := "10.0.0.1/24", UsedBy := "/1.0/networks/lxdbr0", Type_ := "network",
        NAT := true, Hwaddr := "" },
      { Address := "10.0.0.5/32", UsedBy := "/1.0/instances/web1", Type_ := "instance",
        NAT := true, Hwaddr := lease.Hwaddr }] := by
  have h4 : ParseIPCIDRToNet "10.0.0.1/24" =
      some { IP := v4InV6Prefix ++ [10, 0, 0, 1], Mask := [255, 255, 255, 0] } := by decide
  have h4s : IPNet.String { IP := v4InV6Prefix ++ [10, 0, 0, 1], Mask := [255, 255, 255, 0] } =
      "10.0.0.1/24" := by decide
  have h6 : ParseIPCIDRToNet "" = none := by decide
  have hip : ipToCIDR "10.0.0.5" n.Config = .ok ("10.0.0.5/32", true) := by
    have h1 : ParseIP "10.0.0.5" = some (v4InV6Prefix ++ [10, 0, 0, 5]) := by decide
    have h2 : (IP.To4 (v4InV6Prefix ++ [10, 0, 0, 5])).isSome = true := by decide
    have h3 : IP.String (v4InV6Prefix ++ [10, 0, 0, 5]) ++ "/32" = "10.0.0.5/32" := by decide
    simp only [ipToCIDR, h1, h2, h3, hnat, if_true]
  have hu1 : apiURL [APIVersion, "networks", "lxdbr0"] "default" = "/1.0/networks/lxdbr0" := by
    decide
  have hu2 : apiURL [APIVersion, "instances", "web1"] "default" = "/1.0/instances/web1" := by
    decide
  have hsd : ValueInSlice "static" ["static", "dynamic"] = true := by decide
  have hk1 : ("ipv4" : String) ++ ".address" = "ipv4.address" := by decide
  have hk2 : ("ipv6" : String) ++ ".address" = "ipv6.address" := by decide
  have hk3 : ("ipv4" : String) ++ ".nat" = "ipv4.nat" := by decide
  simp only [networkAllocationsGet, hproject, hnp, projectNamesOf, hall, projectLoop, hnets,
    networkLoop, networkBody, hload, familyLoop, hk1, hk2, hk3, haddr, hv6, h4, h6, h4s, hnat,
    leasesOf, hleases, leaseLoop, htype, hsd, hla, hip, hhost, hu1, hu2, hfw, hlb, forwardLoop,
    loadBalancerLoop, Bool.not_false, if_true, List.nil_append, List.cons_append,
    List.singleton_append]

/-- C1 (amended), at the scenario. -/
theorem scenario_allocations_witness :
    networkAllocationsGet scenarioDaemon scenarioRequest = .SyncResponse true [
      { Address := "10.0.0.1/24", UsedBy := "/1.0/networks/lxdbr0", Type_ := "network",
        NAT := true, Hwaddr := "" },
      { Address := "10.0.0.5/32", UsedBy := "/1.0/instances/web1", Type_ := "instance",
        NAT := true, Hwaddr := "00:16:3e:0a:0b:0c" }] :=
  scenario_allocations scenarioDaemon scenarioRequest scenarioNetwork
    { Hostname := "web1", Hwaddr := "00:16:3e:0a:0b:0c", Address := "10.0.0.5",
      Type_ := "static" }
    rfl (by decide) rfl rfl rfl (by decide) (by decide) (by decide) rfl rfl rfl rfl rfl rfl

/-- C2 (the code at the failing input): when the lease query of network `n1` fails with an
error that wraps `network.ErrNotImplemented`, the handler answers with an error and no
allocation, not with the `network` allocation of `n1`. -/
theorem wrapped_not_implemented_fails :
    networkAllocationsGet wrappedNotImplementedDaemon scenarioRequest =
      .SmartError (GoError.wrap
        "Failed getting leases for network \"n1\" in project \"default\""
        (GoError.wrap "Failed getting leases from member" ErrNotImplemented)) ∧
    errorsIs (GoError.wrap "Failed getting leases from member" ErrNotImplemented)
      ErrNotImplemented = true := by
  constructor <;> decide

/-- The token step on a token whose first reachable member is `a`: the members before `a`
are skipped; when the certificate of `a` has the fingerprint of the token the step
succeeds with the address of `a` and the PEM encoding of its certificate, and when it has
another fingerprint the step fails with the fingerprint-mismatch error. -/
theorem tokenStep_first_reachable (env : InitEnv) (cluster : InitClusterPreseed)
    (joinToken : ClusterMemberJoinToken) (pre post : List String) (a : String)
    (cert : Certificate)
    (hdec : JoinTokenDecode env cluster.ClusterToken = .ok joinToken)
    (haddr : joinToken.Addresses = pre ++ a :: post)
    (hpre : ∀ x ∈ pre, ∃ e, env.GetRemoteCertificate
      ("https://" ++ env.CanonicalNetworkAddress x HTTPSDefaultPort) = .error e)
    (ha : env.GetRemoteCertificate
      ("https://" ++ env.CanonicalNetworkAddress a HTTPSDefaultPort) = .ok cert) :
    (env.CertFingerprint cert = joinToken.Fingerprint →
      ∃ cluster', tokenStep env cluster = .ok cluster' ∧
        cluster'.ClusterAddress = env.CanonicalNetworkAddress a HTTPSDefaultPort ∧
        cluster'.ClusterCertificate = pemEncodeToMemory env cert.Raw) ∧
    (env.CertFingerprint cert ≠ joinToken.Fingerprint →
      tokenStep env cluster = .error (GoError.new
        ("Certificate fingerprint mismatch between join token and " ++
          "cluster member " ++ quote a))) := by
  obtain ⟨c1, h1, -⟩ := addressLoop_skip env joinToken pre (a :: post)
    { cluster with ServerName := joinToken.ServerName } hpre
  constructor
  · intro hfp
    have hfp' : ¬ joinToken.Fingerprint ≠ env.CertFingerprint cert := by
      simp [hfp]
    refine ⟨{ c1 with
      ClusterAddress := env.CanonicalNetworkAddress a HTTPSDefaultPort
      ClusterCertificate := pemEncodeToMemory env cert.Raw }, ?_, rfl, rfl⟩
    simp only [tokenStep, hdec, haddr, h1, addressLoop, ha, hfp', if_false,
      pemEncodeToMemory_ne_empty]
  · intro hfp
    have hfp' : joinToken.Fingerprint ≠ env.CertFingerprint cert := fun h' => hfp h'.symm
    simp only [tokenStep, hdec, haddr, h1, addressLoop, ha]
    rw [if_pos hfp']

/-- C3 (as stated, refuted): the second member of the token presents a certificate with
the fingerprint of the token, but the first member presents another certificate, and the
run ends with an error without trying the second. -/
theorem mismatch_before_match_fails :
    (∃ cert, mismatchFirstEnv.GetRemoteCertificate
        ("https://" ++ mismatchFirstEnv.CanonicalNetworkAddress "10.0.0.3:8443"
          HTTPSDefaultPort) = .ok cert ∧
      mismatchFirstEnv.CertFingerprint cert = exampleToken.Fingerprint) ∧
    JoinTokenDecode mismatchFirstEnv joinCluster.ClusterToken = .ok exampleToken ∧
    tokenStep mismatchFirstEnv joinCluster = .error (GoError.new
      "Certificate fingerprint mismatch between join token and cluster member \"10.0.0.2:8443\"") ∧
    cmdInit.Run mismatchFirstEnv { Node := [], Cluster := some joinCluster } =
      (some (GoError.new
        "Certificate fingerprint mismatch between join token and cluster member \"10.0.0.2:8443\""),
        []) :=
  ⟨⟨{ Raw := [1] }, rfl, rfl⟩, rfl, rfl, rfl⟩

/-- When no cluster certificate is set as the token step starts and no member of the token
presents a certificate with the fingerprint of the token, `cmdInit.Run` returns an error
and makes no call on the daemon. -/
theorem run_fails_without_certificate (env : InitEnv) (config : InitPreseed) (cluster : InitClusterPreseed)
    (hc : config.Cluster = some cluster) (htoken : cluster.ClusterToken ≠ "")
    (hcert : ∀ config' cluster', certificatePathStep env config = .ok config' →
      config'.Cluster = some cluster' → cluster'.ClusterCertificate = "")
    (hnone : ∀ joinToken, JoinTokenDecode env cluster.ClusterToken = .ok joinToken →
      ∀ a ∈ joinToken.Addresses, ∀ cert, env.GetRemoteCertificate
        ("https://" ++ env.CanonicalNetworkAddress a HTTPSDefaultPort) = .ok cert →
        env.CertFingerprint cert ≠ joinToken.Fingerprint) :
    ∃ err, cmdInit.Run env config = (some err, []) := by
  unfold cmdInit.Run
  cases hp : certificatePathStep env config with
  | error err => exact ⟨err, rfl⟩
  | ok config' =>
    obtain ⟨cluster', hc', ht'⟩ := certificatePathStep_ok hc hp
    have hempty := hcert config' cluster' hp hc'
    have htoken' : cluster'.ClusterToken ≠ "" := by rw [ht']; exact htoken
    simp only [hc', htoken', ne_eq, not_false_eq_true, if_true]
    have hts : ∃ err, tokenStep env cluster' = .error err := by
      unfold tokenStep
      cases hd : JoinTokenDecode env cluster'.ClusterToken with
      | error e => exact ⟨_, rfl⟩
      | ok joinToken =>
        simp only []
        rcases addressLoop_no_match env joinToken joinToken.Addresses
            { cluster' with ServerName := joinToken.ServerName }
            (hnone joinToken (by rw [← ht']; exact hd)) with ⟨err, he⟩ | ⟨c2, hok, hcc⟩
        · exact ⟨err, by simp only [he]⟩
        · have hc2 : c2.ClusterCertificate = "" := by rw [hcc]; exact hempty
          refine ⟨GoError.new
            "Unable to connect to any of the cluster members specified in join token", ?_⟩
          simp only [hok, hc2, if_true]
    obtain ⟨err, he⟩ := hts
    exact ⟨err, by simp only [he]⟩

/-- C4: the configuration carries a join token and a cluster certificate, no member of the
token is reachable, and `cmdInit.Run` returns no error and issues the cluster join
(`UpdateCluster`) with the certificate of the configuration and the last address of the
token: the test after the loop looks at the certificate, not at whether a member was
found. -/
theorem join_issued_with_preset_certificate :
    (∀ a ∈ exampleToken.Addresses, ∃ e, unreachableEnv.GetRemoteCertificate
      ("https://" ++ unreachableEnv.CanonicalNetworkAddress a HTTPSDefaultPort) = .error e) ∧
    JoinTokenDecode unreachableEnv presetCertificateCluster.ClusterToken = .ok exampleToken ∧
    cmdInit.Run unreachableEnv { Node := [], Cluster := some presetCertificateCluster } =
      (none, [Action.UpdateCluster
        { presetCertificateCluster with
          ServerName := "node2"
          ClusterAddress := "10.0.0.3:8443" }]) :=
  ⟨fun _ _ => ⟨GoError.new "connection refused", rfl⟩, rfl, rfl⟩

/-- The token step on a token with two addresses whose first member is unreachable and
whose second member presents the certificate of the token. -/
theorem tokenStep_second_address (env : InitEnv) (cluster : InitClusterPreseed)
    (joinToken : ClusterMemberJoinToken) (first second : String) (cert : Certificate)
    (hdec : JoinTokenDecode env cluster.ClusterToken = .ok joinToken)
    (haddr : joinToken.Addresses = [first, second])
    (hfirst : ∃ e, env.GetRemoteCertificate
      ("https://" ++ env.CanonicalNetworkAddress first HTTPSDefaultPort) = .error e)
    (hsecond : env.GetRemoteCertificate
      ("https://" ++ env.CanonicalNetworkAddress second HTTPSDefaultPort) = .ok cert)
    (hfp : env.CertFingerprint cert = joinToken.Fingerprint) :
    ∃ cluster', tokenStep env cluster = .ok cluster' ∧
      cluster'.ClusterAddress = env.CanonicalNetworkAddress second HTTPSDefaultPort ∧
      cluster'.ClusterCertificate = pemEncodeToMemory env cert.Raw ∧
      cluster'.ServerName = joinToken.ServerName := by
  obtain ⟨e, he⟩ := hfirst
  have hfp' : ¬ joinToken.Fingerprint ≠ env.CertFingerprint cert := by
    simp [hfp]
  refine ⟨{ cluster with
    ServerName := joinToken.ServerName
    ClusterAddress := env.CanonicalNetworkAddress second HTTPSDefaultPort
    ClusterCertificate := pemEncodeToMemory env cert.Raw }, ?_, rfl, rfl, rfl⟩
  simp only [tokenStep, hdec, haddr, addressLoop, he, hsecond, hfp', if_false,
    pemEncodeToMemory_ne_empty]

/-- C6: when a step of the request fails for one entity (enumerating the project names,
enumerating the networks of a project, loading a network, querying its leases with an
error other than `network.ErrNotImplemented`, listing its forwards or its load-balancers,
or turning one of their addresses into CIDR form), the handler answers with an error
response, so with none of the allocations gathered before the failure: the answer is
never a partial list. The error of the response wraps the error of a failing step, and it
wraps the error `e` itself when no step fails with another error. -/
theorem failure_aborts_request (d : Daemon) (r : Request) (e : GoError)
    (hf : RequestFailure d r e) :
    ∃ err, networkAllocationsGet d r = .SmartError err ∧
      (∃ e', RequestFailure d r e' ∧ errorsIs err e' = true) ∧
      ((∀ e', RequestFailure d r e' → e' = e) → errorsIs err e = true) := by
  have key : ∃ err e', networkAllocationsGet d r = .SmartError err ∧ RequestFailure d r e' ∧
      errorsIs err e' = true := by
    cases hf with
    | projectNames hnp hall hpn =>
      refine ⟨_, e, ?_, .projectNames hnp hall hpn, errorsIs_wrap "Failed loading projects" e⟩
      simp [networkAllocationsGet, hnp, projectNamesOf, hall, hpn]
    | step hnp hps hstep =>
      rename_i projectName projectNames
      cases hl : projectLoop d projectNames [] with
      | ok out => exact absurd hstep (projectLoop_ok_no_failure d _ _ _ hl e)
      | error err =>
        obtain ⟨e', hf', he'⟩ := projectLoop_error d _ _ _ hl
        refine ⟨err, e', ?_, .step hnp hps hf', he'⟩
        simp [networkAllocationsGet, hnp, hps, hl]
  obtain ⟨err, e', hresp, hfail, hwrap⟩ := key
  refine ⟨err, hresp, ⟨e', hfail, hwrap⟩, ?_⟩
  intro honly
  rw [← honly e' hfail]
  exact hwrap

/-- C6, at a request for project `default` whose second network cannot be loaded: the
answer is an error, and the allocations of the first network are not returned. -/
theorem failure_aborts_request_witness :
    ∃ err, networkAllocationsGet secondNetworkFailsDaemon scenarioRequest = .SmartError err ∧
      (∃ e', RequestFailure secondNetworkFailsDaemon scenarioRequest e' ∧
        errorsIs err e' = true) ∧
      ((∀ e', RequestFailure secondNetworkFailsDaemon scenarioRequest e' →
        e' = GoError.new "Network not found") →
        errorsIs err (GoError.new "Network not found") = true) :=
  failure_aborts_request secondNetworkFailsDaemon scenarioRequest
    (GoError.new "Network not found")
    (@RequestFailure.step secondNetworkFailsDaemon scenarioRequest "default" ["default"] _
      rfl rfl
      (@StepFailure.network secondNetworkFailsDaemon ["default"] "default" "br1"
        ["lxdbr0", "br1"] _ (by decide) rfl (by decide) (.load rfl)))

/-- C7 (amended): the handler emits one allocation per source record and removes no
duplicate. When the `ipv4.address` and `ipv6.address` of the network render differently
and the static and dynamic leases, the forwards and the load-balancers of the network
each have pairwise distinct addresses in host form, no two of the allocations emitted for
the (project, network) pair have both the same address and the same type. -/
theorem allocations_distinct_for_distinct_sources (d : Daemon) (projectName networkName : String) (n : Network)
    (leases : List NetworkLease) (forwards : List NetworkForward)
    (loadBalancers : List NetworkLoadBalancer) (out : List NetworkAllocations)
    (hload : d.LoadByName projectName networkName = .ok n)
    (hleases : leasesOf projectName networkName n = .ok leases)
    (hfw : d.GetNetworkForwards n.ID = .ok forwards)
    (hlb : d.GetNetworkLoadBalancers n.ID = .ok loadBalancers)
    (h : networkBody d projectName networkName [] = .ok out)
    (hfam : ∀ a4 a6, ParseIPCIDRToNet (n.Config.get "ipv4.address") = some a4 →
      ParseIPCIDRToNet (n.Config.get "ipv6.address") = some a6 →
      IPNet.String a4 ≠ IPNet.String a6)
    (hl : ((leases.filter isStaticOrDynamic).map fun lease => hostCIDR lease.Address).Nodup)
    (hf : (forwards.map fun forward => hostCIDR forward.ListenAddress).Nodup)
    (hb : (loadBalancers.map fun loadBalancer => hostCIDR loadBalancer.ListenAddress).Nodup) :
    (out.map fun a => (a.Address, a.Type_)).Nodup := by
  obtain ⟨n', leases', forwards', loadBalancers', la, fa, lba, hload', hleases', hfw', hlb',
    hla, hfa, hlba, hout⟩ := networkBody_ok h
  rw [hload] at hload'
  cases hload'
  rw [hleases] at hleases'
  cases hleases'
  rw [hfw] at hfw'
  cases hfw'
  rw [hlb] at hlb'
  cases hlb'
  have tfam : ∀ a ∈ ["ipv4", "ipv6"].filterMap
      (familyAllocation projectName networkName n.Config), a.Type_ = "network" :=
    fun a ha => family_mem ha
  have tla : ∀ a ∈ la, a.Type_ = "instance" :=
    fun a ha => (forall₂_mem_right hla a ha).choose_spec.2.choose_spec.2.1
  have tfa : ∀ a ∈ fa, a.Type_ = "network-forward" :=
    fun a ha => (forall₂_mem_right hfa a ha).choose_spec.2.2.1
  have tlba : ∀ a ∈ lba, a.Type_ = "network-load-balancer" :=
    fun a ha => (forall₂_mem_right hlba a ha).choose_spec.2.2.1
  have nla : (la.map addressAndType).Nodup := by
    apply nodup_addressAndType_of_address
    rw [← forall₂_map_eq (fun _ _ hr => isInstanceAllocation_hostCIDR hr) hla]
    exact hl
  have nfa : (fa.map addressAndType).Nodup := by
    apply nodup_addressAndType_of_address
    rw [← forall₂_map_eq (fun _ _ hr => hr.1) hfa]
    exact hf
  have nlba : (lba.map addressAndType).Nodup := by
    apply nodup_addressAndType_of_address
    rw [← forall₂_map_eq (fun _ _ hr => hr.1) hlba]
    exact hb
  have nfam : ((["ipv4", "ipv6"].filterMap
      (familyAllocation projectName networkName n.Config)).map addressAndType).Nodup := by
    have hk1 : ("ipv4" : String) ++ ".address" = "ipv4.address" := by decide
    have hk2 : ("ipv6" : String) ++ ".address" = "ipv6.address" := by decide
    simp only [List.filterMap_cons, List.filterMap_nil, familyAllocation, hk1, hk2]
    cases h4 : ParseIPCIDRToNet (n.Config.get "ipv4.address") with
    | none =>
      cases h6 : ParseIPCIDRToNet (n.Config.get "ipv6.address") with
      | none => simp
      | some a6 => simp
    | some a4 =>
      cases h6 : ParseIPCIDRToNet (n.Config.get "ipv6.address") with
      | none => simp
      | some a6 =>
        have := hfam a4 a6 h4 h6
        simp [addressAndType, this]
  have hall : (out.map addressAndType).Nodup := by
    rw [hout, List.nil_append]
    refine nodup_append_types (nodup_append_types (nodup_append_types nfam nla ?_) nfa ?_)
      nlba ?_
    · intro a ha b hb
      rw [tfam a ha, tla b hb]
      decide
    · intro a ha b hb
      rw [tfa b hb]
      rcases List.mem_append.mp ha with ha | ha
      · rw [tfam a ha]
        decide
      · rw [tla a ha]
        decide
    · intro a ha b hb
      rw [tlba b hb]
      rcases List.mem_append.mp ha with ha | ha
      · rcases List.mem_append.mp ha with ha | ha
        · rw [tfam a ha]
          decide
        · rw [tla a ha]
          decide
      · rw [tfa a ha]
        decide
  exact hall

/-- C7 (amended), at the network `br0`. -/
theorem allocations_distinct_for_distinct_sources_witness :
    (br0Allocations.map fun a => (a.Address, a.Type_)).Nodup :=
  allocations_distinct_for_distinct_sources br0Daemon "default" "br0" br0Network br0Leases
    [{ ListenAddress := "192.0.2.10" }] [{ ListenAddress := "2001:db8::20" }] br0Allocations
    rfl rfl rfl rfl rfl
    (by
      intro a4 a6 h4 h6
      have e4 : ParseIPCIDRToNet (br0Network.Config.get "ipv4.address") =
          some { IP := v4InV6Prefix ++ [10, 0, 0, 1], Mask := [255, 255, 255, 0] } := by
        decide
      have e6 : ParseIPCIDRToNet (br0Network.Config.get "ipv6.address") =
          some { IP := [253, 66, 0, 0, 0, 0, 0, 0, 0, 0, 0, 0, 0, 0, 0, 1],
                 Mask := CIDRMask 64 16 } := by
        decide
      rw [e4] at h4
      rw [e6] at h6
      cases h4
      cases h6
      decide)
    (by decide) (by decide) (by decide)

/-- C7 (as stated, refuted): when the driver of `lxdbr0` returns a static and a dynamic
lease for the same address `10.0.0.5`, the handler emits two allocations with address
`10.0.0.5/32` and type `instance` for the pair (`default`, `lxdbr0`). -/
theorem duplicate_lease_gives_duplicate_allocation :
    ∃ out, networkBody duplicateLeaseDaemon "default" "lxdbr0" [] = .ok out ∧
      networkAllocationsGet duplicateLeaseDaemon scenarioRequest = .SyncResponse true out ∧
      ¬ (out.map fun a => (a.Address, a.Type_)).Nodup :=
  ⟨[{ Address := "10.0.0.1/24", UsedBy := "/1.0/networks/lxdbr0", Type_ := "network",
      NAT := true, Hwaddr := "" },
    { Address := "10.0.0.5/32", UsedBy := "/1.0/instances/web1", Type_ := "instance",
      NAT := true, Hwaddr := "00:16:3e:0a:0b:0c" },
    { Address := "10.0.0.5/32", UsedBy := "/1.0/instances/old1", Type_ := "instance",
      NAT := true, Hwaddr := "00:16:3e:01:02:03" }], rfl, rfl, by decide⟩

/-- C8 (amended): on every successful call, every returned allocation of type `instance`,
`network-forward` or `network-load-balancer` has an address in host CIDR form (an IPv4
address followed by `/32` or an IPv6 address followed by `/128`), and every allocation of
type `network` has the address and the prefix length of the `ipv4.address` or
`ipv6.address` setting of a loaded network; every allocation has one of the four types. -/
theorem allocation_address_forms (d : Daemon) (r : Request) (success : Bool) (result : List NetworkAllocations)
    (h : networkAllocationsGet d r = .SyncResponse success result) :
    ∀ a ∈ result,
      (a.Type_ = "network" ∧
        ∃ projectName networkName n keyPrefix ipNet,
          d.LoadByName projectName networkName = .ok n ∧
          (keyPrefix = "ipv4" ∨ keyPrefix = "ipv6") ∧
          ParseIPCIDRToNet (n.Config.get (keyPrefix ++ ".address")) = some ipNet ∧
          a.Address = IPNet.String ipNet) ∨
      ((a.Type_ = "instance" ∨ a.Type_ = "network-forward" ∨
          a.Type_ = "network-load-balancer") ∧
        IsHostCIDR a.Address) := by
  unfold networkAllocationsGet at h
  cases hnp : d.NetworkProject r.project with
  | error e => simp [hnp] at h
  | ok projectName =>
    simp only [hnp] at h
    cases hps : projectNamesOf d projectName (IsTrue r.allProjects) with
    | error e => simp [hps] at h
    | ok projectNames =>
      simp only [hps] at h
      cases hl : projectLoop d projectNames [] with
      | error e => simp [hl] at h
      | ok out =>
        simp only [hl, Response.SyncResponse.injEq] at h
        rw [← h.2]
        exact projectLoop_forall d (AddressForm d) (networkBody_addressForm d) _ _ _
          (by simp) hl

/-- C8 (amended), at the instance allocation of the scenario. -/
theorem allocation_address_forms_witness :
    AddressForm scenarioDaemon
      { Address := "10.0.0.5/32", UsedBy := "/1.0/instances/web1", Type_ := "instance",
        NAT := true, Hwaddr := "00:16:3e:0a:0b:0c" } :=
  allocation_address_forms scenarioDaemon scenarioRequest true scenarioAllocations
    (by decide) _ (List.mem_cons_of_mem _ (List.mem_cons_self _ _))

/-- C8 (as stated, refuted): in the scenario the call succeeds and returns an allocation of
type `network` whose address `10.0.0.1/24` is not in host CIDR form. -/
theorem network_allocation_not_host_cidr :
    ∃ success result,
      networkAllocationsGet scenarioDaemon scenarioRequest = .SyncResponse success result ∧
      ∃ a ∈ result, a.Type_ = "network" ∧ a.Address = "10.0.0.1/24" ∧
        ¬ IsHostCIDR a.Address :=
  ⟨true, scenarioAllocations, scenario_response, _, List.mem_cons_self _ _, rfl, rfl,
    not_isHostCIDR_slash24⟩

theorem Config.get_absent : ∀ (c : Config) (key : String), (∀ v, (key, v) ∉ c) → c.get key = ""
  | [], _, _ => rfl
  | (k, v) :: rest, key, h => by
    have hk : k ≠ key := by
      intro hk
      exact h v (by rw [hk]; exact List.mem_cons_self _ _)
    unfold Config.get
    rw [if_neg hk]
    exact Config.get_absent rest key (fun v' hv' => h v' (List.mem_cons_of_mem _ hv'))

theorem sameListing_symm {α : Type} :
    ∀ {x y : Except GoError (List α)}, SameListing x y → SameListing y x
  | .ok _, .ok _, h => List.Perm.symm h
  | .error _, .error _, h => Eq.symm h
  | .ok _, .error _, h => h
  | .error _, .ok _, h => h

theorem sameState_symm {d d' : Daemon} (h : SameState d d') : SameState d' d :=
  ⟨h.1.symm, h.2.1.symm, h.2.2.1.symm, h.2.2.2.1.symm, fun id => sameListing_symm (h.2.2.2.2.1 id),
    fun id => sameListing_symm (h.2.2.2.2.2 id)⟩

theorem sameListing_ok_left {α : Type} {x : Except GoError (List α)} {l : List α}
    (h : SameListing (.ok l) x) : ∃ l', x = .ok l' ∧ l.Perm l' := by
  cases x with
  | ok l' => exact ⟨l', rfl, h⟩
  | error e => exact absurd h id

theorem sameListing_error_left {α : Type} {x : Except GoError (List α)} {e : GoError}
    (h : SameListing (.error e) x) : x = .error e := by
  cases x with
  | ok l' => exact absurd h id
  | error e' =>
    have : e = e' := h
    rw [this]

theorem isInstanceAllocation_unique {p : String} {c : Config} {l : NetworkLease}
    {a a' : NetworkAllocations} (h : IsInstanceAllocation p c l a)
    (h' : IsInstanceAllocation p c l a') : a = a' := by
  obtain ⟨ip, hp, h1, h2, h3, h4⟩ := h
  obtain ⟨ip', hp', h1', h2', h3', h4'⟩ := h'
  rw [hp] at hp'
  cases hp'
  cases a
  cases a'
  simp only [NetworkAllocations.mk.injEq]
  simp only at h1 h2 h3 h4 h1' h2' h3' h4'
  rcases h4 with ⟨t, ha, hn⟩ | ⟨t, ha, hn⟩ <;> rcases h4' with ⟨t', ha', hn'⟩ | ⟨t', ha', hn'⟩
  · exact ⟨by rw [ha, ha'], by rw [h3, h3'], by rw [h1, h1'], by rw [hn, hn'], by rw [h2, h2']⟩
  · rw [t] at t'
    cases t'
  · rw [t] at t'
    cases t'
  · exact ⟨by rw [ha, ha'], by rw [h3, h3'], by rw [h1, h1'], by rw [hn, hn'], by rw [h2, h2']⟩

theorem forall₂_unique {α β : Type} {R : α → β → Prop}
    (hR : ∀ x y y', R x y → R x y' → y = y') :
    ∀ {l : List α} {l₁ l₂ : List β}, List.Forall₂ R l l₁ → List.Forall₂ R l l₂ → l₁ = l₂
  | _, _, _, .nil, .nil => rfl
  | _, _, _, .cons h₁ t₁, .cons h₂ t₂ => by
    rw [hR _ _ _ h₁ h₂, forall₂_unique hR t₁ t₂]

theorem isForwardAllocation_eq {p n : String} {f : NetworkForward} {a : NetworkAllocations}
    (h : IsForwardAllocation p n f a) : forwardAllocationOf p n f = a := by
  obtain ⟨h1, h2, h3, h4, h5⟩ := h
  cases a
  simp only at h1 h2 h3 h4 h5
  simp only [forwardAllocationOf, h1, Option.getD_some, h2, h3, h4, h5]

theorem isLoadBalancerAllocation_eq {p n : String} {f : NetworkLoadBalancer}
    {a : NetworkAllocations} (h : IsLoadBalancerAllocation p n f a) :
    loadBalancerAllocationOf p n f = a := by
  obtain ⟨h1, h2, h3, h4, h5⟩ := h
  cases a
  simp only at h1 h2 h3 h4 h5
  simp only [loadBalancerAllocationOf, h1, Option.getD_some, h2, h3, h4, h5]

theorem networkBody_perm {d d' : Daemon} (hs : SameState d d') {projectName networkName : String}
    {result result' out out' : List NetworkAllocations} (hr : result.Perm result')
    (h : networkBody d projectName networkName result = .ok out)
    (h' : networkBody d' projectName networkName result' = .ok out') : out.Perm out' := by
  obtain ⟨n, leases, forwards, lbs, la, fa, lba, hload, hleases, hfw, hlb, hla, hfa, hlba,
    hout⟩ := networkBody_ok h
  obtain ⟨n', leases', forwards', lbs', la', fa', lba', hload', hleases', hfw', hlb', hla',
    hfa', hlba', hout'⟩ := networkBody_ok h'
  rw [← hs.2.2.2.1, hload] at hload'
  cases hload'
  rw [hleases] at hleases'
  cases hleases'
  have hla_eq : la = la' :=
    @forall₂_unique _ _ (IsInstanceAllocation projectName n.Config)
      (fun _ _ _ h1 h2 => isInstanceAllocation_unique h1 h2) _ _ _ hla hla'
  have hfperm : forwards.Perm forwards' := by
    have := hs.2.2.2.2.1 n.ID
    rw [hfw, hfw'] at this
    exact this
  have hlperm : lbs.Perm lbs' := by
    have := hs.2.2.2.2.2 n.ID
    rw [hlb, hlb'] at this
    exact this
  have hfa_eq : fa = forwards.map (forwardAllocationOf projectName networkName) := by
    have := @forall₂_map_eq _ _ _ _ (forwardAllocationOf projectName networkName) id
      (fun _ _ hr => isForwardAllocation_eq hr) _ _ hfa
    simpa using this.symm
  have hfa_eq' : fa' = forwards'.map (forwardAllocationOf projectName networkName) := by
    have := @forall₂_map_eq _ _ _ _ (forwardAllocationOf projectName networkName) id
      (fun _ _ hr => isForwardAllocation_eq hr) _ _ hfa'
    simpa using this.symm
  have hlba_eq : lba = lbs.map (loadBalancerAllocationOf projectName networkName) := by
    have := @forall₂_map_eq _ _ _ _ (loadBalancerAllocationOf projectName networkName) id
      (fun _ _ hr => isLoadBalancerAllocation_eq hr) _ _ hlba
    simpa using this.symm
  have hlba_eq' : lba' = lbs'.map (loadBalancerAllocationOf projectName networkName) := by
    have := @forall₂_map_eq _ _ _ _ (loadBalancerAllocationOf projectName networkName) id
      (fun _ _ hr => isLoadBalancerAllocation_eq hr) _ _ hlba'
    simpa using this.symm
  rw [hout, hout', hla_eq, hfa_eq, hfa_eq', hlba_eq, hlba_eq']
  exact hr.append (((List.Perm.refl _).append (hfperm.map _)).append (hlperm.map _))

theorem networkFailure_transfer {d d' : Daemon} (hs : SameState d d')
    {projectName networkName : String} {e : GoError}
    (hf : NetworkFailure d projectName networkName e) :
    ∃ e', NetworkFailure d' projectName networkName e' := by
  have hl := congrFun (congrFun hs.2.2.2.1 projectName) networkName
  cases hf with
  | load h1 => exact ⟨e, .load (by rw [← hl]; exact h1)⟩
  | leases h1 h2 h3 => exact ⟨e, .leases (by rw [← hl]; exact h1) h2 h3⟩
  | leaseAddress h1 h2 h3 h4 h5 =>
    exact ⟨_, .leaseAddress (by rw [← hl]; exact h1) h2 h3 h4 h5⟩
  | forwards h1 h2 =>
    rename_i n
    have := hs.2.2.2.2.1 n.ID
    rw [h2] at this
    exact ⟨e, .forwards (by rw [← hl]; exact h1) (sameListing_error_left this)⟩
  | forwardAddress h1 h2 h3 h4 =>
    rename_i n forwards forward
    have := hs.2.2.2.2.1 n.ID
    rw [h2] at this
    obtain ⟨l', hl', hp⟩ := sameListing_ok_left this
    exact ⟨_, .forwardAddress (by rw [← hl]; exact h1) hl' (hp.subset h3) h4⟩
  | loadBalancers h1 h2 =>
    rename_i n
    have := hs.2.2.2.2.2 n.ID
    rw [h2] at this
    exact ⟨e, .loadBalancers (by rw [← hl]; exact h1) (sameListing_error_left this)⟩
  | loadBalancerAddress h1 h2 h3 h4 =>
    rename_i n lbs lb
    have := hs.2.2.2.2.2 n.ID
    rw [h2] at this
    obtain ⟨l', hl', hp⟩ := sameListing_ok_left this
    exact ⟨_, .loadBalancerAddress (by rw [← hl]; exact h1) hl' (hp.subset h3) h4⟩

theorem networkBody_same {d d' : Daemon} (hs : SameState d d') (projectName networkName : String)
    {result result' : List NetworkAllocations} (hr : result.Perm result') :
    (∃ e e', networkBody d projectName networkName result = .error e ∧
      networkBody d' projectName networkName result' = .error e') ∨
    (∃ out out', networkBody d projectName networkName result = .ok out ∧
      networkBody d' projectName networkName result' = .ok out' ∧ out.Perm out') := by
  cases h : networkBody d projectName networkName result with
  | error e =>
    cases h' : networkBody d' projectName networkName result' with
    | error e' => exact Or.inl ⟨e, e', rfl, rfl⟩
    | ok out' =>
      obtain ⟨e0, hf, -⟩ := networkBody_error h
      obtain ⟨e1, hf'⟩ := networkFailure_transfer hs hf
      exact absurd hf' (networkBody_ok_no_failure h' e1)
  | ok out =>
    cases h' : networkBody d' projectName networkName result' with
    | error e' =>
      obtain ⟨e0, hf, -⟩ := networkBody_error h'
      obtain ⟨e1, hf'⟩ := networkFailure_transfer (sameState_symm hs) hf
      exact absurd hf' (networkBody_ok_no_failure h e1)
    | ok out' => exact Or.inr ⟨out, out', rfl, rfl, networkBody_perm hs hr h h'⟩

theorem networkLoop_same {d d' : Daemon} (hs : SameState d d') (projectName : String) :
    ∀ (networkNames : List String) (result result' : List NetworkAllocations),
      result.Perm result' →
      (∃ e e', networkLoop d projectName networkNames result = .error e ∧
        networkLoop d' projectName networkNames result' = .error e') ∨
      (∃ out out', networkLoop d projectName networkNames result = .ok out ∧
        networkLoop d' projectName networkNames result' = .ok out' ∧ out.Perm out')
  | [], result, result', hr => Or.inr ⟨result, result', rfl, rfl, hr⟩
  | networkName :: rest, result, result', hr => by
    rcases networkBody_same hs projectName networkName hr with
      ⟨e, e', h, h'⟩ | ⟨out, out', h, h', hp⟩
    · exact Or.inl ⟨e, e', by simp only [networkLoop, h], by simp only [networkLoop, h']⟩
    · have ih := networkLoop_same hs projectName rest out out' hp
      simpa only [networkLoop, h, h'] using ih

theorem projectLoop_same {d d' : Daemon} (hs : SameState d d') :
    ∀ (projectNames : List String) (result result' : List NetworkAllocations),
      result.Perm result' →
      (∃ e e', projectLoop d projectNames result = .error e ∧
        projectLoop d' projectNames result' = .error e') ∨
      (∃ out out', projectLoop d projectNames result = .ok out ∧
        projectLoop d' projectNames result' = .ok out' ∧ out.Perm out')
  | [], result, result', hr => Or.inr ⟨result, result', rfl, rfl, hr⟩
  | projectName :: rest, result, result', hr => by
    have hn := congrFun hs.2.2.1 projectName
    cases hg : d.GetNetworks projectName with
    | error e =>
      rw [hg] at hn
      exact Or.inl ⟨GoError.wrap "Failed loading networks" e,
        GoError.wrap "Failed loading networks" e, by simp only [projectLoop, hg],
        by simp only [projectLoop, ← hn]⟩
    | ok networkNames =>
      rw [hg] at hn
      rcases networkLoop_same hs projectName networkNames result result' hr with
        ⟨e, e', h, h'⟩ | ⟨out, out', h, h', hp⟩
      · exact Or.inl ⟨e, e', by simp only [projectLoop, hg, h],
          by simp only [projectLoop, ← hn, h']⟩
      · have ih := projectLoop_same hs rest out out' hp
        simpa only [projectLoop, hg, ← hn, h, h'] using ih

/-- C12 (amended): two runs of the handler on the same state with the same request either
both answer with an error, or both succeed with the same allocations as a multiset: the
two lists are permutations of each other, so nothing is dropped and nothing is emitted
twice between the runs. The order is the same as far as the forward and load-balancer
listings are visited in the same order. -/
theorem same_state_same_allocations (d d' : Daemon) (r : Request) (hs : SameState d d') :
    (∃ e e', networkAllocationsGet d r = .SmartError e ∧
      networkAllocationsGet d' r = .SmartError e') ∨
    (∃ l l', networkAllocationsGet d r = .SyncResponse true l ∧
      networkAllocationsGet d' r = .SyncResponse true l' ∧ l.Perm l') := by
  have hnp := congrFun hs.1 r.project
  have hpn : ∀ projectName allProjects,
      projectNamesOf d projectName allProjects = projectNamesOf d' projectName allProjects := by
    intro projectName allProjects
    simp only [projectNamesOf, hs.2.1]
  unfold networkAllocationsGet
  rw [← hnp]
  cases d.NetworkProject r.project with
  | error e => exact Or.inl ⟨e, e, rfl, rfl⟩
  | ok projectName =>
    simp only []
    rw [← hpn]
    cases projectNamesOf d projectName (IsTrue r.allProjects) with
    | error e => exact Or.inl ⟨e, e, rfl, rfl⟩
    | ok projectNames =>
      simp only []
      rcases projectLoop_same hs projectNames [] [] (List.Perm.refl _) with
        ⟨e, e', h, h'⟩ | ⟨out, out', h, h', hp⟩
      · exact Or.inl ⟨e, e', by simp only [h], by simp only [h']⟩
      · exact Or.inr ⟨out, out', by simp only [h], by simp only [h'], hp⟩

/-- C12 (amended), at a network with two forwards visited in two orders. -/
theorem same_state_same_allocations_witness :
    (∃ e e', networkAllocationsGet
        (twoForwardsDaemon [{ ListenAddress := "192.0.2.10" }, { ListenAddress := "192.0.2.11" }])
        scenarioRequest = .SmartError e ∧
      networkAllocationsGet
        (twoForwardsDaemon [{ ListenAddress := "192.0.2.11" }, { ListenAddress := "192.0.2.10" }])
        scenarioRequest = .SmartError e') ∨
    (∃ l l', networkAllocationsGet
        (twoForwardsDaemon [{ ListenAddress := "192.0.2.10" }, { ListenAddress := "192.0.2.11" }])
        scenarioRequest = .SyncResponse true l ∧
      networkAllocationsGet
        (twoForwardsDaemon [{ ListenAddress := "192.0.2.11" }, { ListenAddress := "192.0.2.10" }])
        scenarioRequest = .SyncResponse true l' ∧ l.Perm l') :=
  same_state_same_allocations _ _ scenarioRequest
    ⟨rfl, rfl, rfl, rfl, fun _ => List.Perm.swap _ _ _, fun _ => List.Perm.refl _⟩

/-- C12 (as stated, refuted): two runs on the same state that visit the two forwards of
`br1` in different orders both succeed and return different sequences. -/
theorem range_order_changes_sequence :
    SameState
      (twoForwardsDaemon [{ ListenAddress := "192.0.2.10" }, { ListenAddress := "192.0.2.11" }])
      (twoForwardsDaemon [{ ListenAddress := "192.0.2.11" }, { ListenAddress := "192.0.2.10" }]) ∧
    ∃ l l', networkAllocationsGet
        (twoForwardsDaemon [{ ListenAddress := "192.0.2.10" }, { ListenAddress := "192.0.2.11" }])
        scenarioRequest = .SyncResponse true l ∧
      networkAllocationsGet
        (twoForwardsDaemon [{ ListenAddress := "192.0.2.11" }, { ListenAddress := "192.0.2.10" }])
        scenarioRequest = .SyncResponse true l' ∧ l ≠ l' :=
  ⟨⟨rfl, rfl, rfl, rfl, fun _ => List.Perm.swap _ _ _, fun _ => List.Perm.refl _⟩,
    _, _, rfl, rfl, by decide⟩

/-- C13: `JoinTokenDecode` returns the token `j` exactly when the input decodes as base64
to bytes that unmarshal as JSON to `j` and `j` has a server name, at least one address, a
secret and a fingerprint; and it returns an error (and no token) exactly when the input
does not decode to such a token. -/
theorem joinTokenDecode_ok_iff (env : InitEnv) (input : String) (j : ClusterMemberJoinToken) :
    (JoinTokenDecode env input = .ok j ↔
      ∃ joinTokenJSON, env.base64Decode input = .ok joinTokenJSON ∧
        env.jsonUnmarshal joinTokenJSON = .ok j ∧ j.ServerName ≠ "" ∧ 1 ≤ j.Addresses.length ∧
        j.Secret ≠ "" ∧ j.Fingerprint ≠ "") ∧
    ((∃ err, JoinTokenDecode env input = .error err) ↔
      ¬ ∃ joinTokenJSON j', env.base64Decode input = .ok joinTokenJSON ∧
        env.jsonUnmarshal joinTokenJSON = .ok j' ∧ j'.ServerName ≠ "" ∧
        1 ≤ j'.Addresses.length ∧ j'.Secret ≠ "" ∧ j'.Fingerprint ≠ "") := by
  have key : ∀ t, JoinTokenDecode env input = .ok t ↔
      ∃ joinTokenJSON, env.base64Decode input = .ok joinTokenJSON ∧
        env.jsonUnmarshal joinTokenJSON = .ok t ∧ t.ServerName ≠ "" ∧ 1 ≤ t.Addresses.length ∧
        t.Secret ≠ "" ∧ t.Fingerprint ≠ "" := by
    intro t
    unfold JoinTokenDecode
    cases hb : env.base64Decode input with
    | error e => simp
    | ok bytes =>
      cases hj : env.jsonUnmarshal bytes with
      | error e => simp [hj]
      | ok t' =>
        simp only [Except.ok.injEq, exists_eq_left', hj]
        by_cases h1 : t'.ServerName = ""
        · simp only [h1, if_true]
          constructor
          · intro h; cases h
          · rintro ⟨rfl, h, -⟩; exact absurd h1 h
        · by_cases h2 : t'.Addresses.length < 1
          · simp only [h1, h2, if_true, if_false]
            constructor
            · intro h; cases h
            · rintro ⟨rfl, -, h, -⟩; omega
          · by_cases h3 : t'.Secret = ""
            · simp only [h1, h2, h3, if_true, if_false]
              constructor
              · intro h; cases h
              · rintro ⟨rfl, -, -, h, -⟩; exact absurd h3 h
            · by_cases h4 : t'.Fingerprint = ""
              · simp only [h1, h2, h3, h4, if_true, if_false]
                constructor
                · intro h; cases h
                · rintro ⟨rfl, -, -, -, h⟩; exact absurd h4 h
              · simp only [h1, h2, h3, h4, if_false, Except.ok.injEq]
                constructor
                · rintro rfl; exact ⟨rfl, h1, by omega, h3, h4⟩
                · rintro ⟨rfl, -⟩; rfl
  refine ⟨key j, ?_⟩
  constructor
  · rintro ⟨err, herr⟩ ⟨bytes, j', h⟩
    rw [(key j').mpr ⟨bytes, h⟩] at herr
    cases herr
  · intro hno
    cases h : JoinTokenDecode env input with
    | error err => exact ⟨err, rfl⟩
    | ok t =>
      obtain ⟨bytes, hb⟩ := (key t).mp h
      exact absurd ⟨bytes, t, hb⟩ hno

/-- A run of `cmdSnapshotCreate.Run` that passes the argument check, parses the remote,
resolves the names and connects is the run of `reuseAndCreate` on that server. -/
theorem run_reaches_server {c : cmdSnapshotCreate} {env : SnapshotEnv} {args : List String}
    {remote name0 name snapname : String} {d : InstanceServer}
    (hcheck : (env.CheckArgs args).1 = false)
    (hparse : env.ParseRemote (args.getD 0 "") = .ok (remote, name0))
    (hsplit : splitSnapshotName name0 (if args.length < 2 then "" else args.getD 1 "") =
      .ok (name, snapname))
    (hserver : env.GetInstanceServer remote = .ok d) :
    cmdSnapshotCreate.Run c env args = reuseAndCreate c d name snapname := by
  unfold cmdSnapshotCreate.Run
  rw [if_neg (by rw [hcheck]; decide)]
  simp only [hparse, hsplit, hserver]

/-- With `--reuse`, a snapshot name and an existing snapshot, the part of the run on the
server: errors of the deletion and of its `Wait` end the run before any creation, and a
creation is preceded by the lookup, the deletion and its `Wait` without error. -/
theorem reuseAndCreate_trace (c : cmdSnapshotCreate) (d : InstanceServer)
    (name snapname : String) (snap : InstanceSnapshot)
    (hreuse : c.flagReuse = true) (hname : snapname ≠ "")
    (hsnap : (d.GetInstanceSnapshot name snapname).1 = some snap) :
    (∀ err, d.DeleteInstanceSnapshot name snapname = .error err →
      reuseAndCreate c d name snapname =
        (some err, [.GetInstanceSnapshot name snapname,
          .DeleteInstanceSnapshot name snapname])) ∧
    (∀ op err, d.DeleteInstanceSnapshot name snapname = .ok op → op.Wait = some err →
      reuseAndCreate c d name snapname =
        (some err, [.GetInstanceSnapshot name snapname,
          .DeleteInstanceSnapshot name snapname, .Wait op])) ∧
    (∀ pre post req,
      (reuseAndCreate c d name snapname).2 =
        pre ++ SnapshotCall.CreateInstanceSnapshot name req :: post →
      ∃ op, d.DeleteInstanceSnapshot name snapname = .ok op ∧ op.Wait = none ∧
        pre = [.GetInstanceSnapshot name snapname, .DeleteInstanceSnapshot name snapname,
          .Wait op]) := by
  have hcond : c.flagReuse = true ∧ snapname ≠ "" := ⟨hreuse, hname⟩
  refine ⟨?_, ?_, ?_⟩
  · intro err hdel
    unfold reuseAndCreate
    rw [if_pos hcond]
    simp only [hsnap, hdel]
  · intro op err hdel hwait
    unfold reuseAndCreate
    rw [if_pos hcond]
    simp only [hsnap, hdel, hwait]
  · intro pre post req htrace
    unfold reuseAndCreate at htrace
    rw [if_pos hcond] at htrace
    simp only [hsnap] at htrace
    cases hdel : d.DeleteInstanceSnapshot name snapname with
    | error err =>
      simp only [hdel] at htrace
      rcases pre with _ | ⟨a, _ | ⟨b, pre⟩⟩ <;> simp at htrace
    | ok op =>
      simp only [hdel] at htrace
      cases hwait : op.Wait with
      | some err =>
        simp only [hwait] at htrace
        rcases pre with _ | ⟨a, _ | ⟨b, _ | ⟨c', pre⟩⟩⟩ <;> simp at htrace
      | none =>
        simp only [hwait] at htrace
        refine ⟨op, rfl, hwait, ?_⟩
        unfold createStep at htrace
        cases hcreate : d.CreateInstanceSnapshot name (snapshotRequest c snapname) with
        | error err =>
          simp only [hcreate] at htrace
          rcases pre with _ | ⟨a, _ | ⟨b, _ | ⟨c', _ | ⟨d', pre⟩⟩⟩⟩ <;> simp at htrace
          obtain ⟨rfl, rfl, rfl, -⟩ := htrace
          rfl
        | ok op' =>
          simp only [hcreate] at htrace
          rcases pre with _ | ⟨a, _ | ⟨b, _ | ⟨c', _ | ⟨d', _ | ⟨e', pre⟩⟩⟩⟩⟩ <;>
            simp at htrace
          obtain ⟨rfl, rfl, rfl, -⟩ := htrace
          rfl

/-- C14: in every run of `cmdSnapshotCreate.Run` with `--reuse` that reaches the server
with a snapshot name and an existing snapshot of that name, an error of
`DeleteInstanceSnapshot` or of the `Wait` of the delete operation is returned by the run
and `CreateInstanceSnapshot` is not called; and whenever `CreateInstanceSnapshot` is
called, the calls before it are the lookup, `DeleteInstanceSnapshot` and the `Wait` of
the delete operation, which returned no error. -/
theorem delete_completes_before_create (c : cmdSnapshotCreate) (env : SnapshotEnv)
    (args : List String) (remote name0 name snapname : String) (d : InstanceServer)
    (snap : InstanceSnapshot)
    (hcheck : (env.CheckArgs args).1 = false)
    (hparse : env.ParseRemote (args.getD 0 "") = .ok (remote, name0))
    (hsplit : splitSnapshotName name0 (if args.length < 2 then "" else args.getD 1 "") =
      .ok (name, snapname))
    (hserver : env.GetInstanceServer remote = .ok d)
    (hreuse : c.flagReuse = true) (hname : snapname ≠ "")
    (hsnap : (d.GetInstanceSnapshot name snapname).1 = some snap) :
    (∀ err, d.DeleteInstanceSnapshot name snapname = .error err →
      cmdSnapshotCreate.Run c env args =
        (some err, [.GetInstanceSnapshot name snapname,
          .DeleteInstanceSnapshot name snapname])) ∧
    (∀ op err, d.DeleteInstanceSnapshot name snapname = .ok op → op.Wait = some err →
      cmdSnapshotCreate.Run c env args =
        (some err, [.GetInstanceSnapshot name snapname,
          .DeleteInstanceSnapshot name snapname, .Wait op])) ∧
    (∀ pre post req,
      (cmdSnapshotCreate.Run c env args).2 =
        pre ++ SnapshotCall.CreateInstanceSnapshot name req :: post →
      ∃ op, d.DeleteInstanceSnapshot name snapname = .ok op ∧ op.Wait = none ∧
        pre = [.GetInstanceSnapshot name snapname, .DeleteInstanceSnapshot name snapname,
          .Wait op]) := by
  rw [run_reaches_server hcheck hparse hsplit hserver]
  exact reuseAndCreate_trace c d name snapname snap hreuse hname hsnap

/-- C14, at `incus snapshot create u1 snap0 --reuse` on a server whose deletion of
`snap0` fails: the run returns that error after the lookup and the deletion, without a
creation. -/
theorem delete_completes_before_create_witness :
    cmdSnapshotCreate.Run { flagStateful := false, flagNoExpiry := false, flagReuse := true }
        (snapshotEnv (snap0Server (.error (GoError.new "Snapshot is in use"))))
        ["u1", "snap0"] =
      (some (GoError.new "Snapshot is in use"),
        [.GetInstanceSnapshot "u1" "snap0", .DeleteInstanceSnapshot "u1" "snap0"]) :=
  (delete_completes_before_create
    { flagStateful := false, flagNoExpiry := false, flagReuse := true }
    (snapshotEnv (snap0Server (.error (GoError.new "Snapshot is in use"))))
    ["u1", "snap0"] "local" "u1" "u1" "snap0"
    (snap0Server (.error (GoError.new "Snapshot is in use"))) { Name := "snap0" }
    rfl rfl rfl rfl rfl (by decide) rfl).1 (GoError.new "Snapshot is in use") rfl

/-- C15: for a raft node record that `DetermineRaftNode` returns, an empty address is
no error: `loadInfo` returns the record with the same `ID` and `Role` and with the address
`1` when the stored address is empty, the stored address otherwise; the only other
outcome is the error of making the data directory. -/
theorem loadInfo_address (database : NodeDB) (fs : FileSystem) (info : RaftNode)
    (h : database.DetermineRaftNode = .ok (some info)) :
    ((loadInfo database fs).1 =
        .ok (some { ID := info.ID
                    Address := if info.Address = "" then "1" else info.Address
                    Role := info.Role }) ∨
      ∃ err, PathExists fs (globalDir database.Dir) = false ∧
        Mkdir fs (globalDir database.Dir) 0o750 = .error err ∧
        (loadInfo database fs).1 = .error err) := by
  unfold loadInfo
  simp only [h]
  have hinfo : standaloneAddress info =
      ({ ID := info.ID, Address := if info.Address = "" then "1" else info.Address,
         Role := info.Role } : RaftNode) := by
    unfold standaloneAddress
    by_cases ha : info.Address = ""
    · simp only [ha, if_true]
    · simp only [ha, if_false]
  rw [hinfo]
  cases hp : PathExists fs (globalDir database.Dir) with
  | true => exact Or.inl (by simp)
  | false =>
    cases hm : Mkdir fs (globalDir database.Dir) 0o750 with
    | error err => exact Or.inr ⟨err, rfl, rfl, by simp⟩
    | ok fs' => exact Or.inl (by simp)

/-- C15, at a standalone member on an empty file system. -/
theorem loadInfo_address_witness :
    ((loadInfo standaloneDB emptyFileSystem).1 =
        .ok (some { ID := 1, Address := "1", Role := .voter }) ∨
      ∃ err, PathExists emptyFileSystem (globalDir standaloneDB.Dir) = false ∧
        Mkdir emptyFileSystem (globalDir standaloneDB.Dir) 0o750 = .error err ∧
        (loadInfo standaloneDB emptyFileSystem).1 = .error err) :=
  loadInfo_address standaloneDB emptyFileSystem { ID := 1, Address := "", Role := .voter } rfl

theorem pathExists_after_mkdir {fs fs' : FileSystem} {name : String} {perm : Nat}
    (hp : PathExists fs name = false) (hm : Mkdir fs name perm = .ok fs') :
    fs'.entry name = some (.directory perm) ∧ PathExists fs' name = true := by
  have hl : fs.lstatFails name = false := by
    cases hl : fs.lstatFails name with
    | false => rfl
    | true => simp [PathExists, Lstat, hl] at hp
  unfold Mkdir at hm
  split at hm
  · cases hm
  · cases hf : fs.mkdirFails name with
    | some err => simp [hf] at hm
    | none =>
      simp only [hf, Except.ok.injEq] at hm
      subst hm
      simp [PathExists, Lstat, hl]

/-- C16 (amended): for a member that is part of the consensus group, `loadInfo` returns
a node record only if `PathExists` holds for `<database dir>/global` when it returns
(something is at the path, a directory or not, or `os.Lstat` cannot examine it); when
the path is absent it makes the directory with mode 0750, and when that fails it returns
the error, no node record, and leaves the file system as it was. -/
theorem loadInfo_data_directory (database : NodeDB) (fs : FileSystem) (info : RaftNode)
    (h : database.DetermineRaftNode = .ok (some info)) :
    (∀ info' fs', loadInfo database fs = (.ok (some info'), fs') →
      PathExists fs' (globalDir database.Dir) = true) ∧
    (PathExists fs (globalDir database.Dir) = false →
      ∀ fs', Mkdir fs (globalDir database.Dir) 0o750 = .ok fs' →
        (loadInfo database fs).2 = fs' ∧
        fs'.entry (globalDir database.Dir) = some (.directory 0o750)) ∧
    (PathExists fs (globalDir database.Dir) = false →
      ∀ err, Mkdir fs (globalDir database.Dir) 0o750 = .error err →
        (loadInfo database fs).1 = .error err ∧ (loadInfo database fs).2 = fs) := by
  refine ⟨?_, ?_, ?_⟩
  · intro info' fs' hres
    unfold loadInfo at hres
    simp only [h] at hres
    cases hp : PathExists fs (globalDir database.Dir) with
    | true =>
      simp only [hp, Bool.not_true, Bool.false_eq_true, if_false, Prod.mk.injEq] at hres
      rw [← hres.2]
      exact hp
    | false =>
      simp only [hp, Bool.not_false, if_true] at hres
      cases hm : Mkdir fs (globalDir database.Dir) 0o750 with
      | error err => simp [hm] at hres
      | ok fs'' =>
        simp only [hm, Prod.mk.injEq] at hres
        rw [← hres.2]
        exact (pathExists_after_mkdir hp hm).2
  · intro hp fs' hm
    refine ⟨?_, (pathExists_after_mkdir hp hm).1⟩
    simp only [loadInfo, h, hp, Bool.not_false, if_true, hm]
  · intro hp err hm
    simp only [loadInfo, h, hp, Bool.not_false, if_true, hm, and_self]

/-- C16 (amended), at a standalone member on an empty file system: the directory is made
with mode 0750. -/
theorem loadInfo_data_directory_witness :
    (loadInfo standaloneDB emptyFileSystem).2.entry "/var/lib/incus/database/global" =
      some (.directory 0o750) := by
  have h := (loadInfo_data_directory standaloneDB emptyFileSystem
    { ID := 1, Address := "", Role := .voter } rfl).2.1 rfl _ rfl
  rw [h.1]
  exact h.2

/-- C16 (as stated, refuted): with a regular file at `<database dir>/global`, `loadInfo`
returns the node record and no directory exists at the path when it returns. -/
theorem loadInfo_returns_without_directory :
    ∃ info' fs', loadInfo standaloneDB fileAtGlobalDir = (.ok (some info'), fs') ∧
      fs'.entry (globalDir standaloneDB.Dir) = some .other ∧
      ∀ perm, fs'.entry (globalDir standaloneDB.Dir) ≠ some (.directory perm) :=
  ⟨_, _, rfl, rfl, fun _ h => by cases h⟩

theorem findNode_some {rows : List NodeRow} {name : String} {row : NodeRow}
    (h : findNode rows name = some row) : row ∈ rows ∧ row.name = name := by
  induction rows with
  | nil => cases h
  | cons r rest ih =>
    unfold findNode at h
    by_cases hr : r.name = name
    · rw [if_pos hr] at h
      cases h
      exact ⟨List.mem_cons_self _ _, hr⟩
    · rw [if_neg hr] at h
      exact ⟨List.mem_cons_of_mem _ (ih h).1, (ih h).2⟩

theorem findNode_none {rows : List NodeRow} {name : String}
    (h : findNode rows name = none) : ∀ row ∈ rows, row.name ≠ name := by
  induction rows with
  | nil => intro row hrow; cases hrow
  | cons r rest ih =>
    unfold findNode at h
    by_cases hr : r.name = name
    · rw [if_pos hr] at h
      cases h
    · rw [if_neg hr] at h
      intro row hrow
      rcases List.mem_cons.mp hrow with rfl | hrow
      · exact hr
      · exact ih h row hrow

/-- C17: when the statement is found and the query does not fail, `GetNodeID` returns the
id of a row with the given name and no error if there is such a row, and -1 with the
status error 404 `Node not found` if there is none; a failure of the statement lookup,
and a failure of the query or scan that is not `sql.ErrNoRows`, is returned as -1 with an
error made by `fmt.Errorf`, which is a NotFound status error only if the failure itself
is one. -/
theorem getNodeID_outcomes (tx : Tx) (name : String) :
    (tx.Stmt = none → tx.failure = none → (∃ row ∈ tx.nodes, row.name = name) →
      ∃ row ∈ tx.nodes, row.name = name ∧ GetNodeID tx name = (row.id, none)) ∧
    (tx.Stmt = none → tx.failure = none → (∀ row ∈ tx.nodes, row.name ≠ name) →
      GetNodeID tx name = (-1, some (GoError.status StatusNotFound "Node not found")) ∧
      StatusErrorCheck (GoError.status StatusNotFound "Node not found") StatusNotFound = true) ∧
    (∀ err, tx.Stmt = some err →
      GetNodeID tx name =
        (-1, some (GoError.wrap "Failed to get \"nodeID\" prepared statement" err)) ∧
      StatusErrorCheck (GoError.wrap "Failed to get \"nodeID\" prepared statement" err)
        StatusNotFound = StatusErrorCheck err StatusNotFound) ∧
    (∀ err, tx.Stmt = none → tx.failure = some err → errorsIs err ErrNoRows = false →
      GetNodeID tx name = (-1, some (GoError.wrap "Failed to get \"nodes\" ID" err)) ∧
      StatusErrorCheck (GoError.wrap "Failed to get \"nodes\" ID" err) StatusNotFound =
        StatusErrorCheck err StatusNotFound) := by
  refine ⟨?_, ?_, ?_, ?_⟩
  · intro hs hf hex
    cases hfind : findNode tx.nodes name with
    | none =>
      obtain ⟨row, hmem, hname⟩ := hex
      exact absurd hname (findNode_none hfind row hmem)
    | some row =>
      refine ⟨row, (findNode_some hfind).1, (findNode_some hfind).2, ?_⟩
      simp only [GetNodeID, hs, scanNodeID, hf, hfind]
  · intro hs hf hnone
    have hfind : findNode tx.nodes name = none := by
      generalize tx.nodes = rows at hnone
      induction rows with
      | nil => rfl
      | cons row rest ih =>
        unfold findNode
        rw [if_neg (hnone row (List.mem_cons_self _ _))]
        exact ih (fun r hr => hnone r (List.mem_cons_of_mem _ hr))
    refine ⟨?_, by simp [StatusErrorCheck]⟩
    simp only [GetNodeID, hs, scanNodeID, hf, hfind, errorsIs_self, if_true]
  · intro err hs
    exact ⟨by simp only [GetNodeID, hs], rfl⟩
  · intro err hs hf hno
    refine ⟨?_, rfl⟩
    simp only [GetNodeID, hs, scanNodeID, hf, hno, Bool.false_eq_true, if_false]

theorem determineRole_in_band (band : VoterBand) (others : List Member) (candidate : Member)
    (inGroup : Bool) (role : Role)
    (hmin : band.min ≤ votersWith others candidate.Role)
    (hmax : votersWith others candidate.Role ≤ band.max)
    (hleader : candidate.Leader = true → candidate.Role = .voter)
    (h : DetermineRole band others candidate inGroup = some role) :
    band.min ≤ votersWith others role ∧ votersWith others role ≤ band.max := by
  unfold DetermineRole at h
  cases inGroup with
  | false => simp at h
  | true =>
    rw [if_neg (by simp)] at h
    by_cases hl : candidate.Leader = true
    · rw [if_pos hl] at h
      cases h
      rw [← hleader hl]
      exact ⟨hmin, hmax⟩
    · rw [if_neg hl] at h
      by_cases hv : candidate.Role = .voter
      · rw [hv] at hmin hmax
        rw [if_pos hv, if_pos hmax] at h
        cases h
        exact ⟨hmin, hmax⟩
      · have hcount : votersWith others candidate.Role = voterCount others := by
          simp [votersWith, hv]
        rw [hcount] at hmin hmax
        rw [if_neg hv] at h
        by_cases hslot : voterCount others < band.max ∧ preferredForSlot others candidate = true
        · rw [if_pos hslot] at h
          cases h
          have : votersWith others .voter = voterCount others + 1 := by simp [votersWith]
          rw [this]
          omega
        · rw [if_neg hslot] at h
          by_cases hs : candidate.Role = .standBy
          · rw [if_pos hs] at h
            cases h
            have : votersWith others .standBy = voterCount others := by simp [votersWith]
            rw [this]
            exact ⟨hmin, hmax⟩
          · rw [if_neg hs] at h
            cases h
            have : votersWith others .spare = voterCount others := by simp [votersWith]
            rw [this]
            exact ⟨hmin, hmax⟩

/-- C18: when the number of voters lies in the band and the leader is a voter, the role
that `DetermineRole` assigns to the candidate, which is the role of the record that
`loadInfo` returns, leaves the number of voters in the band: not below the minimum and
not above the maximum. -/
theorem role_keeps_voters_in_band (dir : String) (band : VoterBand) (others : List Member)
    (candidate : Member) (inGroup : Bool) (fs fs' : FileSystem) (info : RaftNode)
    (hmin : band.min ≤ votersWith others candidate.Role)
    (hmax : votersWith others candidate.Role ≤ band.max)
    (hleader : candidate.Leader = true → candidate.Role = .voter)
    (h : loadInfo (registryDB dir band others candidate inGroup) fs = (.ok (some info), fs')) :
    DetermineRole band others candidate inGroup = some info.Role ∧
    band.min ≤ votersWith others info.Role ∧ votersWith others info.Role ≤ band.max := by
  cases hrole : DetermineRole band others candidate inGroup with
  | none =>
    simp [loadInfo, registryDB, hrole] at h
  | some role =>
    have hinfo : info.Role = role := by
      unfold loadInfo at h
      simp only [registryDB, hrole, Option.map_some'] at h
      have hr : ∀ i : RaftNode, (standaloneAddress i).Role = i.Role := by
        intro i
        unfold standaloneAddress
        split <;> rfl
      split at h
      · split at h
        · simp at h
        · simp only [Prod.mk.injEq, Except.ok.injEq, Option.some.injEq] at h
          rw [← h.1, hr]
      · simp only [Prod.mk.injEq, Except.ok.injEq, Option.some.injEq] at h
        rw [← h.1, hr]
    rw [hinfo]
    exact ⟨rfl, determineRole_in_band band others candidate inGroup role hmin hmax hleader hrole⟩

/-- C18, at three voters and a band of 3 to 5: the longest-tenured stand-by becomes the
fourth voter. -/
theorem role_keeps_voters_in_band_witness :
    DetermineRole { min := 3, max := 5 } exampleMembers exampleCandidate true = some .voter ∧
    3 ≤ votersWith exampleMembers .voter ∧ votersWith exampleMembers .voter ≤ 5 :=
  role_keeps_voters_in_band "/var/lib/incus/database" { min := 3, max := 5 } exampleMembers
    exampleCandidate true emptyFileSystem
    (loadInfo (registryDB "/var/lib/incus/database" { min := 3, max := 5 } exampleMembers
      exampleCandidate true) emptyFileSystem).2
    { ID := 5, Address := "10.0.0.5:8443", Role := .voter }
    (by decide) (by decide) (by decide) rfl

theorem filterLoop_ok {Instance ClauseSet : Type}
    (Match : Instance → ClauseSet → Except GoError Bool) (clauses : ClauseSet) :
    ∀ (instances filtered : List Instance),
      (∀ inst ∈ instances, ∃ isMatch, Match inst clauses = .ok isMatch) →
      filterLoop Match clauses instances filtered =
        .ok (filtered ++ instances.filter (matchesClauses Match clauses))
  | [], filtered, _ => by simp [filterLoop]
  | inst :: rest, filtered, h => by
    obtain ⟨isMatch, hm⟩ := h inst (List.mem_cons_self _ _)
    have ih := fun f => filterLoop_ok Match clauses rest f
      (fun i hi => h i (List.mem_cons_of_mem _ hi))
    unfold filterLoop
    cases isMatch with
    | false =>
      simp only [hm, Bool.not_false, if_true, ih]
      simp [List.filter_cons, matchesClauses, hm]
    | true =>
      simp only [hm, Bool.not_true, Bool.false_eq_true, if_false, ih]
      simp [List.filter_cons, matchesClauses, hm]

theorem filterLoop_error {Instance ClauseSet : Type}
    (Match : Instance → ClauseSet → Except GoError Bool) (clauses : ClauseSet)
    (x : Instance) (post : List Instance) (err : GoError)
    (hx : Match x clauses = .error err) :
    ∀ (pre filtered : List Instance),
      (∀ inst ∈ pre, ∃ isMatch, Match inst clauses = .ok isMatch) →
      filterLoop Match clauses (pre ++ x :: post) filtered = .error err
  | [], filtered, _ => by simp [filterLoop, hx]
  | inst :: rest, filtered, h => by
    obtain ⟨isMatch, hm⟩ := h inst (List.mem_cons_self _ _)
    have ih := fun f => filterLoop_error Match clauses x post err hx rest f
      (fun i hi => h i (List.mem_cons_of_mem _ hi))
    rw [List.cons_append]
    unfold filterLoop
    cases isMatch <;> simp [hm, ih]

/-- C19: `FilterFull` returns exactly the instances for which `filter.Match` is true, in
their original order, when `Match` fails for none of them; when `Match` fails for an
instance and for none before it, `FilterFull` returns that error and no list. -/
theorem filterFull_spec {Instance ClauseSet : Type}
    (Match : Instance → ClauseSet → Except GoError Bool) (instances : List Instance)
    (clauses : ClauseSet) :
    (∀ inst, matchesClauses Match clauses inst = true ↔ Match inst clauses = .ok true) ∧
    ((∀ inst ∈ instances, ∃ isMatch, Match inst clauses = .ok isMatch) →
      FilterFull Match instances clauses =
        .ok (instances.filter (matchesClauses Match clauses))) ∧
    (∀ pre x post err, instances = pre ++ x :: post →
      (∀ inst ∈ pre, ∃ isMatch, Match inst clauses = .ok isMatch) →
      Match x clauses = .error err → FilterFull Match instances clauses = .error err) := by
  refine ⟨?_, ?_, ?_⟩
  · intro inst
    unfold matchesClauses
    cases Match inst clauses with
    | error err => simp
    | ok isMatch => simp
  · intro h
    have := filterLoop_ok Match clauses instances [] h
    simpa [FilterFull] using this
  · intro pre x post err hi hpre hx
    rw [hi]
    exact filterLoop_error Match clauses x post err hx pre [] hpre

theorem charsLT_iff : ∀ (as bs : List Char), charsLT as bs = true ↔ as < bs
  | _, [] => by
    simp [charsLT]
  | [], b :: bs => by
    simp only [charsLT, true_iff]
    exact List.Lex.nil
  | a :: as, b :: bs => by
    have ih := charsLT_iff as bs
    have hab : a < b ↔ a.toNat < b.toNat := Iff.rfl
    have hba : b < a ↔ b.toNat < a.toNat := Iff.rfl
    unfold charsLT
    by_cases h1 : a.toNat < b.toNat
    · simp only [h1, if_true, true_iff]
      exact List.Lex.rel (hab.mpr h1)
    · by_cases h2 : b.toNat < a.toNat
      · simp only [h1, h2, if_true, if_false, Bool.false_eq_true, false_iff]
        intro hlt
        cases hlt with
        | cons h => exact absurd h2 (lt_irrefl _)
        | rel h => exact h1 (hab.mp h)
      · have heq : a = b :=
          le_antisymm (not_lt.mp fun h => h2 (hba.mp h)) (not_lt.mp fun h => h1 (hab.mp h))
        subst heq
        simp only [h1, if_false, ih]
        constructor
        · intro hlt
          exact List.Lex.cons hlt
        · intro hlt
          cases hlt with
          | cons h => exact h
          | rel h => exact absurd h (lt_irrefl _)

theorem stringLE_iff (a b : String) : stringLE a b = true ↔ a ≤ b := by
  rw [← not_lt, String.lt_iff_toList_lt]
  unfold stringLE
  rw [Bool.not_eq_true', ← Bool.not_eq_true, charsLT_iff]
  rfl

theorem sortStrings_eq (keys : List String) : sortStrings keys = keys.insertionSort (· ≤ ·) := by
  unfold sortStrings
  induction keys with
  | nil => rfl
  | cons k rest ih =>
    simp only [List.insertionSort]
    rw [ih]
    generalize List.insertionSort (· ≤ ·) rest = sorted
    induction sorted with
    | nil => rfl
    | cons x xs ihx =>
      simp only [List.orderedInsert]
      by_cases hle : k ≤ x
      · rw [if_pos hle, if_pos ((stringLE_iff k x).mpr hle)]
      · rw [if_neg hle, if_neg (fun h => hle ((stringLE_iff k x).mp h)), ihx]

/-- C20: `Schema.Keys` returns exactly the key names of the schema, each once, in
ascending lexicographic order; for the schema with the keys `foo` and `bar` it returns
`[bar, foo]`. -/
theorem schema_keys_sorted (schema : Schema) :
    (schema.Keys).Perm (schema.entries.map Prod.fst) ∧
    (schema.Keys).Sorted (· < ·) ∧
    (schema.Keys).Nodup ∧
    (∀ key, key ∈ schema.Keys ↔ ∃ k, (key, k) ∈ schema.entries) ∧
    testSchema.Keys = ["bar", "foo"] := by
  have heq : schema.Keys = (schema.entries.map Prod.fst).insertionSort (· ≤ ·) :=
    sortStrings_eq _
  have hperm : (schema.Keys).Perm (schema.entries.map Prod.fst) := by
    rw [heq]
    exact List.perm_insertionSort _ _
  have hnodup : (schema.Keys).Nodup := hperm.nodup_iff.mpr schema.nodup
  have hsorted : (schema.Keys).Sorted (· ≤ ·) := by
    rw [heq]
    exact List.sorted_insertionSort _ _
  refine ⟨hperm, hsorted.lt_of_le hnodup, hnodup, ?_, by decide⟩
  intro key
  rw [hperm.mem_iff]
  simp

theorem Config.get_of_mem : ∀ (c : Config) (key value : String),
    (c.map Prod.fst).Nodup → (key, value) ∈ c → c.get key = value
  | [], _, _, _, h => by cases h
  | (k, v) :: rest, key, value, hn, h => by
    unfold Config.get
    rw [List.map_cons, List.nodup_cons] at hn
    by_cases hk : k = key
    · rw [if_pos hk]
      rcases List.mem_cons.1 h with heq | hmem
      · cases heq
        rfl
      · exact absurd (List.mem_map_of_mem Prod.fst hmem) (by rw [← hk]; exact hn.1)
    · rw [if_neg hk]
      rcases List.mem_cons.1 h with heq | hmem
      · cases heq
        exact absurd rfl hk
      · exact Config.get_of_mem rest key value hn.2 hmem

/-- C21: `Schema.Defaults` returns a map with exactly the keys of the schema, each once,
that maps each key to the default the key declares and has no value for any other name;
for the schema `{foo: {}, bar: {Default: x}}` it is `{foo: "", bar: x}`. -/
theorem schema_defaults_spec (schema : Schema) :
    (schema.Defaults.map Prod.fst = schema.entries.map Prod.fst) ∧
    (schema.Defaults.map Prod.fst).Nodup ∧
    (∀ name key, (name, key) ∈ schema.entries →
      (name, key.Default) ∈ schema.Defaults ∧ schema.Defaults.get name = key.Default) ∧
    (∀ name value, (name, value) ∈ schema.Defaults →
      ∃ key, (name, key) ∈ schema.entries ∧ value = key.Default) ∧
    testSchema.Defaults = [("foo", ""), ("bar", "x")] := by
  have hkeys : schema.Defaults.map Prod.fst = schema.entries.map Prod.fst := by
    simp [Schema.Defaults, List.map_map, Function.comp_def]
  have hnodup : (schema.Defaults.map Prod.fst).Nodup := by
    rw [hkeys]
    exact schema.nodup
  refine ⟨hkeys, hnodup, ?_, ?_, rfl⟩
  · intro name key hmem
    have hin : (name, key.Default) ∈ schema.Defaults :=
      List.mem_map.2 ⟨(name, key), hmem, rfl⟩
    exact ⟨hin, Config.get_of_mem _ _ _ hnodup hin⟩
  · intro name value hmem
    obtain ⟨entry, hentry, heq⟩ := List.mem_map.1 hmem
    cases heq
    exact ⟨entry.2, hentry, rfl⟩

theorem stringIndex_last (cs : List Char) (c : Char) :
    stringIndex (cs ++ [c]) (((cs ++ [c]).length : Int) - 1) = .ok c := by
  have h1 : (((cs ++ [c]).length : Int) - 1) = (cs.length : Int) := by
    simp
  rw [h1]
  unfold stringIndex
  rw [if_neg (by omega)]
  simp

/-- C25: `AddSlash` panics on the empty path (the index `len(path)-1` is -1); on every
other path it returns a string that ends with a slash, the path itself when it ends with
a slash and the path with one slash appended otherwise, and applying it again changes
nothing. -/
theorem addSlash_empty_panics :
    AddSlash "" = .error { message := "runtime error: index out of range [-1]" } ∧
    (∀ path : String, path ≠ "" →
      ∃ result, AddSlash path = .ok result ∧ result.data.getLast? = some '/' ∧
        (path.data.getLast? = some '/' → result = path) ∧
        (path.data.getLast? ≠ some '/' → result = path ++ "/") ∧
        AddSlash result = .ok result) := by
  refine ⟨rfl, ?_⟩
  intro path hne
  have hdata : path.data ≠ [] := fun h => hne (String.ext h)
  obtain ⟨cs, c, hcs⟩ : ∃ cs c, path.data = cs ++ [c] :=
    ⟨path.data.dropLast, path.data.getLast hdata, (List.dropLast_append_getLast hdata).symm⟩
  have hlast : path.data.getLast? = some c := by rw [hcs]; simp
  have hrun : AddSlash path = if c ≠ '/' then .ok (path ++ "/") else .ok path := by
    unfold AddSlash
    rw [hcs, stringIndex_last]
  by_cases hc : c = '/'
  · subst hc
    refine ⟨path, ?_, hlast, fun _ => rfl, fun h => absurd hlast h, ?_⟩ <;>
      · rw [hrun]; simp
  · have hslash : AddSlash (path ++ "/") = .ok (path ++ "/") := by
      unfold AddSlash
      have : (path ++ "/").data = path.data ++ ['/'] := rfl
      rw [this, stringIndex_last]
      simp
    refine ⟨path ++ "/", ?_, ?_, ?_, fun _ => rfl, hslash⟩
    · rw [hrun]; simp [hc]
    · have : (path ++ "/").data = path.data ++ ['/'] := rfl
      rw [this]; simp
    · intro h
      rw [hlast] at h
      exact absurd (Option.some.inj h) hc

theorem eraseLast_append_self (element : String) (list : List String) :
    eraseLast element (list ++ [element]) = list := by
  simp [eraseLast]

theorem eraseLast_append_ne {element x : String} (list : List String) (h : element ≠ x) :
    eraseLast element (list ++ [x]) = eraseLast element list ++ [x] := by
  have hx : (x == element) = false := by simpa using fun h' => h h'.symm
  simp [eraseLast, List.erase_cons, hx]

theorem removeLoop_eq (element : String) (list : List String) :
    ∀ n, n ≤ list.length →
      (removeLoop element list n).2 = eraseLast element (list.take n) ++ list.drop n
  | 0, _ => by simp [removeLoop, eraseLast]
  | n + 1, h => by
    have hn : n < list.length := h
    have htake : list.take (n + 1) = list.take n ++ [list.getD n ""] := by
      rw [List.take_succ, List.getD_eq_getElem?_getD, List.getElem?_eq_getElem hn]
      rfl
    have hdrop : list.drop n = list.getD n "" :: list.drop (n + 1) := by
      rw [List.getD_eq_getElem?_getD, List.getElem?_eq_getElem hn]
      exact List.drop_eq_getElem_cons hn
    unfold removeLoop
    by_cases he : element = list.getD n ""
    · rw [if_pos he, htake, ← he, eraseLast_append_self]
    · rw [if_neg he, removeLoop_eq element list n (Nat.le_of_lt hn), htake,
        eraseLast_append_ne _ he, hdrop]
      simp

theorem removeLoop_length (element : String) (list : List String) :
    (removeLoop element list list.length).2 = eraseLast element list := by
  rw [removeLoop_eq element list list.length (Nat.le_refl _)]
  simp

theorem elementsLoop_eq : ∀ (i : Nat) (list elements : List String), i ≤ elements.length →
    elementsLoop i list elements = (elements.take i).foldr eraseLast list
  | 0, _, _, _ => by simp [elementsLoop]
  | i + 1, list, elements, h => by
    have hi : i < elements.length := h
    have htake : elements.take (i + 1) = elements.take i ++ [elements.getD i ""] := by
      rw [List.take_succ, List.getD_eq_getElem?_getD, List.getElem?_eq_getElem hi]
      rfl
    unfold elementsLoop
    rw [removeLoop_length, htake, List.foldr_append]
    simp only [List.foldr_cons, List.foldr_nil]
    split
    · rw [elementsLoop_eq i _ _ (by simp; omega)]
      congr 1
      rw [List.take_append_of_le_length (by simp; omega), List.take_take]
      simp
    · exact elementsLoop_eq i _ _ (Nat.le_of_lt hi)

theorem removeElements_eq_foldr (list elements : List String) :
    RemoveElementsFromStringSlice list elements = elements.foldr eraseLast list := by
  unfold RemoveElementsFromStringSlice
  rw [elementsLoop_eq _ _ _ (Nat.le_refl _)]
  simp

theorem eraseLast_sublist (element : String) (list : List String) :
    (eraseLast element list).Sublist list := by
  have h := (List.erase_sublist element list.reverse).reverse
  simpa [eraseLast] using h

theorem eraseLast_count (element x : String) (list : List String) :
    (eraseLast element list).count x = list.count x - if x = element then 1 else 0 := by
  unfold eraseLast
  rw [List.count_reverse, List.count_erase, List.count_reverse]
  by_cases h : x = element
  · subst h; simp
  · have : (element == x) = false := by simpa using fun h' => h h'.symm
    simp [h, this]

theorem foldr_eraseLast_sublist (list : List String) :
    ∀ elements : List String, (elements.foldr eraseLast list).Sublist list
  | [] => List.Sublist.refl _
  | e :: es => (eraseLast_sublist e _).trans (foldr_eraseLast_sublist list es)

theorem foldr_eraseLast_count (list : List String) (x : String) :
    ∀ elements : List String,
      (elements.foldr eraseLast list).count x = list.count x - elements.count x
  | [] => by simp
  | e :: es => by
    rw [List.foldr_cons, eraseLast_count, foldr_eraseLast_count list x es, List.count_cons]
    by_cases h : x = e
    · subst h; simp; omega
    · have : (e == x) = false := by simpa using fun h' => h h'.symm
      simp [h, this]

theorem eraseLast_of_not_mem {element : String} {list : List String} (h : element ∉ list) :
    eraseLast element list = list := by
  unfold eraseLast
  rw [List.erase_of_not_mem (by simpa using h), List.reverse_reverse]

theorem foldr_eraseLast_of_not_mem (list : List String) :
    ∀ elements : List String, (∀ e ∈ elements, e ∉ list) → elements.foldr eraseLast list = list
  | [], _ => rfl
  | e :: es, h => by
    rw [List.foldr_cons, foldr_eraseLast_of_not_mem list es
      (fun e' he' => h e' (List.mem_cons_of_mem _ he'))]
    exact eraseLast_of_not_mem (h e (List.mem_cons_self _ _))

/-- C22 (as stated, refuted): removing `a` from `[a, b, a]` cuts out one `a`, the last,
and the result `[a, b]` still contains the given element. -/
theorem one_occurrence_removed :
    RemoveElementsFromStringSlice ["a", "b", "a"] ["a"] = ["a", "b"] ∧
    "a" ∈ RemoveElementsFromStringSlice ["a", "b", "a"] ["a"] := by
  decide

/-- C22 (amended): `RemoveElementsFromStringSlice` cuts out of the list, for each given
element from the last to the first, the last entry equal to it, if there is one. So
the result keeps its entries in their original relative order; it holds each string as
often as the list does less the number of times the string is given; it contains none
of the given elements when the list holds no given element more often than it is given
(for instance, when the list has no entry twice); and given elements that do not occur
in the list change nothing. -/
theorem removeElements_spec (list elements : List String) :
    RemoveElementsFromStringSlice list elements = elements.foldr eraseLast list ∧
    (RemoveElementsFromStringSlice list elements).Sublist list ∧
    (∀ x, (RemoveElementsFromStringSlice list elements).count x =
      list.count x - elements.count x) ∧
    (∀ x, x ∉ elements → (RemoveElementsFromStringSlice list elements).count x =
      list.count x) ∧
    ((∀ e ∈ elements, list.count e ≤ elements.count e) →
      ∀ e ∈ elements, e ∉ RemoveElementsFromStringSlice list elements) ∧
    (list.Nodup → ∀ e ∈ elements, e ∉ RemoveElementsFromStringSlice list elements) ∧
    ((∀ e ∈ elements, e ∉ list) → RemoveElementsFromStringSlice list elements = list) := by
  have hcount : ∀ x, (RemoveElementsFromStringSlice list elements).count x =
      list.count x - elements.count x := fun x => by
    rw [removeElements_eq_foldr]
    exact foldr_eraseLast_count list x elements
  have hnone : (∀ e ∈ elements, list.count e ≤ elements.count e) →
      ∀ e ∈ elements, e ∉ RemoveElementsFromStringSlice list elements := by
    intro h e he
    rw [← List.count_eq_zero, hcount]
    exact Nat.sub_eq_zero_of_le (h e he)
  refine ⟨removeElements_eq_foldr list elements, ?_, hcount, ?_, hnone, ?_, ?_⟩
  · rw [removeElements_eq_foldr]
    exact foldr_eraseLast_sublist list elements
  · intro x hx
    rw [hcount, List.count_eq_zero.2 hx, Nat.sub_zero]
  · intro hnodup
    refine hnone (fun e he => ?_)
    exact (List.nodup_iff_count_le_one.1 hnodup e).trans
      (List.count_pos_iff.2 he)
  · intro h
    rw [removeElements_eq_foldr]
    exact foldr_eraseLast_of_not_mem list elements h

/-- C23: the expression `0d 1d` has the unit letter `d` in two fields and `GetExpiry`
returns a time for it, the reference date plus one day: a field set to 0 does not count
as set when the next field with the same letter is checked. An expression whose earlier
field is positive, such as `1d 0d` or `1d 1d`, is rejected. -/
theorem zero_field_set_twice {Time : Type} (clock : Clock Time) (refDate : Time) :
    GetExpiry clock refDate "0d 1d" = .ok (clock.Add (clock.AddDate refDate 0 0 1) 0) ∧
    GetExpiry clock refDate "1d 0d" = .error (GoError.new "Invalid expiry expression") ∧
    GetExpiry clock refDate "1d 1d" = .error (GoError.new "Invalid expiry expression") :=
  ⟨rfl, rfl, rfl⟩

theorem wrapInt64_of_range {x : Int} (h0 : -(2 ^ 63) ≤ x) (h1 : x < 2 ^ 63) :
    wrapInt64 x = x := by
  unfold wrapInt64
  rw [Int.emod_eq_of_lt (by omega) (by omega)]
  omega

theorem writeSequence_append (writer : List Nat → Int × Option GoError) :
    ∀ (ps qs : List (List Nat)) (w : QuotaWriter),
      writeSequence writer w (ps ++ qs) = writeSequence writer (writeSequence writer w ps) qs
  | [], _, _ => rfl
  | p :: ps, qs, w => by
    simp only [List.cons_append, writeSequence]
    exact writeSequence_append writer ps qs _

theorem totalBytes_append (ps qs : List (List Nat)) :
    totalBytes (ps ++ qs) = totalBytes ps + totalBytes qs := by
  simp [totalBytes]

/-- With a quota, as long as the requested bytes stay within `int64`, the counter is the
number of bytes requested and the bytes handed on stay within the quota. -/
theorem writeSequence_invariant (writer : List Nat → Int × Option GoError) (q : Int)
    (hq : 0 ≤ q) :
    ∀ (ps : List (List Nat)) (w : QuotaWriter), w.quota = q → 0 ≤ w.n →
      w.n + totalBytes ps < 2 ^ 63 → (totalBytes w.written : Int) ≤ min w.n q →
      (writeSequence writer w ps).quota = q ∧
      (writeSequence writer w ps).n = w.n + totalBytes ps ∧
      (totalBytes (writeSequence writer w ps).written : Int) ≤
        min (w.n + totalBytes ps) q
  | [], w, hw, _, _, hinv => by
    have h0 : ((totalBytes ([] : List (List Nat)) : Nat) : Int) = 0 := by simp [totalBytes]
    rw [h0, add_zero]
    exact ⟨hw, rfl, hinv⟩
  | p :: ps, w, hw, hn, hsum, hinv => by
    have htot : totalBytes (p :: ps) = p.length + totalBytes ps := by
      simp [totalBytes]
    rw [htot] at hsum ⊢
    push_cast at hsum ⊢
    have hwrap : wrapInt64 (w.n + p.length) = w.n + p.length :=
      wrapInt64_of_range (by omega) (by omega)
    have hstep : (QuotaWriter.Write writer w p).2.quota = q ∧
        (QuotaWriter.Write writer w p).2.n = w.n + p.length ∧
        (totalBytes (QuotaWriter.Write writer w p).2.written : Int) ≤
          min (w.n + p.length) q := by
      unfold QuotaWriter.Write
      rw [if_pos (by rw [hw]; exact hq), hwrap, hw]
      by_cases hover : w.n + (p.length : Int) > q
      · rw [if_pos hover]
        refine ⟨rfl, rfl, ?_⟩
        simp only
        omega
      · rw [if_neg hover]
        refine ⟨rfl, rfl, ?_⟩
        simp only [totalBytes_append]
        have : totalBytes [p] = p.length := by simp [totalBytes]
        rw [this]
        push_cast
        omega
    obtain ⟨h1, h2, h3⟩ := hstep
    have ih := writeSequence_invariant writer q hq ps (QuotaWriter.Write writer w p).2 h1
      (by rw [h2]; omega) (by rw [h2]; omega) (by rw [h2]; exact h3)
    rw [h2] at ih
    simp only [writeSequence]
    refine ⟨ih.1, by rw [ih.2.1]; ring, ?_⟩
    have := ih.2.2
    rw [show w.n + (p.length : Int) + (totalBytes ps : Int) =
      w.n + ((p.length : Int) + (totalBytes ps : Int)) by ring] at this
    exact this

/-- Writes that are rejected one after the other only advance the counter. -/
theorem rejected_writes (writer : List Nat → Int × Option GoError) (p : List Nat) :
    ∀ (k : Nat) (w : QuotaWriter), 0 ≤ w.quota → 0 ≤ w.n → w.quota < w.n + p.length →
      w.n + k * p.length < 2 ^ 63 →
      writeSequence writer w (List.replicate k p) = { w with n := w.n + k * p.length }
  | 0, w, _, _, _, _ => by simp [writeSequence]
  | k + 1, w, hq, hn, hover, hsum => by
    push_cast at hsum
    have hwrap : wrapInt64 (w.n + p.length) = w.n + p.length :=
      wrapInt64_of_range (by omega) (by nlinarith)
    have hstep : (QuotaWriter.Write writer w p).2 = { w with n := w.n + p.length } := by
      unfold QuotaWriter.Write
      rw [if_pos hq, hwrap, if_pos hover]
    rw [List.replicate_succ, writeSequence, hstep,
      rejected_writes writer p k { w with n := w.n + p.length } hq (by simp only; omega)
        (by simp only; omega) (by simp only; nlinarith)]
    simp only [QuotaWriter.mk.injEq, and_true, true_and]
    push_cast
    ring

theorem replicate_pred_append {α : Type} (a : α) :
    ∀ n : Nat, 0 < n → List.replicate n a = List.replicate (n - 1) a ++ [a]
  | n + 1, _ => by
    rw [Nat.add_sub_cancel, List.replicate_succ']

theorem gibibyte_length : gibibyte.length = 2 ^ 30 := List.length_replicate _ _

theorem write_accepted (writer : List Nat → Int × Option GoError) (w : QuotaWriter)
    (p : List Nat) (hq : 0 ≤ w.quota) (h : ¬ wrapInt64 (w.n + p.length) > w.quota) :
    QuotaWriter.Write writer w p =
      (writer p, { w with n := wrapInt64 (w.n + p.length), written := w.written ++ [p] }) := by
  unfold QuotaWriter.Write
  rw [if_pos hq, if_neg h]

theorem writeSequence_single (writer : List Nat → Int × Option GoError) (w : QuotaWriter)
    (p : List Nat) : writeSequence writer w [p] = (QuotaWriter.Write writer w p).2 := rfl

/-- On a writer with quota 0, 2^33 writes of 2^30 bytes leave the counter at -2^63 and
the last buffer with the underlying writer. -/
theorem writes_up_to_wrap :
    writeSequence acceptAll (NewQuotaWriter 0) (List.replicate (2 ^ 33) gibibyte) =
      { quota := 0, n := -(2 ^ 63), written := [gibibyte] } := by
  have hsplit : List.replicate (2 ^ 33) gibibyte =
      List.replicate (2 ^ 33 - 1) gibibyte ++ [gibibyte] :=
    replicate_pred_append gibibyte (2 ^ 33) (by norm_num)
  have hrej := rejected_writes acceptAll gibibyte (2 ^ 33 - 1) (NewQuotaWriter 0)
    (by simp [NewQuotaWriter]) (by simp [NewQuotaWriter])
    (by simp [NewQuotaWriter, gibibyte_length])
    (by simp [NewQuotaWriter, gibibyte_length])
  have hlast : wrapInt64 ((0 : Int) + ((2 ^ 33 - 1 : Nat) : Int) * ((2 ^ 30 : Nat) : Int) +
      ((2 ^ 30 : Nat) : Int)) = -(2 ^ 63) := by
    unfold wrapInt64
    norm_num
  rw [hsplit, writeSequence_append, hrej, writeSequence_single]
  have hn : wrapInt64 (({ NewQuotaWriter 0 with
      n := (NewQuotaWriter 0).n + ((2 ^ 33 - 1 : Nat) : Int) * (gibibyte.length : Int) } :
        QuotaWriter).n + (gibibyte.length : Int)) = -(2 ^ 63) := by
    rw [gibibyte_length]
    exact hlast
  rw [write_accepted _ _ _ (le_refl _) (by rw [hn]; norm_num [NewQuotaWriter]), hn]
  rfl

/-- C26 (as stated, refuted): on a writer with quota 0, 2^33 writes of a buffer of 2^30
bytes request 2^63 bytes in all; the first 2^33 - 1 are rejected, the last one makes
the `int64` counter wrap to -2^63, which is not above the quota, and its 2^30 bytes are
handed to the underlying writer: more than the quota. -/
theorem counter_wraps_past_quota :
    writeSequence acceptAll (NewQuotaWriter 0) (List.replicate (2 ^ 33) gibibyte) =
      { quota := 0, n := -(2 ^ 63), written := [gibibyte] } ∧
    (NewQuotaWriter 0).quota <
      (totalBytes (writeSequence acceptAll (NewQuotaWriter 0)
        (List.replicate (2 ^ 33) gibibyte)).written : Int) := by
  refine ⟨writes_up_to_wrap, ?_⟩
  rw [writes_up_to_wrap]
  simp [totalBytes, gibibyte_length, NewQuotaWriter]

/-- C26 (amended): for a writer created with a quota `q >= 0` and every sequence of
`Write` calls that requests fewer than 2^63 bytes in all, the bytes handed to the
underlying writer never exceed `q`, and a `Write` is rejected with the quota error,
handing nothing on, exactly when the running total of requested bytes, this call
included, exceeds `q`; otherwise the bytes are handed on unchanged. For a writer with a
negative quota every `Write` is handed on unchanged. -/
theorem quota_holds_within_int64 (writer : List Nat → Int × Option GoError) (q : Int)
    (ps : List (List Nat)) (hq : 0 ≤ q) (hsum : (totalBytes ps : Int) < 2 ^ 63) :
    (totalBytes (writeSequence writer (NewQuotaWriter q) ps).written : Int) ≤ q ∧
    (∀ pre p post, ps = pre ++ p :: post →
      (q < totalBytes (pre ++ [p]) →
        QuotaWriter.Write writer (writeSequence writer (NewQuotaWriter q) pre) p =
          ((0, some (quotaError (totalBytes (pre ++ [p])) q)),
            { quota := q
              n := totalBytes (pre ++ [p])
              written := (writeSequence writer (NewQuotaWriter q) pre).written })) ∧
      (¬ q < totalBytes (pre ++ [p]) →
        QuotaWriter.Write writer (writeSequence writer (NewQuotaWriter q) pre) p =
          (writer p,
            { quota := q
              n := totalBytes (pre ++ [p])
              written := (writeSequence writer (NewQuotaWriter q) pre).written ++ [p] }))) ∧
    (∀ (w : QuotaWriter) (p : List Nat), w.quota < 0 →
      QuotaWriter.Write writer w p = (writer p, { w with written := w.written ++ [p] })) := by
  have hstart : (totalBytes (NewQuotaWriter q).written : Int) ≤ min (NewQuotaWriter q).n q := by
    simp [NewQuotaWriter, totalBytes, hq]
  refine ⟨?_, ?_, ?_⟩
  · have h := (writeSequence_invariant writer q hq ps (NewQuotaWriter q) rfl (le_refl _)
      (by simpa [NewQuotaWriter] using hsum) hstart).2.2
    exact h.trans (min_le_right _ _)
  · intro pre p post hps
    have hpre : (totalBytes pre : Int) + p.length < 2 ^ 63 := by
      have : totalBytes ps = totalBytes pre + (p.length + totalBytes post) := by
        rw [hps, totalBytes_append]
        simp [totalBytes]
      rw [this] at hsum
      push_cast at hsum
      omega
    have hinv := writeSequence_invariant writer q hq pre (NewQuotaWriter q) rfl (le_refl _)
      (by simp only [NewQuotaWriter]; omega) hstart
    have hn : (writeSequence writer (NewQuotaWriter q) pre).n = totalBytes pre := by
      rw [hinv.2.1]
      simp [NewQuotaWriter]
    have htot : ((totalBytes (pre ++ [p]) : Nat) : Int) = (totalBytes pre : Int) + p.length := by
      rw [totalBytes_append]
      simp [totalBytes]
    have hwrap : wrapInt64 ((totalBytes pre : Int) + p.length) =
        (totalBytes pre : Int) + p.length :=
      wrapInt64_of_range (by omega) hpre
    constructor
    · intro hover
      unfold QuotaWriter.Write
      rw [if_pos (by rw [hinv.1]; exact hq), hn, hwrap, hinv.1, htot,
        if_pos (by rw [htot] at hover; exact hover)]
    · intro hunder
      unfold QuotaWriter.Write
      rw [if_pos (by rw [hinv.1]; exact hq), hn, hwrap, hinv.1, htot,
        if_neg (by rw [htot] at hunder; exact hunder)]
  · intro w p hneg
    unfold QuotaWriter.Write
    rw [if_neg (by omega)]

/-- C26 (amended), at a quota of 5 bytes and writes of 3, 3 and 1 bytes: the first is
handed on, the other two are rejected. -/
theorem quota_holds_within_int64_witness :
    (totalBytes (writeSequence acceptAll (NewQuotaWriter 5)
      [[1, 2, 3], [4, 5, 6], [7]]).written : Int) ≤ 5 :=
  (quota_holds_within_int64 acceptAll 5 [[1, 2, 3], [4, 5, 6], [7]] (by decide)
    (by decide)).1

theorem permissionBits_range (rawMode : Int) :
    0 ≤ permissionBits rawMode ∧ permissionBits rawMode ≤ 0o777 := by
  unfold permissionBits ModePerm
  refine ⟨Int.natCast_nonneg _, ?_⟩
  have h : (rawMode % 2 ^ 32).toNat &&& 0o777 ≤ 0o777 := Nat.and_le_right
  exact_mod_cast h

/-- C29: for the header value `0999` the mode that `ParseFileHeaders` returns is 999,
which is neither -1 nor within the permission bits (at most 0777 = 511): `Atoi` reads the
value as decimal, `ParseInt` with base 0 rejects it as octal, and the decimal value is
kept without the mask. The same holds for `08`, kept as 8. Values that `ParseInt` with
base 0 accepts are masked (`0755` gives 493, `1000` gives 488, `-1` gives 511), values
that `Atoi` rejects give -1, and for every header the mode is -1, or within the
permission bits, or the decimal value of a header that base 0 rejects. -/
theorem decimal_mode_kept_unmasked :
    (ParseFileHeaders (modeHeader "0999")).mode = 999 ∧ (0o777 : Int) < 999 ∧
    (ParseFileHeaders (modeHeader "08")).mode = 8 ∧
    (ParseFileHeaders (modeHeader "0755")).mode = 493 ∧
    (ParseFileHeaders (modeHeader "1000")).mode = 488 ∧
    (ParseFileHeaders (modeHeader "-1")).mode = 511 ∧
    (ParseFileHeaders (modeHeader "")).mode = -1 ∧
    (ParseFileHeaders (modeHeader "0x1ff")).mode = -1 ∧
    (∀ headers : String → String,
      (ParseFileHeaders headers).mode = -1 ∨
      (0 ≤ (ParseFileHeaders headers).mode ∧ (ParseFileHeaders headers).mode ≤ 0o777) ∨
      (∃ err, ParseInt (headers "X-Incus-mode").data true = .error err ∧
        Atoi (headers "X-Incus-mode") = .ok (ParseFileHeaders headers).mode)) := by
  refine ⟨by decide, by decide, by decide, by decide, by decide, by decide, by decide,
    by decide, ?_⟩
  intro headers
  show parseMode (headers "X-Incus-mode") = -1 ∨ _ ∨ _
  show parseMode (headers "X-Incus-mode") = -1 ∨
    (0 ≤ parseMode (headers "X-Incus-mode") ∧ parseMode (headers "X-Incus-mode") ≤ 0o777) ∨
    (∃ err, ParseInt (headers "X-Incus-mode").data true = .error err ∧
      Atoi (headers "X-Incus-mode") = .ok (parseMode (headers "X-Incus-mode")))
  unfold parseMode
  cases hA : Atoi (headers "X-Incus-mode") with
  | error err => exact Or.inl rfl
  | ok mode =>
    cases hP : ParseInt (headers "X-Incus-mode").data true with
    | ok rawMode => exact Or.inr (Or.inl (permissionBits_range rawMode))
    | error err => exact Or.inr (Or.inr ⟨err, rfl, rfl⟩)

theorem lastMatch_none {EqualFold : String → String → Bool} {tag : String} :
    ∀ {obj : Struct}, lastMatch EqualFold tag obj = none ↔
      ∀ f ∈ obj, hasTag EqualFold tag f = false
  | [] => by simp [lastMatch]
  | field :: fields => by
    unfold lastMatch
    cases h : lastMatch EqualFold tag fields with
    | some found =>
      have hne : ¬ ∀ f ∈ fields, hasTag EqualFold tag f = false := fun hall =>
        by rw [lastMatch_none.2 hall] at h; cases h
      simp only [false_iff, reduceCtorEq]
      exact fun hall => hne (fun f hf => hall f (List.mem_cons_of_mem _ hf))
    | none =>
      have hall := lastMatch_none.1 h
      cases ht : hasTag EqualFold tag field with
      | true =>
        simp only [if_true, false_iff, reduceCtorEq]
        intro hall'
        have := hall' field (List.mem_cons_self _ _)
        rw [ht] at this
        cases this
      | false =>
        simp only [Bool.false_eq_true, if_false, true_iff]
        intro f hf
        rcases List.mem_cons.1 hf with rfl | hf
        · exact ht
        · exact hall f hf

theorem lastMatch_some {EqualFold : String → String → Bool} {tag : String} :
    ∀ {obj : Struct} {f : StructField}, lastMatch EqualFold tag obj = some f →
      ∃ pre post, obj = pre ++ f :: post ∧ hasTag EqualFold tag f = true ∧
        ∀ g ∈ post, hasTag EqualFold tag g = false
  | [], _, h => by simp [lastMatch] at h
  | field :: fields, f, h => by
    unfold lastMatch at h
    cases hrest : lastMatch EqualFold tag fields with
    | some found =>
      rw [hrest] at h
      cases h
      obtain ⟨pre, post, hobj, htag, hpost⟩ := lastMatch_some hrest
      exact ⟨field :: pre, post, by rw [hobj]; rfl, htag, hpost⟩
    | none =>
      rw [hrest] at h
      by_cases ht : hasTag EqualFold tag field = true
      · simp only [ht, if_true, Option.some.injEq] at h
        subst h
        exact ⟨[], fields, rfl, ht, lastMatch_none.1 hrest⟩
      · simp [ht] at h

theorem getLoop_ok {EqualFold : String → String → Bool} {tag : String} :
    ∀ {obj : Struct} {res r : Option FieldValue}, getLoop EqualFold tag obj res = .ok r →
      r = (match lastMatch EqualFold tag obj with
        | some f => some f.Value
        | none => res) ∧
      ∀ f ∈ obj, hasTag EqualFold tag f = true → f.Exported = true
  | [], res, r, h => by
    simp only [getLoop, Except.ok.injEq] at h
    simp [lastMatch, h]
  | field :: fields, res, r, h => by
    unfold getLoop at h
    unfold lastMatch
    by_cases ht : hasTag EqualFold tag field = true
    · rw [if_pos ht] at h
      by_cases he : field.Exported = true
      · rw [if_pos he] at h
        obtain ⟨hr, hexp⟩ := getLoop_ok h
        refine ⟨?_, ?_⟩
        · rw [hr]
          cases lastMatch EqualFold tag fields with
          | some found => rfl
          | none => simp [ht]
        · intro f hf hft
          rcases List.mem_cons.1 hf with rfl | hf
          · exact he
          · exact hexp f hf hft
      · rw [if_neg he] at h
        cases h
    · rw [if_neg ht] at h
      obtain ⟨hr, hexp⟩ := getLoop_ok h
      refine ⟨?_, ?_⟩
      · rw [hr]
        cases lastMatch EqualFold tag fields with
        | some found => rfl
        | none => simp [ht]
      · intro f hf hft
        rcases List.mem_cons.1 hf with rfl | hf
        · exact absurd hft ht
        · exact hexp f hf hft

theorem getLoop_no_match {EqualFold : String → String → Bool} {tag : String} :
    ∀ {obj : Struct} (res : Option FieldValue), (∀ f ∈ obj, hasTag EqualFold tag f = false) →
      getLoop EqualFold tag obj res = .ok res
  | [], _, _ => rfl
  | field :: fields, res, h => by
    unfold getLoop
    rw [if_neg (by rw [h field (List.mem_cons_self _ _)]; decide)]
    exact getLoop_no_match res (fun f hf => h f (List.mem_cons_of_mem _ hf))

theorem fieldNameLoop_eq {EqualFold : String → String → Bool} {tag : String} :
    ∀ (obj : Struct) (fieldName : String),
      fieldNameLoop EqualFold tag obj fieldName =
        (match lastMatch EqualFold tag obj with
          | some f => f.Name
          | none => fieldName)
  | [], _ => rfl
  | field :: fields, fieldName => by
    unfold fieldNameLoop lastMatch
    by_cases ht : hasTag EqualFold tag field = true
    · rw [if_pos ht, fieldNameLoop_eq fields field.Name]
      cases lastMatch EqualFold tag fields with
      | some found => rfl
      | none => simp [ht]
    · rw [if_neg ht, fieldNameLoop_eq fields fieldName]
      cases lastMatch EqualFold tag fields with
      | some found => rfl
      | none => simp [ht]

theorem setByName_split (value : FieldValue) (f : StructField) (post : Struct) :
    ∀ (pre : Struct), (∀ g ∈ pre, g.Name ≠ f.Name) → f.Exported = true →
      setByName f.Name value (pre ++ f :: post) =
        if value.typeName = f.Value.typeName then
          .ok (pre ++ { f with Value := value } :: post)
        else
          .error { message := "reflect.Set: value of type " ++ value.typeName ++
            " is not assignable to type " ++ f.Value.typeName }
  | [], _, he => by
    simp only [List.nil_append, setByName, if_true, he]
  | g :: pre, hpre, he => by
    have ih := setByName_split value f post pre
      (fun g' hg' => hpre g' (List.mem_cons_of_mem _ hg')) he
    show setByName f.Name value (g :: (pre ++ f :: post)) = _
    rw [setByName, if_neg (hpre g (List.mem_cons_self _ _)), ih]
    by_cases ht : value.typeName = f.Value.typeName
    · rw [if_pos ht, if_pos ht]
      rfl
    · rw [if_neg ht, if_neg ht]

theorem unsetValue_cleared {v value : FieldValue} (h : unsetValue v = some value)
    (ht : value.typeName = v.typeName) : value = cleared v ∧ ∀ bits, v ≠ .float32 bits := by
  cases v <;> simp only [unsetValue, Option.some.injEq, reduceCtorEq] at h <;> subst h <;>
    first
    | exact ⟨rfl, fun _ hb => by cases hb⟩
    | simp [FieldValue.typeName] at ht

theorem unsetValue_none {v : FieldValue} (h : unsetValue v = none) :
    cleared v = v ∧ ∀ bits, v ≠ .float32 bits := by
  cases v <;> simp only [unsetValue, reduceCtorEq] at h
  exact ⟨rfl, fun _ hb => by cases hb⟩

/-- C27: on a struct with a list of profiles, unsetting `profiles` returns nil and leaves
the list `[default]` in the field, not the zero value of its type: the type switch has no
case for a slice. The same holds for an `int64` field, and for a `float32` field the call
panics in `reflect.Set`, since the switch hands on the `float64` constant `0.0`. -/
theorem unset_leaves_value :
    unsetFieldByJsonTag asciiEqualFold examplePut "profiles" = .ok (none, examplePut) ∧
    FieldValue.other "[]string" (some "[default]") ≠
      (FieldValue.other "[]string" (some "[default]")).zero ∧
    unsetFieldByJsonTag asciiEqualFold exampleQuota "size" = .ok (none, exampleQuota) ∧
    FieldValue.other "int64" (some "5") ≠ (FieldValue.other "int64" (some "5")).zero ∧
    unsetFieldByJsonTag asciiEqualFold exampleQuota "ratio" =
      .error { message :=
        "reflect.Set: value of type float64 is not assignable to type float32" } := by
  refine ⟨rfl, by decide, rfl, by decide, rfl⟩

/-- What `unsetFieldByJsonTag` does, case by case: it returns an error, and leaves the
struct as it is, exactly when no field has the tag (compared with `strings.EqualFold`,
the tag cut at a comma that is not its first character). When it returns nil on a struct
whose fields have distinct, non-empty names, the last field with the tag holds `cleared`
of its value afterwards and every other field is unchanged. -/
theorem unset_outcomes (EqualFold : String → String → Bool) (obj : Struct) (tag : String) :
    ((∀ f ∈ obj, hasTag EqualFold tag f = false) →
      unsetFieldByJsonTag EqualFold obj tag =
        .ok (some (GoError.new ("The property with tag " ++ quote tag ++ " does not exist")),
          obj)) ∧
    ((∃ f ∈ obj, hasTag EqualFold tag f = true) →
      ∀ err obj', unsetFieldByJsonTag EqualFold obj tag ≠ .ok (some err, obj')) ∧
    (∀ obj', unsetFieldByJsonTag EqualFold obj tag = .ok (none, obj') →
      (obj.map StructField.Name).Nodup → (∀ f ∈ obj, f.Name ≠ "") →
      ∃ pre f post, obj = pre ++ f :: post ∧ hasTag EqualFold tag f = true ∧
        (∀ g ∈ post, hasTag EqualFold tag g = false) ∧
        (∀ bits, f.Value ≠ .float32 bits) ∧
        obj' = pre ++ { f with Value := cleared f.Value } :: post) := by
  refine ⟨?_, ?_, ?_⟩
  · intro hnone
    unfold unsetFieldByJsonTag getFieldByJsonTag
    rw [getLoop_no_match none hnone]
  · rintro ⟨f, hf, hft⟩ err obj' hres
    unfold unsetFieldByJsonTag getFieldByJsonTag at hres
    cases hget : getLoop EqualFold tag obj none with
    | error p => rw [hget] at hres; cases hres
    | ok r =>
      rw [hget] at hres
      have hr := (getLoop_ok hget).1
      cases hlast : lastMatch EqualFold tag obj with
      | none =>
        have := lastMatch_none.1 hlast f hf
        rw [hft] at this
        cases this
      | some found =>
        rw [hlast] at hr
        subst hr
        simp only at hres
        cases hv : unsetValue found.Value with
        | none => rw [hv] at hres; cases hres
        | some value =>
          rw [hv] at hres
          simp only at hres
          cases hset : setFieldByJsonTag EqualFold obj tag value with
          | error p => rw [hset] at hres; cases hres
          | ok obj'' => rw [hset] at hres; cases hres
  · intro obj' hres hnodup hnames
    unfold unsetFieldByJsonTag getFieldByJsonTag at hres
    cases hget : getLoop EqualFold tag obj none with
    | error p => rw [hget] at hres; cases hres
    | ok r =>
      rw [hget] at hres
      obtain ⟨hr, hexp⟩ := getLoop_ok hget
      cases hlast : lastMatch EqualFold tag obj with
      | none =>
        rw [hlast] at hr
        subst hr
        cases hres
      | some f =>
        rw [hlast] at hr
        subst hr
        simp only at hres
        obtain ⟨pre, post, hobj, htag, hpost⟩ := lastMatch_some hlast
        have hfmem : f ∈ obj := by rw [hobj]; simp
        refine ⟨pre, f, post, hobj, htag, hpost, ?_⟩
        cases hv : unsetValue f.Value with
        | none =>
          rw [hv] at hres
          simp only [Except.ok.injEq, Prod.mk.injEq, true_and] at hres
          obtain ⟨hc, hfl⟩ := unsetValue_none hv
          refine ⟨hfl, ?_⟩
          rw [← hres, hc]
          exact hobj
        | some value =>
          rw [hv] at hres
          simp only at hres
          have hname : fieldNameLoop EqualFold tag obj "" = f.Name := by
            rw [fieldNameLoop_eq, hlast]
          have hpre : ∀ g ∈ pre, g.Name ≠ f.Name := by
            intro g hg heq
            rw [hobj, List.map_append, List.map_cons] at hnodup
            have hdis := (List.nodup_append.1 hnodup).2.2
            exact hdis (List.mem_map_of_mem _ hg) (by rw [heq]; exact List.mem_cons_self _ _)
          have hset : setFieldByJsonTag EqualFold obj tag value =
              if value.typeName = f.Value.typeName then
                .ok (pre ++ { f with Value := value } :: post)
              else
                .error { message := "reflect.Set: value of type " ++ value.typeName ++
                  " is not assignable to type " ++ f.Value.typeName } := by
            unfold setFieldByJsonTag
            rw [hname, if_pos (hnames f hfmem)]
            conv_lhs => rw [hobj]
            exact setByName_split value f post pre hpre (hexp f hfmem htag)
          rw [hset] at hres
          by_cases ht : value.typeName = f.Value.typeName
          · rw [if_pos ht] at hres
            simp only [Except.ok.injEq, Prod.mk.injEq, true_and] at hres
            obtain ⟨hc, hfl⟩ := unsetValue_cleared hv ht
            exact ⟨hfl, by rw [← hres, hc]⟩
          · rw [if_neg ht] at hres
            cases hres

/-- At the struct of the example, unsetting `Description` (in any case of the letters)
leaves the empty string there and the other fields as they were. -/
theorem unset_outcomes_witness :
    ∃ pre f post, examplePut = pre ++ f :: post ∧
      hasTag asciiEqualFold "Description" f = true ∧
      (∀ g ∈ post, hasTag asciiEqualFold "Description" g = false) ∧
      (∀ bits, f.Value ≠ .float32 bits) ∧
      [{ Name := "Description", Tag := "description", Exported := true,
         Value := .string "" },
       { Name := "Profiles", Tag := "profiles", Exported := true,
         Value := .other "[]string" (some "[default]") },
       { Name := "ExpiresAt", Tag := "expires_at,omitempty", Exported := true,
         Value := .timePtr (some 1700000000) }] =
        pre ++ { f with Value := cleared f.Value } :: post :=
  (unset_outcomes asciiEqualFold examplePut "Description").2.2 _ rfl (by decide) (by decide)

theorem contains_iff_substring :
    ∀ (s substr : List Char), Contains s substr = true ↔ substr <:+: s
  | [], substr => by
    rw [Contains, List.infix_nil, List.isEmpty_iff]
  | c :: cs, substr => by
    rw [Contains, Bool.or_eq_true, List.isPrefixOf_iff_prefix, contains_iff_substring cs substr,
      List.infix_cons_iff]

theorem replaceLoop_skip (old new : List Char) :
    ∀ (s : List Char) (skip : Nat),
      replaceLoop old new skip s = replaceLoop old new 0 (s.drop skip)
  | [], skip => by cases skip <;> simp [replaceLoop]
  | _ :: _, 0 => rfl
  | _ :: cs, skip + 1 => by
    rw [replaceLoop, List.drop_succ_cons]
    exact replaceLoop_skip old new cs skip

theorem replaceLoop_cons (old new : List Char) (hold : old ≠ []) (c : Char) (cs : List Char) :
    replaceLoop old new 0 (c :: cs) =
      if old <+: c :: cs then new ++ replaceLoop old new 0 ((c :: cs).drop old.length)
      else c :: replaceLoop old new 0 cs := by
  have hlen : old.length = (old.length - 1) + 1 := by
    have := List.length_pos.2 hold
    omega
  rw [replaceLoop]
  by_cases h : old <+: c :: cs
  · rw [if_pos (List.isPrefixOf_iff_prefix.2 h), if_pos h, replaceLoop_skip]
    conv_rhs => rw [hlen, List.drop_succ_cons]
  · rw [if_neg (fun h' => h (List.isPrefixOf_iff_prefix.1 h')), if_neg h]

theorem replaceLoop_unchanged (old new : List Char) (hold : old ≠ []) :
    ∀ s : List Char, ¬ old <:+: s → replaceLoop old new 0 s = s
  | [], _ => rfl
  | c :: cs, h => by
    rw [replaceLoop_cons old new hold, if_neg (fun hp => h hp.isInfix),
      replaceLoop_unchanged old new hold cs
        (fun hi => h (List.infix_cons_iff.2 (Or.inr hi)))]

/-- One run of `strings.Replace(s, sep+sep, sep, -1)` does not make the string longer, and
makes it shorter when it contains `sep+sep`. -/
theorem replaceLoop_length (sep : List Char) (hsep : sep ≠ []) :
    ∀ (m : Nat) (s : List Char), s.length ≤ m →
      (replaceLoop (sep ++ sep) sep 0 s).length ≤ s.length ∧
      (sep ++ sep <:+: s → (replaceLoop (sep ++ sep) sep 0 s).length < s.length)
  | _, [], _ => by
    refine ⟨Nat.le_refl _, fun h => ?_⟩
    have := List.infix_nil.1 h
    simp [hsep] at this
  | 0, _ :: _, h => by simp at h
  | m + 1, c :: cs, h => by
    have hold : sep ++ sep ≠ [] := by simp [hsep]
    have hn : 0 < sep.length := List.length_pos.2 hsep
    rw [replaceLoop_cons _ _ hold]
    by_cases hp : sep ++ sep <+: c :: cs
    · rw [if_pos hp]
      have hle := hp.length_le
      have hdup : (sep ++ sep).length = sep.length + sep.length := List.length_append _ _
      have hdl : ((c :: cs).drop (sep ++ sep).length).length =
          (c :: cs).length - (sep ++ sep).length := List.length_drop _ _
      have hdrop : ((c :: cs).drop (sep ++ sep).length).length ≤ m := by omega
      have ih := (replaceLoop_length sep hsep m _ hdrop).1
      have hlt : (sep ++ replaceLoop (sep ++ sep) sep 0
          ((c :: cs).drop (sep ++ sep).length)).length < (c :: cs).length := by
        rw [List.length_append]
        omega
      exact ⟨Nat.le_of_lt hlt, fun _ => hlt⟩
    · rw [if_neg hp]
      have hcs : cs.length ≤ m := by
        simp only [List.length_cons] at h
        omega
      obtain ⟨ih1, ih2⟩ := replaceLoop_length sep hsep m cs hcs
      refine ⟨by simp only [List.length_cons]; omega, fun hi => ?_⟩
      rcases List.infix_cons_iff.1 hi with hpre | hin
      · exact absurd hpre hp
      · have := ih2 hin
        simp only [List.length_cons]
        omega

/-- One run keeps every prefix that is not longer than `sep`. -/
theorem replaceLoop_keeps_start (sep : List Char) (hsep : sep ≠ []) :
    ∀ (s t : List Char), t.length ≤ sep.length → t <+: s →
      t <+: replaceLoop (sep ++ sep) sep 0 s
  | [], t, _, h => by
    rw [List.prefix_nil.1 h]
    exact List.nil_prefix
  | c :: cs, [], _, _ => List.nil_prefix
  | c :: cs, a :: t, hlen, h => by
    have hold : sep ++ sep ≠ [] := by simp [hsep]
    rw [replaceLoop_cons _ _ hold]
    by_cases hp : sep ++ sep <+: c :: cs
    · rw [if_pos hp]
      have h1 : a :: t <+: sep ++ sep :=
        List.prefix_of_prefix_length_le h hp (by rw [List.length_append]; omega)
      have h2 : a :: t <+: sep :=
        List.prefix_of_prefix_length_le h1 (List.prefix_append sep sep) hlen
      exact h2.trans (List.prefix_append _ _)
    · rw [if_neg hp]
      obtain ⟨hac, ht⟩ := List.cons_prefix_cons.1 h
      subst hac
      exact (List.prefix_cons_inj a).2
        (replaceLoop_keeps_start sep hsep cs t
          (by simp only [List.length_cons] at hlen; omega) ht)

/-- One run keeps every suffix that is not longer than `sep`. -/
theorem replaceLoop_keeps_end (sep : List Char) (hsep : sep ≠ []) :
    ∀ (m : Nat) (s t : List Char), s.length ≤ m → t.length ≤ sep.length → t <:+ s →
      t <:+ replaceLoop (sep ++ sep) sep 0 s
  | _, [], t, _, _, h => by
    rw [List.suffix_nil.1 h]
    exact List.nil_suffix
  | 0, _ :: _, _, h, _, _ => by simp at h
  | m + 1, c :: cs, t, h, hlen, hsuf => by
    have hold : sep ++ sep ≠ [] := by simp [hsep]
    have hn : 0 < sep.length := List.length_pos.2 hsep
    have hshort : ∀ u : List Char, u.length < (sep ++ sep).length →
        replaceLoop (sep ++ sep) sep 0 u = u := fun u hu =>
      replaceLoop_unchanged _ _ hold u (fun hi => by
        have := hi.length_le
        omega)
    rw [replaceLoop_cons _ _ hold]
    by_cases hp : sep ++ sep <+: c :: cs
    · rw [if_pos hp]
      have hsplit : sep ++ (sep ++ (c :: cs).drop (sep ++ sep).length) = c :: cs := by
        rw [← List.append_assoc]
        exact List.prefix_iff_eq_append.1 hp
      have hle := hp.length_le
      have hdup : (sep ++ sep).length = sep.length + sep.length := List.length_append _ _
      have hdl : ((c :: cs).drop (sep ++ sep).length).length =
          (c :: cs).length - (sep ++ sep).length := List.length_drop _ _
      by_cases hts : t.length ≤ ((c :: cs).drop (sep ++ sep).length).length
      · have h1 : t <:+ (c :: cs).drop (sep ++ sep).length :=
          List.suffix_of_suffix_length_le hsuf (List.drop_suffix _ _) hts
        have hdrop : ((c :: cs).drop (sep ++ sep).length).length ≤ m := by omega
        exact (replaceLoop_keeps_end sep hsep m _ t hdrop hlen h1).trans
          (List.suffix_append _ _)
      · rw [hshort _ (by omega)]
        have h2 : sep ++ (c :: cs).drop (sep ++ sep).length <:+ c :: cs := by
          conv_rhs => rw [← hsplit]
          exact List.suffix_append _ _
        exact List.suffix_of_suffix_length_le hsuf h2 (by rw [List.length_append]; omega)
    · rw [if_neg hp]
      rcases List.suffix_cons_iff.1 hsuf with heq | hcs
      · have hlen' : (c :: cs).length < (sep ++ sep).length := by
          have hdup : (sep ++ sep).length = sep.length + sep.length := List.length_append _ _
          rw [← heq]
          omega
        have := hshort (c :: cs) hlen'
        rw [replaceLoop_cons _ _ hold, if_neg hp] at this
        rw [this, heq]
      · have hcsm : cs.length ≤ m := by
          simp only [List.length_cons] at h
          omega
        exact (replaceLoop_keeps_end sep hsep m cs t hcsm hlen hcs).trans
          (List.suffix_cons _ _)

theorem replace_dup (sep : List Char) (hsep : sep ≠ []) (s : List Char) :
    Replace s (sep ++ sep) sep = replaceLoop (sep ++ sep) sep 0 s := by
  have hne : sep ++ sep ≠ sep := fun h => by
    have := congrArg List.length h
    rw [List.length_append] at this
    have := List.length_pos.2 hsep
    omega
  have hold : sep ++ sep ≠ [] := by simp [hsep]
  rw [Replace, if_neg hne, if_neg hold]

/-- More fuel does not change the result of a loop that has ended. -/
theorem removeDuplicatesLoop_mono (dup sep : List Char) :
    ∀ (fuel : Nat) (s r : List Char), removeDuplicatesLoop dup sep fuel s = some r →
      ∀ fuel', fuel ≤ fuel' → removeDuplicatesLoop dup sep fuel' s = some r
  | 0, _, _, h, _, _ => by simp [removeDuplicatesLoop] at h
  | fuel + 1, s, r, h, 0, hle => by omega
  | fuel + 1, s, r, h, fuel' + 1, hle => by
    rw [removeDuplicatesLoop] at h ⊢
    by_cases hc : Contains (Replace s dup sep) dup = true
    · rw [if_pos hc] at h ⊢
      exact removeDuplicatesLoop_mono dup sep fuel _ r h fuel' (by omega)
    · rw [if_neg hc] at h ⊢
      exact h

/-- For a non-empty separator the loop ends within `len(s) + 1` runs, and its result has
no `sep+sep`, is `s` when `s` has none, and keeps the prefixes and suffixes of `s` that
are not longer than `sep`. -/
theorem removeDuplicatesLoop_ends (sep : List Char) (hsep : sep ≠ []) :
    ∀ (fuel : Nat) (s : List Char), s.length < fuel →
      ∃ r, removeDuplicatesLoop (sep ++ sep) sep fuel s = some r ∧
        ¬ sep ++ sep <:+: r ∧
        (¬ sep ++ sep <:+: s → r = s) ∧
        (∀ t, t.length ≤ sep.length → t <+: s → t <+: r) ∧
        (∀ t, t.length ≤ sep.length → t <:+ s → t <:+ r)
  | 0, _, h => by omega
  | fuel + 1, s, h => by
    have hold : sep ++ sep ≠ [] := by simp [hsep]
    have hpre : ∀ t, t.length ≤ sep.length → t <+: s →
        t <+: replaceLoop (sep ++ sep) sep 0 s := fun t ht hts =>
      replaceLoop_keeps_start sep hsep s t ht hts
    have hsuf : ∀ t, t.length ≤ sep.length → t <:+ s →
        t <:+ replaceLoop (sep ++ sep) sep 0 s := fun t ht hts =>
      replaceLoop_keeps_end sep hsep s.length s t (Nat.le_refl _) ht hts
    rw [removeDuplicatesLoop, replace_dup sep hsep]
    by_cases hc : Contains (replaceLoop (sep ++ sep) sep 0 s) (sep ++ sep) = true
    · rw [if_pos hc]
      have hin : sep ++ sep <:+: s := by
        by_contra hno
        rw [replaceLoop_unchanged _ _ hold s hno] at hc
        exact hno ((contains_iff_substring _ _).1 hc)
      have hlt := (replaceLoop_length sep hsep s.length s (Nat.le_refl _)).2 hin
      obtain ⟨r, hr, hnodup, -, hp, hs⟩ :=
        removeDuplicatesLoop_ends sep hsep fuel (replaceLoop (sep ++ sep) sep 0 s)
          (by omega)
      exact ⟨r, hr, hnodup, fun hno => absurd hin hno,
        fun t ht hts => hp t ht (hpre t ht hts), fun t ht hts => hs t ht (hsuf t ht hts)⟩
    · rw [if_neg hc]
      exact ⟨_, rfl, fun hi => hc ((contains_iff_substring _ _).2 hi),
        fun hno => replaceLoop_unchanged _ _ hold s hno, hpre, hsuf⟩

theorem contains_empty : ∀ s : List Char, Contains s [] = true
  | [] => rfl
  | _ :: _ => rfl

theorem removeDuplicatesLoop_empty :
    ∀ (fuel : Nat) (s : List Char), removeDuplicatesLoop [] [] fuel s = none
  | 0, _ => rfl
  | fuel + 1, s => by
    have hr : Replace s [] [] = s := by simp [Replace]
    rw [removeDuplicatesLoop, hr, if_pos (contains_empty s)]
    exact removeDuplicatesLoop_empty fuel s

/-- C24: for a non-empty separator `RemoveDuplicatesFromString` returns (its loop ends
within `len(s) + 1` runs) a string that has no two adjacent occurrences of `sep`, that
is `s` when `s` has none, and that starts with `sep` if `s` does and ends with `sep` if
`s` does. -/
theorem removeDuplicates_spec (s sep : String) (hsep : sep ≠ "") :
    ∃ result : String,
      (∀ fuel, s.length < fuel → RemoveDuplicatesFromString fuel s sep = some result) ∧
      ¬ (sep ++ sep).data <:+: result.data ∧
      (¬ (sep ++ sep).data <:+: s.data → result = s) ∧
      (sep.data <+: s.data → sep.data <+: result.data) ∧
      (sep.data <:+ s.data → sep.data <:+ result.data) := by
  have hdata : sep.data ≠ [] := fun h => hsep (String.ext h)
  obtain ⟨r, hr, hnodup, hsame, hpre, hsuf⟩ :=
    removeDuplicatesLoop_ends sep.data hdata (s.length + 1) s.data (Nat.lt_succ_self _)
  refine ⟨String.mk r, ?_, hnodup, ?_, hpre sep.data (Nat.le_refl _),
    hsuf sep.data (Nat.le_refl _)⟩
  · intro fuel hfuel
    unfold RemoveDuplicatesFromString
    rw [removeDuplicatesLoop_mono _ _ _ _ _ hr fuel hfuel]
    rfl
  · intro hno
    rw [hsame hno]

/-- C24, at the path `/a//b///c//` and the separator `/`: the result is `/a/b/c/`. -/
theorem removeDuplicates_spec_witness :
    RemoveDuplicatesFromString 12 "/a//b///c//" "/" = some "/a/b/c/" ∧
    ∃ result : String,
      (∀ fuel, "/a//b///c//".length < fuel →
        RemoveDuplicatesFromString fuel "/a//b///c//" "/" = some result) ∧
      ¬ ("/" ++ "/" : String).data <:+: result.data ∧
      (¬ ("/" ++ "/" : String).data <:+: "/a//b///c//".data → result = "/a//b///c//") ∧
      (("/" : String).data <+: "/a//b///c//".data → ("/" : String).data <+: result.data) ∧
      (("/" : String).data <:+ "/a//b///c//".data → ("/" : String).data <:+ result.data) :=
  ⟨by decide, removeDuplicates_spec "/a//b///c//" "/" (by decide)⟩

/-- C28: with the empty separator the loop of `RemoveDuplicatesFromString` never ends:
`strings.Replace(s, "", "", -1)` returns `s` and `strings.Contains(s, "")` is true, so
every run leaves the string and the condition as they were, whatever the number of
runs. With a non-empty separator the loop ends within `len(s) + 1` runs. -/
theorem empty_separator_never_ends :
    (∀ (fuel : Nat) (s : String), RemoveDuplicatesFromString fuel s "" = none) ∧
    (∀ s : List Char, Replace s [] [] = s ∧ Contains (Replace s [] []) [] = true) ∧
    (∀ s sep : String, sep ≠ "" →
      ∃ result, ∀ fuel, s.length < fuel →
        RemoveDuplicatesFromString fuel s sep = some result) := by
  refine ⟨fun fuel s => ?_, fun s => ?_, fun s sep hsep => ?_⟩
  · unfold RemoveDuplicatesFromString
    have h : ("" : String).data ++ ("" : String).data = [] := rfl
    have h' : ("" : String).data = [] := rfl
    rw [h, h', removeDuplicatesLoop_empty]
    rfl
  · have hr : Replace s [] [] = s := by simp [Replace]
    rw [hr]
    exact ⟨rfl, contains_empty s⟩
  · have hdata : sep.data ≠ [] := fun h => hsep (String.ext h)
    obtain ⟨r, hr, -⟩ :=
      removeDuplicatesLoop_ends sep.data hdata (s.length + 1) s.data (Nat.lt_succ_self _)
    refine ⟨String.mk r, fun fuel hfuel => ?_⟩
    unfold RemoveDuplicatesFromString
    rw [removeDuplicatesLoop_mono _ _ _ _ _ hr fuel hfuel]
    rfl

/-- The run of `cmdInit.Run` on a configuration with a join token: after the
certificate-path step it is the token step followed, when that succeeds, by the end of the
run on the cluster part that the token step leaves. -/
theorem run_token_step {env : InitEnv} {config config' : InitPreseed}
    {cluster : InitClusterPreseed}
    (hpath : certificatePathStep env config = .ok config')
    (hc : config'.Cluster = some cluster) (htoken : cluster.ClusterToken ≠ "") :
    cmdInit.Run env config =
      match tokenStep env cluster with
      | .error err => (some err, [])
      | .ok cluster' => applyStep env { config' with Cluster := some cluster' } := by
  unfold cmdInit.Run
  simp only [hpath, hc, htoken, ne_eq, not_false_eq_true, if_true]

/-- The end of the run on a cluster part with a cluster address and a server address: the
one call on the daemon is the cluster join with that cluster part. -/
theorem applyStep_join (env : InitEnv) (config : InitPreseed) (cluster : InitClusterPreseed)
    (hc : config.Cluster = some cluster) (ha : cluster.ClusterAddress ≠ "")
    (hs : cluster.ServerAddress ≠ "") :
    (applyStep env config).2 =
      [Action.UpdateCluster
        { cluster with
          ServerAddress := env.CanonicalNetworkAddress cluster.ServerAddress HTTPSDefaultPort
          ClusterAddress :=
            env.CanonicalNetworkAddress cluster.ClusterAddress HTTPSDefaultPort }] := by
  unfold applyStep
  simp only [hc, ha, hs, ne_eq, not_false_eq_true, and_self, if_true]
  cases env.UpdateCluster
      { cluster with
        ServerAddress := env.CanonicalNetworkAddress cluster.ServerAddress HTTPSDefaultPort
        ClusterAddress :=
          env.CanonicalNetworkAddress cluster.ClusterAddress HTTPSDefaultPort } with
  | error err => rfl
  | ok op =>
    cases hw : op.Wait with
    | some err => simp only [hw]
    | none => simp only [hw]

/-- The end of the run always makes a call on the daemon. -/
theorem applyStep_calls (env : InitEnv) (config : InitPreseed) :
    (applyStep env config).2 ≠ [] := by
  unfold applyStep
  simp only
  split
  · split
    · simp
    · split <;> simp
  · split
    · simp
    · split <;> simp

/-- C3 (amended): on a configuration with a join token, `cmdInit.Run` tries the addresses
of the token in order and skips the members it cannot reach; the first member that
presents a certificate decides. When the fingerprint of that certificate equals the one
of the token, the run goes on to its end (the cluster join through `UpdateCluster`, or
the application of the configuration) with `ClusterAddress` set to the canonical form of
that address and `ClusterCertificate` to the PEM encoding of the certificate, and with a
server address the one call on the daemon is the cluster join with these values; when the
fingerprint differs, `Run` returns the fingerprint-mismatch error, makes no call on the
daemon, and whatever the later addresses would answer makes no difference. -/
theorem run_first_reachable_member_decides (env : InitEnv) (config config' : InitPreseed)
    (cluster : InitClusterPreseed) (joinToken : ClusterMemberJoinToken)
    (pre post : List String) (a : String) (cert : Certificate)
    (hpath : certificatePathStep env config = .ok config')
    (hc : config'.Cluster = some cluster) (htoken : cluster.ClusterToken ≠ "")
    (hdec : JoinTokenDecode env cluster.ClusterToken = .ok joinToken)
    (haddr : joinToken.Addresses = pre ++ a :: post)
    (hpre : ∀ x ∈ pre, ∃ e, env.GetRemoteCertificate
      ("https://" ++ env.CanonicalNetworkAddress x HTTPSDefaultPort) = .error e)
    (ha : env.GetRemoteCertificate
      ("https://" ++ env.CanonicalNetworkAddress a HTTPSDefaultPort) = .ok cert) :
    (env.CertFingerprint cert = joinToken.Fingerprint →
      ∃ cluster', cmdInit.Run env config =
          applyStep env { config' with Cluster := some cluster' } ∧
        (cmdInit.Run env config).2 ≠ [] ∧
        cluster'.ClusterAddress = env.CanonicalNetworkAddress a HTTPSDefaultPort ∧
        cluster'.ClusterCertificate = pemEncodeToMemory env cert.Raw ∧
        (cluster'.ServerAddress ≠ "" →
          env.CanonicalNetworkAddress a HTTPSDefaultPort ≠ "" →
          ∃ put, (cmdInit.Run env config).2 = [Action.UpdateCluster put] ∧
            put.ClusterCertificate = pemEncodeToMemory env cert.Raw ∧
            put.ClusterAddress = env.CanonicalNetworkAddress
              (env.CanonicalNetworkAddress a HTTPSDefaultPort) HTTPSDefaultPort)) ∧
    (env.CertFingerprint cert ≠ joinToken.Fingerprint →
      cmdInit.Run env config =
        (some (GoError.new ("Certificate fingerprint mismatch between join token and " ++
          "cluster member " ++ quote a)), [])) := by
  have hstep := tokenStep_first_reachable env cluster joinToken pre post a cert hdec haddr
    hpre ha
  have hrun := @run_token_step env config config' cluster hpath hc htoken
  constructor
  · intro hfp
    obtain ⟨cluster', hts, haddr', hcert'⟩ := hstep.1 hfp
    have hrun' : cmdInit.Run env config =
        applyStep env { config' with Cluster := some cluster' } := by
      rw [hrun, hts]
    refine ⟨cluster', hrun', ?_, haddr', hcert', ?_⟩
    · rw [hrun']
      exact applyStep_calls env _
    · intro hs hne
      refine ⟨{ cluster' with
          ServerAddress := env.CanonicalNetworkAddress cluster'.ServerAddress HTTPSDefaultPort
          ClusterAddress :=
            env.CanonicalNetworkAddress cluster'.ClusterAddress HTTPSDefaultPort }, ?_, hcert',
        ?_⟩
      · rw [hrun']
        exact applyStep_join env _ cluster' rfl (by rw [haddr']; exact hne) hs
      · show env.CanonicalNetworkAddress cluster'.ClusterAddress HTTPSDefaultPort = _
        rw [haddr']
  · intro hfp
    rw [hrun, hstep.2 hfp]

/-- C3 (amended), at a token whose first member is unreachable and whose second member
presents the certificate of the token: the run joins through the second member. -/
theorem run_first_reachable_member_decides_witness :
    ∃ cluster', cmdInit.Run secondReachableEnv { Node := [], Cluster := some joinCluster } =
        applyStep secondReachableEnv { Node := [], Cluster := some cluster' } ∧
      (cmdInit.Run secondReachableEnv { Node := [], Cluster := some joinCluster }).2 ≠ [] ∧
      cluster'.ClusterAddress = "10.0.0.3:8443" ∧
      cluster'.ClusterCertificate = pemEncodeToMemory secondReachableEnv [1] ∧
      (cluster'.ServerAddress ≠ "" → ("10.0.0.3:8443" : String) ≠ "" →
        ∃ put,
          (cmdInit.Run secondReachableEnv { Node := [], Cluster := some joinCluster }).2 =
            [Action.UpdateCluster put] ∧
          put.ClusterCertificate = pemEncodeToMemory secondReachableEnv [1] ∧
          put.ClusterAddress = "10.0.0.3:8443") :=
  (run_first_reachable_member_decides secondReachableEnv
    { Node := [], Cluster := some joinCluster } { Node := [], Cluster := some joinCluster }
    joinCluster exampleToken ["10.0.0.2:8443"] [] "10.0.0.3:8443" { Raw := [1] }
    rfl rfl (by decide) rfl rfl
    (by
      intro x hx
      rw [List.mem_singleton.mp hx]
      exact ⟨GoError.new "connection refused", rfl⟩)
    rfl).1 rfl

/-- C5: on a configuration whose join token has two candidate addresses, when the
certificate of the first cannot be fetched and the second returns a certificate whose
fingerprint equals the one of the token, `cmdInit.Run` gets no error from the token step:
it goes on to its end (the cluster join, or the application of the configuration) with
`ClusterAddress` equal to the canonical form of the second address, `ClusterCertificate`
equal to the PEM encoding of the certificate of the second member and `ServerName` equal
to the server name of the token; with a server address the one call on the daemon is the
cluster join with these values. -/
theorem run_joins_through_second_address (env : InitEnv) (config config' : InitPreseed)
    (cluster : InitClusterPreseed) (joinToken : ClusterMemberJoinToken)
    (first second : String) (cert : Certificate)
    (hpath : certificatePathStep env config = .ok config')
    (hc : config'.Cluster = some cluster) (htoken : cluster.ClusterToken ≠ "")
    (hdec : JoinTokenDecode env cluster.ClusterToken = .ok joinToken)
    (haddr : joinToken.Addresses = [first, second])
    (hfirst : ∃ e, env.GetRemoteCertificate
      ("https://" ++ env.CanonicalNetworkAddress first HTTPSDefaultPort) = .error e)
    (hsecond : env.GetRemoteCertificate
      ("https://" ++ env.CanonicalNetworkAddress second HTTPSDefaultPort) = .ok cert)
    (hfp : env.CertFingerprint cert = joinToken.Fingerprint) :
    ∃ cluster', cmdInit.Run env config =
        applyStep env { config' with Cluster := some cluster' } ∧
      (cmdInit.Run env config).2 ≠ [] ∧
      cluster'.ClusterAddress = env.CanonicalNetworkAddress second HTTPSDefaultPort ∧
      cluster'.ClusterCertificate = pemEncodeToMemory env cert.Raw ∧
      cluster'.ServerName = joinToken.ServerName ∧
      (cluster'.ServerAddress ≠ "" →
        env.CanonicalNetworkAddress second HTTPSDefaultPort ≠ "" →
        ∃ put, (cmdInit.Run env config).2 = [Action.UpdateCluster put] ∧
          put.ServerName = joinToken.ServerName ∧
          put.ClusterCertificate = pemEncodeToMemory env cert.Raw ∧
          put.ClusterAddress = env.CanonicalNetworkAddress
            (env.CanonicalNetworkAddress second HTTPSDefaultPort) HTTPSDefaultPort) := by
  obtain ⟨cluster', hts, haddr', hcert', hname'⟩ :=
    tokenStep_second_address env cluster joinToken first second cert hdec haddr hfirst
      hsecond hfp
  have hrun : cmdInit.Run env config =
      applyStep env { config' with Cluster := some cluster' } := by
    rw [@run_token_step env config config' cluster hpath hc htoken, hts]
  refine ⟨cluster', hrun, ?_, haddr', hcert', hname', ?_⟩
  · rw [hrun]
    exact applyStep_calls env _
  · intro hs hne
    refine ⟨{ cluster' with
        ServerAddress := env.CanonicalNetworkAddress cluster'.ServerAddress HTTPSDefaultPort
        ClusterAddress :=
          env.CanonicalNetworkAddress cluster'.ClusterAddress HTTPSDefaultPort }, ?_, hname',
      hcert', ?_⟩
    · rw [hrun]
      exact applyStep_join env _ cluster' rfl (by rw [haddr']; exact hne) hs
    · show env.CanonicalNetworkAddress cluster'.ClusterAddress HTTPSDefaultPort = _
      rw [haddr']

/-- C5, at the example token: the run joins the cluster through the second address. -/
theorem run_joins_through_second_address_witness :
    ∃ cluster', cmdInit.Run secondReachableEnv { Node := [], Cluster := some joinCluster } =
        applyStep secondReachableEnv { Node := [], Cluster := some cluster' } ∧
      (cmdInit.Run secondReachableEnv { Node := [], Cluster := some joinCluster }).2 ≠ [] ∧
      cluster'.ClusterAddress = "10.0.0.3:8443" ∧
      cluster'.ClusterCertificate = pemEncodeToMemory secondReachableEnv [1] ∧
      cluster'.ServerName = "node2" ∧
      (cluster'.ServerAddress ≠ "" → ("10.0.0.3:8443" : String) ≠ "" →
        ∃ put,
          (cmdInit.Run secondReachableEnv { Node := [], Cluster := some joinCluster }).2 =
            [Action.UpdateCluster put] ∧
          put.ServerName = "node2" ∧
          put.ClusterCertificate = pemEncodeToMemory secondReachableEnv [1] ∧
          put.ClusterAddress = "10.0.0.3:8443") :=
  run_joins_through_second_address secondReachableEnv
    { Node := [], Cluster := some joinCluster } { Node := [], Cluster := some joinCluster }
    joinCluster exampleToken "10.0.0.2:8443" "10.0.0.3:8443" { Raw := [1] }
    rfl rfl (by decide) rfl rfl ⟨GoError.new "connection refused", rfl⟩ rfl rfl

theorem networkLoop_blocks (d : Daemon) (projectName : String) :
    ∀ (networkNames : List String) (result out : List NetworkAllocations),
      networkLoop d projectName networkNames result = .ok out →
      ∃ blocks : List (List NetworkAllocations), out = result ++ blocks.flatten ∧
        List.Forall₂
          (fun networkName emitted =>
            ∃ acc, networkBody d projectName networkName acc = .ok (acc ++ emitted))
          networkNames blocks
  | [], result, out, h => by
    simp only [networkLoop, Except.ok.injEq] at h
    exact ⟨[], by simp [h], List.Forall₂.nil⟩
  | networkName :: rest, result, out, h => by
    unfold networkLoop at h
    cases hb : networkBody d projectName networkName result with
    | error e => simp [hb] at h
    | ok r1 =>
      simp only [hb] at h
      obtain ⟨_, _, _, _, _, _, _, -, -, -, -, -, -, -, hout⟩ := networkBody_ok hb
      obtain ⟨blocks, hblocks, hall⟩ := networkLoop_blocks d projectName rest r1 out h
      refine ⟨_ :: blocks, ?_, List.Forall₂.cons ⟨result, by rw [← hout]; exact hb⟩ hall⟩
      rw [hblocks, hout, List.flatten_cons, List.append_assoc]

theorem projectLoop_blocks (d : Daemon) :
    ∀ (projectNames : List String) (result out : List NetworkAllocations),
      projectLoop d projectNames result = .ok out →
      ∃ (pairs : List (String × String)) (blocks : List (List NetworkAllocations)),
        networkPairs d projectNames = some pairs ∧ out = result ++ blocks.flatten ∧
        List.Forall₂
          (fun pair emitted => ∃ acc, networkBody d pair.1 pair.2 acc = .ok (acc ++ emitted))
          pairs blocks
  | [], result, out, h => by
    simp only [projectLoop, Except.ok.injEq] at h
    exact ⟨[], [], rfl, by simp [h], List.Forall₂.nil⟩
  | projectName :: rest, result, out, h => by
    unfold projectLoop at h
    cases hn : d.GetNetworks projectName with
    | error e => simp [hn] at h
    | ok networkNames =>
      simp only [hn] at h
      cases hl : networkLoop d projectName networkNames result with
      | error e => simp [hl] at h
      | ok r1 =>
        simp only [hl] at h
        obtain ⟨blocks1, hout1, hall1⟩ := networkLoop_blocks d projectName _ _ _ hl
        obtain ⟨pairs, blocks, hpairs, hout, hall⟩ := projectLoop_blocks d rest r1 out h
        refine ⟨networkNames.map (fun networkName => (projectName, networkName)) ++ pairs,
          blocks1 ++ blocks, ?_, ?_, ?_⟩
        · simp only [networkPairs, hn, hpairs]
        · rw [hout, hout1, List.flatten_append, List.append_assoc]
        · exact List.rel_append (List.forall₂_map_left_iff.2 hall1) hall

/-- A successful response is, block by block, what the passes over the networks of the
request append, in the order of the networks. -/
theorem response_blocks {d : Daemon} {r : Request} {success : Bool}
    {result : List NetworkAllocations}
    (h : networkAllocationsGet d r = .SyncResponse success result) :
    ∃ (pairs : List (String × String)) (blocks : List (List NetworkAllocations)),
      RequestNetworks d r pairs ∧ result = blocks.flatten ∧
      List.Forall₂
        (fun pair emitted => ∃ acc, networkBody d pair.1 pair.2 acc = .ok (acc ++ emitted))
        pairs blocks := by
  unfold networkAllocationsGet at h
  cases hnp : d.NetworkProject r.project with
  | error e => simp [hnp] at h
  | ok projectName =>
    simp only [hnp] at h
    cases hps : projectNamesOf d projectName (IsTrue r.allProjects) with
    | error e => simp [hps] at h
    | ok projectNames =>
      simp only [hps] at h
      cases hl : projectLoop d projectNames [] with
      | error e => simp [hl] at h
      | ok out =>
        simp only [hl, Response.SyncResponse.injEq] at h
        obtain ⟨pairs, blocks, hpairs, hout, hall⟩ := projectLoop_blocks d _ _ _ hl
        exact ⟨pairs, blocks, ⟨projectName, projectNames, hnp, hps, hpairs⟩,
          by rw [← h.2, hout, List.nil_append], hall⟩

/-- What a pass over one network appends, kind by kind. -/
theorem networkBody_kinds {d : Daemon} {projectName networkName : String}
    {acc emitted : List NetworkAllocations}
    (h : networkBody d projectName networkName acc = .ok (acc ++ emitted)) :
    ∃ n leases forwards loadBalancers,
      d.LoadByName projectName networkName = .ok n ∧
      leasesOf projectName networkName n = .ok leases ∧
      d.GetNetworkForwards n.ID = .ok forwards ∧
      d.GetNetworkLoadBalancers n.ID = .ok loadBalancers ∧
      (emitted.filter fun a => decide (a.Type_ = "network")) =
        ["ipv4", "ipv6"].filterMap (familyAllocation projectName networkName n.Config) ∧
      List.Forall₂ (IsInstanceAllocation projectName n.Config)
        (leases.filter isStaticOrDynamic)
        (emitted.filter fun a => decide (a.Type_ = "instance")) ∧
      List.Forall₂ (IsForwardAllocation projectName networkName) forwards
        (emitted.filter fun a => decide (a.Type_ = "network-forward")) ∧
      List.Forall₂ (IsLoadBalancerAllocation projectName networkName) loadBalancers
        (emitted.filter fun a => decide (a.Type_ = "network-load-balancer")) ∧
      ∀ a ∈ emitted, a.Type_ = "network-forward" ∨ a.Type_ = "network-load-balancer" →
        a.NAT = false := by
  obtain ⟨n, leases, forwards, loadBalancers, la, fa, lba, hload, hleases, hfw, hlb, hla, hfa,
    hlba, hout⟩ := networkBody_ok h
  have hem := List.append_cancel_left hout
  have tfam : ∀ a ∈ ["ipv4", "ipv6"].filterMap
      (familyAllocation projectName networkName n.Config), a.Type_ = "network" :=
    fun a ha => family_mem ha
  have tla : ∀ a ∈ la, a.Type_ = "instance" :=
    fun a ha => (forall₂_mem_right hla a ha).choose_spec.2.choose_spec.2.1
  have tfa : ∀ a ∈ fa, a.Type_ = "network-forward" :=
    fun a ha => (forall₂_mem_right hfa a ha).choose_spec.2.2.1
  have tlba : ∀ a ∈ lba, a.Type_ = "network-load-balancer" :=
    fun a ha => (forall₂_mem_right hlba a ha).choose_spec.2.2.1
  refine ⟨n, leases, forwards, loadBalancers, hload, hleases, hfw, hlb, ?_, ?_, ?_, ?_, ?_⟩
  · rw [hem, List.filter_append, List.filter_append, List.filter_append,
      filter_type_self "network" tfam,
      filter_type_nil "network" tla (by decide),
      filter_type_nil "network" tfa (by decide),
      filter_type_nil "network" tlba (by decide)]
    simp only [List.append_nil]
  · rw [hem, List.filter_append, List.filter_append, List.filter_append,
      filter_type_nil "instance" tfam (by decide),
      filter_type_self "instance" tla,
      filter_type_nil "instance" tfa (by decide),
      filter_type_nil "instance" tlba (by decide)]
    simp only [List.nil_append, List.append_nil]
    exact hla
  · rw [hem, List.filter_append, List.filter_append, List.filter_append,
      filter_type_nil "network-forward" tfam (by decide),
      filter_type_nil "network-forward" tla (by decide),
      filter_type_self "network-forward" tfa,
      filter_type_nil "network-forward" tlba (by decide)]
    simp only [List.nil_append, List.append_nil]
    exact hfa
  · rw [hem, List.filter_append, List.filter_append, List.filter_append,
      filter_type_nil "network-load-balancer" tfam (by decide),
      filter_type_nil "network-load-balancer" tla (by decide),
      filter_type_nil "network-load-balancer" tfa (by decide),
      filter_type_self "network-load-balancer" tlba]
    simp only [List.nil_append, List.append_nil]
    exact hlba
  · intro a ha ht
    rw [hem] at ha
    simp only [List.mem_append] at ha
    rcases ha with ((ha | ha) | ha) | ha
    · rw [tfam a ha] at ht
      exact absurd ht (by decide)
    · rw [tla a ha] at ht
      exact absurd ht (by decide)
    · exact (forall₂_mem_right hfa a ha).choose_spec.2.2.2.1
    · exact (forall₂_mem_right hlba a ha).choose_spec.2.2.2.1

theorem filter_static_dynamic (leases : List NetworkLease) :
    (leases.filter fun lease => decide (lease.Type_ = "static" ∨ lease.Type_ = "dynamic")) =
      leases.filter isStaticOrDynamic := by
  congr 1
  funext lease
  by_cases hsd : isStaticOrDynamic lease = true
  · simp [hsd, (isStaticOrDynamic_iff lease).mp hsd]
  · have := fun h' => hsd ((isStaticOrDynamic_iff lease).mpr h')
    simp only [Bool.not_eq_true] at hsd
    simpa [hsd] using not_or.mp this

theorem leasesOf_driver {projectName networkName : String} {n : Network}
    {leases : List NetworkLease} (h : leasesOf projectName networkName n = .ok leases) :
    n.Leases projectName = .ok leases ∨
      ∃ err, n.Leases projectName = .error err ∧ leases = [] := by
  unfold leasesOf at h
  cases hl : n.Leases projectName with
  | ok ls =>
    simp only [hl, Except.ok.injEq] at h
    exact Or.inl (by rw [h])
  | error err =>
    simp only [hl] at h
    split at h
    · cases h
    · simp only [Except.ok.injEq] at h
      exact Or.inr ⟨err, rfl, h.symm⟩

/-- C9: in every successful response of `networkAllocationsGet` the allocations of type
`instance` are, network by network in the order in which the handler visits the networks
of the request, exactly one for each lease of the network whose type is `static` or
`dynamic` and none for any other lease, in lease order; the leases are those the driver
returns (none when the driver answers with the sentinel `ErrNotImplemented`). The
allocation carries the hardware address of the lease, the URL of the instance, the lease
address as `<ip>/32` with NAT equal to `IsTrue` of `ipv4.nat` for an IPv4 address, and as
`<ip>/128` with NAT equal to `IsTrue` of `ipv6.nat` for an IPv6 address. -/
theorem response_instance_allocations (d : Daemon) (r : Request) (success : Bool)
    (result : List NetworkAllocations)
    (h : networkAllocationsGet d r = .SyncResponse success result) :
    ∃ (pairs : List (String × String)) (blocks : List (List NetworkAllocations)),
      RequestNetworks d r pairs ∧
      (result.filter fun a => decide (a.Type_ = "instance")) = blocks.flatten ∧
      List.Forall₂
        (fun pair block =>
          ∃ n leases, d.LoadByName pair.1 pair.2 = .ok n ∧
            (n.Leases pair.1 = .ok leases ∨
              ∃ err, n.Leases pair.1 = .error err ∧ leases = []) ∧
            List.Forall₂
              (fun lease a =>
                ∃ ip, ParseIP lease.Address = some ip ∧ a.Type_ = "instance" ∧
                  a.Hwaddr = lease.Hwaddr ∧
                  a.UsedBy = apiURL [APIVersion, "instances", lease.Hostname] pair.1 ∧
                  (((IP.To4 ip).isSome = true ∧ a.Address = IP.String ip ++ "/32" ∧
                      a.NAT = IsTrue (n.Config.get "ipv4.nat")) ∨
                    ((IP.To4 ip).isSome = false ∧ a.Address = IP.String ip ++ "/128" ∧
                      a.NAT = IsTrue (n.Config.get "ipv6.nat"))))
              (leases.filter fun lease =>
                decide (lease.Type_ = "static" ∨ lease.Type_ = "dynamic"))
              block)
        pairs blocks := by
  obtain ⟨pairs, emitted, hreq, hres, hall⟩ := response_blocks h
  refine ⟨pairs, emitted.map (List.filter fun a => decide (a.Type_ = "instance")), hreq, ?_, ?_⟩
  · rw [hres, List.filter_flatten]
  · refine List.forall₂_map_right_iff.2 (hall.imp ?_)
    rintro pair block ⟨acc, hbody⟩
    obtain ⟨n, leases, -, -, hload, hleases, -, -, -, hinst, -⟩ := networkBody_kinds hbody
    refine ⟨n, leases, hload, leasesOf_driver hleases, ?_⟩
    rw [filter_static_dynamic]
    exact hinst

/-- C9, at a request for the project of the network `br0`: of its three leases the static
and the dynamic one give an allocation, the gateway lease gives none. -/
theorem response_instance_allocations_witness :
    ∃ (pairs : List (String × String)) (blocks : List (List NetworkAllocations)),
      RequestNetworks br0Daemon scenarioRequest pairs ∧
      (br0Allocations.filter fun a => decide (a.Type_ = "instance")) = blocks.flatten ∧
      List.Forall₂
        (fun pair block =>
          ∃ n leases, br0Daemon.LoadByName pair.1 pair.2 = .ok n ∧
            (n.Leases pair.1 = .ok leases ∨
              ∃ err, n.Leases pair.1 = .error err ∧ leases = []) ∧
            List.Forall₂
              (fun lease a =>
                ∃ ip, ParseIP lease.Address = some ip ∧ a.Type_ = "instance" ∧
                  a.Hwaddr = lease.Hwaddr ∧
                  a.UsedBy = apiURL [APIVersion, "instances", lease.Hostname] pair.1 ∧
                  (((IP.To4 ip).isSome = true ∧ a.Address = IP.String ip ++ "/32" ∧
                      a.NAT = IsTrue (n.Config.get "ipv4.nat")) ∨
                    ((IP.To4 ip).isSome = false ∧ a.Address = IP.String ip ++ "/128" ∧
                      a.NAT = IsTrue (n.Config.get "ipv6.nat"))))
              (leases.filter fun lease =>
                decide (lease.Type_ = "static" ∨ lease.Type_ = "dynamic"))
              block)
        pairs blocks :=
  response_instance_allocations br0Daemon scenarioRequest true br0Allocations (by decide)

/-- C10: in every successful response of `networkAllocationsGet` the allocations of type
`network-forward` are, network by network in the order in which the handler visits the
networks of the request, exactly one per forward listed for the network, and those of
type `network-load-balancer` exactly one per load-balancer listed for it, in listing
order, each with the host form of the listen address; and every allocation of these two
types in the response has NAT false, whatever the `ipv4.nat` and `ipv6.nat` settings of
the network are. -/
theorem response_forward_allocations (d : Daemon) (r : Request) (success : Bool)
    (result : List NetworkAllocations)
    (h : networkAllocationsGet d r = .SyncResponse success result) :
    ∃ (pairs : List (String × String))
      (forwardBlocks loadBalancerBlocks : List (List NetworkAllocations)),
      RequestNetworks d r pairs ∧
      (result.filter fun a => decide (a.Type_ = "network-forward")) = forwardBlocks.flatten ∧
      (result.filter fun a => decide (a.Type_ = "network-load-balancer")) =
        loadBalancerBlocks.flatten ∧
      List.Forall₂
        (fun pair block =>
          ∃ n forwards, d.LoadByName pair.1 pair.2 = .ok n ∧
            d.GetNetworkForwards n.ID = .ok forwards ∧
            List.Forall₂ (IsForwardAllocation pair.1 pair.2) forwards block)
        pairs forwardBlocks ∧
      List.Forall₂
        (fun pair block =>
          ∃ n loadBalancers, d.LoadByName pair.1 pair.2 = .ok n ∧
            d.GetNetworkLoadBalancers n.ID = .ok loadBalancers ∧
            List.Forall₂ (IsLoadBalancerAllocation pair.1 pair.2) loadBalancers block)
        pairs loadBalancerBlocks ∧
      ∀ a ∈ result, a.Type_ = "network-forward" ∨ a.Type_ = "network-load-balancer" →
        a.NAT = false := by
  obtain ⟨pairs, emitted, hreq, hres, hall⟩ := response_blocks h
  refine ⟨pairs, emitted.map (List.filter fun a => decide (a.Type_ = "network-forward")),
    emitted.map (List.filter fun a => decide (a.Type_ = "network-load-balancer")),
    hreq, ?_, ?_, ?_, ?_, ?_⟩
  · rw [hres, List.filter_flatten]
  · rw [hres, List.filter_flatten]
  · refine List.forall₂_map_right_iff.2 (hall.imp ?_)
    rintro pair block ⟨acc, hbody⟩
    obtain ⟨n, -, forwards, -, hload, -, hfw, -, -, -, hfa, -, -⟩ := networkBody_kinds hbody
    exact ⟨n, forwards, hload, hfw, hfa⟩
  · refine List.forall₂_map_right_iff.2 (hall.imp ?_)
    rintro pair block ⟨acc, hbody⟩
    obtain ⟨n, -, -, loadBalancers, hload, -, -, hlb, -, -, -, hlba, -⟩ :=
      networkBody_kinds hbody
    exact ⟨n, loadBalancers, hload, hlb, hlba⟩
  · intro a ha ht
    rw [hres, List.mem_flatten] at ha
    obtain ⟨block, hblock, hab⟩ := ha
    obtain ⟨pair, -, acc, hbody⟩ := forall₂_mem_right hall block hblock
    obtain ⟨-, -, -, -, -, -, -, -, -, -, -, -, hnat⟩ := networkBody_kinds hbody
    exact hnat a hab ht

/-- C10, at a request for the project of the network `br0`, which has NAT on for IPv4,
one forward and one load-balancer. -/
theorem response_forward_allocations_witness :
    ∃ (pairs : List (String × String))
      (forwardBlocks loadBalancerBlocks : List (List NetworkAllocations)),
      RequestNetworks br0Daemon scenarioRequest pairs ∧
      (br0Allocations.filter fun a => decide (a.Type_ = "network-forward")) =
        forwardBlocks.flatten ∧
      (br0Allocations.filter fun a => decide (a.Type_ = "network-load-balancer")) =
        loadBalancerBlocks.flatten ∧
      List.Forall₂
        (fun pair block =>
          ∃ n forwards, br0Daemon.LoadByName pair.1 pair.2 = .ok n ∧
            br0Daemon.GetNetworkForwards n.ID = .ok forwards ∧
            List.Forall₂ (IsForwardAllocation pair.1 pair.2) forwards block)
        pairs forwardBlocks ∧
      List.Forall₂
        (fun pair block =>
          ∃ n loadBalancers, br0Daemon.LoadByName pair.1 pair.2 = .ok n ∧
            br0Daemon.GetNetworkLoadBalancers n.ID = .ok loadBalancers ∧
            List.Forall₂ (IsLoadBalancerAllocation pair.1 pair.2) loadBalancers block)
        pairs loadBalancerBlocks ∧
      ∀ a ∈ br0Allocations,
        a.Type_ = "network-forward" ∨ a.Type_ = "network-load-balancer" → a.NAT = false :=
  response_forward_allocations br0Daemon scenarioRequest true br0Allocations (by decide)

/-- C11: in every successful response of `networkAllocationsGet` the allocations of type
`network` are, network by network in the order in which the handler visits the networks
of the request, one for the family `ipv4` when `ipv4.address` of the network parses as an
address in CIDR notation, then one for the family `ipv6` when `ipv6.address` does, and
none for a family whose key is absent or does not parse; the NAT flag of each is `IsTrue`
of the `.nat` key of that same family. -/
theorem response_network_allocations (d : Daemon) (r : Request) (success : Bool)
    (result : List NetworkAllocations)
    (h : networkAllocationsGet d r = .SyncResponse success result) :
    ∃ (pairs : List (String × String)) (blocks : List (List NetworkAllocations)),
      RequestNetworks d r pairs ∧
      (result.filter fun a => decide (a.Type_ = "network")) = blocks.flatten ∧
      List.Forall₂
        (fun pair block =>
          ∃ n, d.LoadByName pair.1 pair.2 = .ok n ∧
            block =
              (match ParseIPCIDRToNet (n.Config.get "ipv4.address") with
                | some ipNet =>
                  [{ Address := IPNet.String ipNet
                     UsedBy := apiURL [APIVersion, "networks", pair.2] pair.1
                     Type_ := "network"
                     NAT := IsTrue (n.Config.get "ipv4.nat")
                     Hwaddr := "" }]
                | none => []) ++
              (match ParseIPCIDRToNet (n.Config.get "ipv6.address") with
                | some ipNet =>
                  [{ Address := IPNet.String ipNet
                     UsedBy := apiURL [APIVersion, "networks", pair.2] pair.1
                     Type_ := "network"
                     NAT := IsTrue (n.Config.get "ipv6.nat")
                     Hwaddr := "" }]
                | none => []) ∧
            ∀ key, (∀ v, (key, v) ∉ n.Config) → ParseIPCIDRToNet (n.Config.get key) = none)
        pairs blocks := by
  obtain ⟨pairs, emitted, hreq, hres, hall⟩ := response_blocks h
  refine ⟨pairs, emitted.map (List.filter fun a => decide (a.Type_ = "network")), hreq, ?_, ?_⟩
  · rw [hres, List.filter_flatten]
  · refine List.forall₂_map_right_iff.2 (hall.imp ?_)
    rintro pair block ⟨acc, hbody⟩
    obtain ⟨n, -, -, -, hload, -, -, -, hnet, -⟩ := networkBody_kinds hbody
    refine ⟨n, hload, ?_, ?_⟩
    · have hk1 : ("ipv4" : String) ++ ".address" = "ipv4.address" := by decide
      have hk2 : ("ipv6" : String) ++ ".address" = "ipv6.address" := by decide
      have hk3 : ("ipv4" : String) ++ ".nat" = "ipv4.nat" := by decide
      have hk4 : ("ipv6" : String) ++ ".nat" = "ipv6.nat" := by decide
      rw [hnet]
      simp only [List.filterMap_cons, List.filterMap_nil, familyAllocation, hk1, hk2, hk3, hk4]
      cases ParseIPCIDRToNet (n.Config.get "ipv4.address") <;>
        cases ParseIPCIDRToNet (n.Config.get "ipv6.address") <;> rfl
    · intro key hkey
      rw [Config.get_absent _ _ hkey]
      decide

/-- C11, at a request for the project of the network `br0`, which has both families. -/
theorem response_network_allocations_witness :
    ∃ (pairs : List (String × String)) (blocks : List (List NetworkAllocations)),
      RequestNetworks br0Daemon scenarioRequest pairs ∧
      (br0Allocations.filter fun a => decide (a.Type_ = "network")) = blocks.flatten ∧
      List.Forall₂
        (fun pair block =>
          ∃ n, br0Daemon.LoadByName pair.1 pair.2 = .ok n ∧
            block =
              (match ParseIPCIDRToNet (n.Config.get "ipv4.address") with
                | some ipNet =>
                  [{ Address := IPNet.String ipNet
                     UsedBy := apiURL [APIVersion, "networks", pair.2] pair.1
                     Type_ := "network"
                     NAT := IsTrue (n.Config.get "ipv4.nat")
                     Hwaddr := "" }]
                | none => []) ++
              (match ParseIPCIDRToNet (n.Config.get "ipv6.address") with
                | some ipNet =>
                  [{ Address := IPNet.String ipNet
                     UsedBy := apiURL [APIVersion, "networks", pair.2] pair.1
                     Type_ := "network"
                     NAT := IsTrue (n.Config.get "ipv6.nat")
                     Hwaddr := "" }]
                | none => []) ∧
            ∀ key, (∀ v, (key, v) ∉ n.Config) → ParseIPCIDRToNet (n.Config.get key) = none)
        pairs blocks :=
  response_network_allocations br0Daemon scenarioRequest true br0Allocations (by decide)

end Incus
